import Mathlib

/-!
Shallow embedding of the oong front end (lexer + recursive-descent parser,
`src/lexer.cpp` / `src/parser.cpp`), together with theorems settling the
frozen claims about it.

The source buffer is modelled as a list of bytes (`List Nat`), positions as
`Nat`, exactly as the C++ indexes `std::string` by bytes.  Every scanning
loop of the lexer advances its position by at least one byte per iteration,
so each loop is written as a structurally recursive function on a fuel
argument instantiated with `src.length + 1`, which is enough for the loop to
run to its natural exit.  The parser, by contrast, can genuinely diverge
(see the claim about termination), so all parser functions take an explicit
fuel argument and return `none` exactly when the fuel runs out.
-/

/-- Bytes of the UTF-8 source buffer, as natural numbers `< 256`. -/
abbrev Byte := Nat

/-- Byte list of an ASCII string (used for concrete sources and keyword texts). -/
def bl (s : String) : List Byte := s.data.map Char.toNat

/-- `Src[i]`.  The C++ checks bounds before every read, so the default `0` is
never semantically relevant; the embedding repeats the same bounds checks. -/
def sget (s : List Byte) (i : Nat) : Byte := s.getD i 0

/-- `Src.substr(start, len)`. -/
def subl (s : List Byte) (start len : Nat) : List Byte := (s.drop start).take len

/-- `isUtf8LineSeparator` from lexer.cpp: UTF-8 encoded U+2028 / U+2029. -/
def isUtf8LineSeparator (s : List Byte) (pos : Nat) : Bool :=
  if pos + 2 ≥ s.length then false
  else
    sget s pos == 0xE2 && sget s (pos + 1) == 0x80 &&
      (sget s (pos + 2) == 0xA8 || sget s (pos + 2) == 0xA9)

/-- `isUtf8ZWNCorZWJ` from lexer.cpp: UTF-8 encoded U+200C / U+200D. -/
def isUtf8ZWNCorZWJ (s : List Byte) (pos : Nat) : Bool :=
  if pos + 2 ≥ s.length then false
  else
    sget s pos == 0xE2 && sget s (pos + 1) == 0x80 &&
      (sget s (pos + 2) == 0x8C || sget s (pos + 2) == 0x8D)

/-- `utf8SequenceLength` from lexer.cpp. -/
def utf8SequenceLength (lead : Byte) : Nat :=
  if lead &&& 0x80 == 0 then 1
  else if lead &&& 0xE0 == 0xC0 then 2
  else if lead &&& 0xF0 == 0xE0 then 3
  else if lead &&& 0xF8 == 0xF0 then 4
  else 1

/-- `lineTerminatorLength` from lexer.cpp (CRLF counts as one terminator). -/
def lineTerminatorLength (s : List Byte) (pos : Nat) : Nat :=
  if pos ≥ s.length then 0
  else
    let ch := sget s pos
    if ch == 13 then (if pos + 1 < s.length && sget s (pos + 1) == 10 then 2 else 1)
    else if ch == 10 then 1
    else if isUtf8LineSeparator s pos then 3
    else 0

/-- `regBackslashSequenceLength` from lexer.cpp. -/
def regBackslashSequenceLength (s : List Byte) (pos : Nat) : Nat :=
  if pos + 1 ≥ s.length then 0
  else if lineTerminatorLength s (pos + 1) ≠ 0 then 0
  else
    let len := utf8SequenceLength (sget s (pos + 1))
    if pos + 1 + (len - 1) ≥ s.length then 0
    else 1 + len

/-- Loop body of `regClassLength` (scan to the matching `]`). -/
def regClassGo (s : List Byte) (pos : Nat) : Nat → Nat → Nat
  | 0, _ => 0
  | fuel + 1, p =>
    if p ≥ s.length then 0
    else if sget s p == 93 then p - pos + 1
    else if sget s p == 92 then
      let blen := regBackslashSequenceLength s p
      if blen == 0 then 0 else regClassGo s pos fuel (p + blen)
    else if lineTerminatorLength s p ≠ 0 then 0
    else
      let uc := sget s p
      if uc &&& 0x80 ≠ 0 then regClassGo s pos fuel (p + utf8SequenceLength uc)
      else regClassGo s pos fuel (p + 1)

/-- `regClassLength` from lexer.cpp. -/
def regClassLength (s : List Byte) (pos : Nat) : Nat :=
  if pos ≥ s.length then 0
  else if sget s pos ≠ 91 then 0
  else regClassGo s pos (s.length + 1) (pos + 1)

/-- `regFirstCharLength` from lexer.cpp. -/
def regFirstCharLength (s : List Byte) (pos : Nat) : Nat :=
  if pos ≥ s.length then 0
  else if sget s pos == 91 then regClassLength s pos
  else if sget s pos == 92 then regBackslashSequenceLength s pos
  else if lineTerminatorLength s pos ≠ 0 then 0
  else if sget s pos == 47 then 0
  else
    let len := utf8SequenceLength (sget s pos)
    if pos + len - 1 ≥ s.length then 0
    else len

/-- `regCharLength` from lexer.cpp (same as the first-char production). -/
def regCharLength (s : List Byte) (pos : Nat) : Nat := regFirstCharLength s pos

/-- Loop body of `lineContinuationLength` (consume the run of terminators). -/
def lineContinuationGo (s : List Byte) : Nat → Nat → Nat → Nat
  | 0, _, consumed => consumed
  | fuel + 1, p, consumed =>
    if p ≥ s.length then consumed
    else
      let l2 := lineTerminatorLength s p
      if l2 == 0 then consumed
      else lineContinuationGo s fuel (p + l2) (consumed + l2)

/-- `lineContinuationLength` from lexer.cpp. -/
def lineContinuationLength (s : List Byte) (pos : Nat) : Nat :=
  if pos ≥ s.length then 0
  else if sget s pos ≠ 92 then 0
  else if lineTerminatorLength s (pos + 1) == 0 then 0
  else lineContinuationGo s (s.length + 1) (pos + 1) 1

/-- `isHexDigitFragment` from lexer.cpp: `[_0-9a-fA-F]` (underscore included). -/
def isHexDigitFragment (ch : Byte) : Bool :=
  ch == 95 || (48 ≤ ch && ch ≤ 57) || (97 ≤ ch && ch ≤ 102) || (65 ≤ ch && ch ≤ 70)

/-- `isSingleEscapeChar` from lexer.cpp: `["\bfnrtv]`. -/
def isSingleEscapeChar (ch : Byte) : Bool :=
  ch == 34 || ch == 92 || ch == 98 || ch == 102 || ch == 110 || ch == 114 || ch == 116 || ch == 118

/-- Trailing loop shared by `skipSingleLineComment` and `skipHashBang`:
consume up to (not including) the next line terminator or EOF. -/
def lineCommentGo (s : List Byte) : Nat → Nat → Nat
  | 0, p => p
  | fuel + 1, p =>
    if p ≥ s.length then p
    else if lineTerminatorLength s p ≠ 0 then p
    else lineCommentGo s fuel (p + 1)

/-- `Lexer::skipSingleLineComment`; `some p` is the new cursor when the
comment matched, `none` when it did not. -/
def skipSingleLineComment (s : List Byte) (pos : Nat) : Option Nat :=
  if sget s pos ≠ 47 then none
  else if pos + 1 ≥ s.length then none
  else if sget s (pos + 1) ≠ 47 then none
  else some (lineCommentGo s (s.length + 1) (pos + 2))

/-- `Lexer::skipHashBang` (only at byte offset 0, optional BOM). -/
def skipHashBang (s : List Byte) (pos : Nat) : Option Nat :=
  if pos ≠ 0 then none
  else
    let checkPos :=
      if s.length ≥ 3 && sget s 0 == 0xEF && sget s 1 == 0xBB && sget s 2 == 0xBF then 3 else 0
    if checkPos + 1 ≥ s.length then none
    else if sget s checkPos ≠ 35 then none
    else if sget s (checkPos + 1) ≠ 33 then none
    else some (lineCommentGo s (s.length + 1) (checkPos + 2))

/-- Loop body of `skipHtmlComment`: non-greedy scan for the closing arrow. -/
def htmlCommentGo (s : List Byte) : Nat → Nat → Nat
  | 0, p => p
  | fuel + 1, p =>
    if ¬(p + 2 < s.length) then s.length
    else if sget s p == 45 && sget s (p + 1) == 45 && sget s (p + 2) == 62 then p + 3
    else htmlCommentGo s fuel (p + 1)

/-- `Lexer::skipHtmlComment`. -/
def skipHtmlComment (s : List Byte) (pos : Nat) : Option Nat :=
  if pos + 3 ≥ s.length then none
  else if ¬(sget s pos == 60 && sget s (pos + 1) == 33 && sget s (pos + 2) == 45 &&
            sget s (pos + 3) == 45) then none
  else some (htmlCommentGo s (s.length + 1) (pos + 4))

/-- Loop body of `skipCDataComment`. -/
def cdataGo (s : List Byte) : Nat → Nat → Nat
  | 0, p => p
  | fuel + 1, p =>
    if ¬(p + 2 < s.length) then s.length
    else if sget s p == 93 && sget s (p + 1) == 93 && sget s (p + 2) == 62 then p + 3
    else cdataGo s fuel (p + 1)

/-- `Lexer::skipCDataComment`. -/
def skipCDataComment (s : List Byte) (pos : Nat) : Option Nat :=
  if pos + 8 ≥ s.length then none
  else if subl s pos 9 ≠ bl "<![CDATA[" then none
  else some (cdataGo s (s.length + 1) (pos + 9))

/-- Loop body of `skipMultiLineComment` (nestable block comments). -/
def multiLineGo (s : List Byte) : Nat → Nat → Nat → Nat
  | 0, p, _ => p
  | fuel + 1, p, depth =>
    if ¬(p + 1 < s.length) then s.length
    else if sget s p == 47 && sget s (p + 1) == 42 then multiLineGo s fuel (p + 2) (depth + 1)
    else if sget s p == 42 && sget s (p + 1) == 47 then
      if depth - 1 == 0 then p + 2
      else multiLineGo s fuel (p + 2) (depth - 1)
    else multiLineGo s fuel (p + 1) depth

/-- `Lexer::skipMultiLineComment`. -/
def skipMultiLineComment (s : List Byte) (pos : Nat) : Option Nat :=
  if sget s pos ≠ 47 then none
  else if pos + 1 ≥ s.length then none
  else if sget s (pos + 1) ≠ 42 then none
  else some (multiLineGo s (s.length + 1) (pos + 2) 1)

/-- Loop body of `Lexer::skipWhitespace`. -/
def skipWhitespaceGo (s : List Byte) : Nat → Nat → Nat
  | 0, p => p
  | fuel + 1, p =>
    if p ≥ s.length then p
    else
      let c := sget s p
      if c == 9 || c == 11 || c == 12 || c == 32 || c == 0xA0 then
        skipWhitespaceGo s fuel (p + 1)
      else
        let ltlen := lineTerminatorLength s p
        if ltlen ≠ 0 then skipWhitespaceGo s fuel (p + ltlen)
        else
          match skipHashBang s p with
          | some p2 => skipWhitespaceGo s fuel p2
          | none =>
            match skipSingleLineComment s p with
            | some p2 => skipWhitespaceGo s fuel p2
            | none =>
              match skipHtmlComment s p with
              | some p2 => skipWhitespaceGo s fuel p2
              | none =>
                match skipCDataComment s p with
                | some p2 => skipWhitespaceGo s fuel p2
                | none =>
                  match skipMultiLineComment s p with
                  | some p2 => skipWhitespaceGo s fuel p2
                  | none => p

/-- `Lexer::skipWhitespace` as a function from cursor to cursor. -/
def skipWhitespacePos (s : List Byte) (pos : Nat) : Nat :=
  skipWhitespaceGo s (s.length + 1) pos

/-- Modelled from the spec: the token-kind enumeration.  `token.h` in the tree
is a stale snapshot declaring only a subset of the kinds; `token.cpp`,
`lexer.cpp` and `parser.cpp` reference the full closed enumeration (spec §3,
"closed enumeration of ~100 variants"), reconstructed here as the union of
all kinds those three files use. -/
inductive TokenKind where
  | Tok_EOF | Tok_Print
  | Tok_ConsoleLog | Tok_ConsoleError | Tok_ConsoleWarn | Tok_ConsoleInfo | Tok_ConsoleSuccess
  | Tok_Break | Tok_Do | Tok_Instanceof | Tok_Typeof | Tok_Case | Tok_Else | Tok_New | Tok_Var
  | Tok_Catch | Tok_Finally | Tok_Void | Tok_Continue | Tok_For | Tok_Switch | Tok_While
  | Tok_Debugger | Tok_Function | Tok_This | Tok_With | Tok_Default | Tok_If | Tok_Throw
  | Tok_Delete | Tok_In | Tok_Try | Tok_As | Tok_From | Tok_Of | Tok_Yield | Tok_YieldStar
  | Tok_Class | Tok_Enum | Tok_Extends | Tok_Super | Tok_Const | Tok_Export | Tok_Import
  | Tok_Async | Tok_Await | Tok_Implements | Tok_Private | Tok_Public | Tok_Interface
  | Tok_Package | Tok_Protected | Tok_Static | Tok_StrictLet | Tok_NonStrictLet | Tok_Return
  | Tok_LParen | Tok_RParen | Tok_LBracket | Tok_RBracket | Tok_LBrace | Tok_RBrace
  | Tok_Semi | Tok_Comma | Tok_Assign | Tok_Arrow | Tok_Question | Tok_QuestionDot
  | Tok_Colon | Tok_Ellipsis | Tok_Dot
  | Tok_Plus | Tok_PlusPlus | Tok_PlusAssign | Tok_Minus | Tok_MinusMinus | Tok_MinusAssign
  | Tok_BitNot | Tok_Not | Tok_Multiply | Tok_Divide | Tok_Modulus | Tok_Power
  | Tok_ModulusAssign | Tok_PowerAssign | Tok_NullishCoalescingAssign | Tok_MultiplyAssign
  | Tok_NullCoalesce | Tok_Hashtag
  | Tok_RightShiftArithmetic | Tok_RightShiftArithmeticAssign
  | Tok_RightShiftLogical | Tok_RightShiftLogicalAssign
  | Tok_MoreThan | Tok_GreaterThanEquals
  | Tok_LeftShiftArithmetic | Tok_LeftShiftArithmeticAssign
  | Tok_LessThan | Tok_LessThanEquals
  | Tok_Equals | Tok_IdentityEquals | Tok_NotEquals | Tok_IdentityNotEquals
  | Tok_BitAnd | Tok_LogicalAnd | Tok_BitAndAssign
  | Tok_BitXor | Tok_BitXorAssign
  | Tok_BitOr | Tok_LogicalOr | Tok_BitOrAssign
  | Tok_DivideAssign
  | Tok_NullLiteral | Tok_BooleanLiteral
  | Tok_BackTick | Tok_TemplateStringAtom | Tok_TemplateStringStartExpression
  | Tok_TemplateCloseBrace
  | Tok_StringLiteral | Tok_DecimalLiteral
  | Tok_BigDecimalIntegerLiteral | Tok_HexIntegerLiteral | Tok_BigHexIntegerLiteral
  | Tok_OctalIntegerLiteral | Tok_OctalIntegerLiteral2 | Tok_BigOctalIntegerLiteral
  | Tok_BinaryIntegerLiteral | Tok_BigBinaryIntegerLiteral
  | Tok_RegularExpressionLiteral
  | Tok_Identifier | Tok_Number
  | Tok_Any | Tok_Never | Tok_Boolean | Tok_String | Tok_Unique | Tok_Symbol
  | Tok_Undefined | Tok_Object
  | Tok_Integer | Tok_Invalid
deriving DecidableEq

/-- `Token` from token.h: kind, raw text slice, byte offset, optional integer payload. -/
structure Token where
  kind : TokenKind
  text : List Byte
  pos : Nat
  intValue : Option Int
deriving DecidableEq

/-- `Lexer` state: immutable source buffer, cursor, strict-mode flag,
template-string mode flag (lexer.h). -/
structure Lexer where
  Src : List Byte
  Pos : Nat
  StrictMode : Bool
  InTemplateString : Bool
deriving DecidableEq

/-- `Lexer::makeToken`. -/
def makeToken (L : Lexer) (k : TokenKind) (start len : Nat) (intVal : Option Int) : Token :=
  { kind := k, text := subl L.Src start len, pos := start, intValue := intVal }

/-- Look-back loop of `Lexer::IsRegexPossible` (p runs down from `Pos - 1`). -/
def isRegexPossibleGo (s : List Byte) : Nat → Nat → Bool
  | 0, _ => true
  | fuel + 1, p =>
    let ch := sget s p
    if ch == 32 || ch == 9 || ch == 11 || ch == 12 || ch == 0xA0 then
      if p == 0 then true else isRegexPossibleGo s fuel (p - 1)
    else
      let lt := lineTerminatorLength s p
      if lt ≠ 0 then
        if p < lt then true else isRegexPossibleGo s fuel (p - lt)
      else if ch == 40 || ch == 44 || ch == 61 || ch == 58 || ch == 91 || ch == 33 ||
              ch == 63 || ch == 123 || ch == 125 then true
      else false

/-- `Lexer::IsRegexPossible`.  Note: in `nextToken` this is called after the
cursor has already been advanced past the slash, so the look-back starts at
the slash itself. -/
def isRegexPossible (L : Lexer) : Bool :=
  if L.Pos == 0 then true
  else isRegexPossibleGo L.Src (L.Pos + 1) (L.Pos - 1)

/-- Loop body of `Lexer::ContainsLineTerminatorBetween`. -/
def containsLTGo (s : List Byte) (toP : Nat) : Nat → Nat → Bool
  | 0, _ => false
  | fuel + 1, p =>
    if p < toP && p < s.length then
      if lineTerminatorLength s p ≠ 0 then true
      else
        let len := utf8SequenceLength (sget s p)
        containsLTGo s toP fuel (p + (if len > 0 then len else 1))
    else false

/-- `Lexer::ContainsLineTerminatorBetween`. -/
def containsLineTerminatorBetween (s : List Byte) (fromP toP : Nat) : Bool :=
  if fromP ≥ s.length then false
  else containsLTGo s toP (s.length + 1) fromP

/-- Scan of a hex-digit run (the `while isHexDigitFragment` loops). -/
def hexRunEnd (s : List Byte) : Nat → Nat → Nat
  | 0, r => r
  | fuel + 1, r =>
    if r < s.length && isHexDigitFragment (sget s r) then hexRunEnd s fuel (r + 1)
    else r

/-- Regex flag scan (the loop after the closing slash in `scanRegularExpression`). -/
def regexFlagsGo (s : List Byte) : Nat → Nat → Nat
  | 0, p => p
  | fuel + 1, p =>
    if p ≥ s.length then p
    else
      let fc := sget s p
      if (97 ≤ fc && fc ≤ 122) || (65 ≤ fc && fc ≤ 90) || (48 ≤ fc && fc ≤ 57) ||
         fc == 95 || fc == 36 then
        regexFlagsGo s fuel (p + 1)
      else if fc == 92 then
        if p + 1 < s.length && sget s (p + 1) == 117 then
          let q := p + 2
          if q + 3 < s.length && isHexDigitFragment (sget s q) &&
             isHexDigitFragment (sget s (q + 1)) && isHexDigitFragment (sget s (q + 2)) &&
             isHexDigitFragment (sget s (q + 3)) then
            regexFlagsGo s fuel (q + 4)
          else if q < s.length && sget s q == 123 then
            let r := hexRunEnd s (s.length + 1) (q + 1)
            if r < s.length && sget s r == 125 && r > q + 1 then regexFlagsGo s fuel (r + 1)
            else p
          else p
        else p
      else p

/-- Main body loop of `Lexer::scanRegularExpression`. -/
def scanRegexGo (L : Lexer) (start : Nat) : Nat → Nat → Token × Lexer
  | 0, p => (makeToken L TokenKind.Tok_Invalid start (p - start) none, { L with Pos := p })
  | fuel + 1, p =>
    let s := L.Src
    if p ≥ s.length then
      (makeToken L TokenKind.Tok_Invalid start (p - start) none, { L with Pos := p })
    else if sget s p == 47 then
      let p2 := regexFlagsGo s (s.length + 1) (p + 1)
      (makeToken L TokenKind.Tok_RegularExpressionLiteral start (p2 - start) none,
        { L with Pos := p2 })
    else
      let clen := regCharLength s p
      if clen == 0 then
        (makeToken L TokenKind.Tok_Invalid start (p - start) none, { L with Pos := p })
      else scanRegexGo L start fuel (p + clen)

/-- `Lexer::scanRegularExpression`; `none` means regex scanning does not
apply here (fall back to division). -/
def scanRegularExpression (L : Lexer) (start : Nat) : Option (Token × Lexer) :=
  let p := L.Pos
  let firstLen := regFirstCharLength L.Src p
  if firstLen == 0 then none
  else some (scanRegexGo L start (L.Src.length + 1) (p + firstLen))

/-- ASCII identifier-continuation bytes (letters, digits, underscore, dollar). -/
def asciiIdCont (nc : Byte) : Bool :=
  (97 ≤ nc && nc ≤ 122) || (65 ≤ nc && nc ≤ 90) || (48 ≤ nc && nc ≤ 57) || nc == 95 || nc == 36

/-- Identifier scanning loop of `Lexer::nextToken`. -/
def idGo (s : List Byte) : Nat → Nat → Nat
  | 0, p => p
  | fuel + 1, p =>
    if p ≥ s.length then p
    else
      let nc := sget s p
      if asciiIdCont nc then idGo s fuel (p + 1)
      else if nc &&& 0x80 ≠ 0 then
        if isUtf8ZWNCorZWJ s p then idGo s fuel (p + 3)
        else idGo s fuel (p + utf8SequenceLength (sget s p))
      else if nc == 92 then
        if p + 1 < s.length && sget s (p + 1) == 117 then
          let q := p + 2
          if q + 3 < s.length && isHexDigitFragment (sget s q) &&
             isHexDigitFragment (sget s (q + 1)) && isHexDigitFragment (sget s (q + 2)) &&
             isHexDigitFragment (sget s (q + 3)) then
            idGo s fuel (q + 4)
          else if q < s.length && sget s q == 123 then
            let r := hexRunEnd s (s.length + 1) (q + 1)
            if r < s.length && sget s r == 125 && r > q + 1 then idGo s fuel (r + 1)
            else p
          else p
        else p
      else p

/-- The keyword table of `Lexer::nextToken` (the if-chain over the scanned text). -/
def kwKind (txt : List Byte) (strict : Bool) : TokenKind :=
  if txt == bl "print" then .Tok_Print
  else if txt == bl "break" then .Tok_Break
  else if txt == bl "do" then .Tok_Do
  else if txt == bl "instanceof" then .Tok_Instanceof
  else if txt == bl "typeof" then .Tok_Typeof
  else if txt == bl "case" then .Tok_Case
  else if txt == bl "else" then .Tok_Else
  else if txt == bl "new" then .Tok_New
  else if txt == bl "var" then .Tok_Var
  else if txt == bl "catch" then .Tok_Catch
  else if txt == bl "finally" then .Tok_Finally
  else if txt == bl "return" then .Tok_Return
  else if txt == bl "void" then .Tok_Void
  else if txt == bl "continue" then .Tok_Continue
  else if txt == bl "for" then .Tok_For
  else if txt == bl "switch" then .Tok_Switch
  else if txt == bl "while" then .Tok_While
  else if txt == bl "debugger" then .Tok_Debugger
  else if txt == bl "function" then .Tok_Function
  else if txt == bl "delete" then .Tok_Delete
  else if txt == bl "in" then .Tok_In
  else if txt == bl "try" then .Tok_Try
  else if txt == bl "default" then .Tok_Default
  else if txt == bl "as" then .Tok_As
  else if txt == bl "from" then .Tok_From
  else if txt == bl "of" then .Tok_Of
  else if txt == bl "yield" then .Tok_Yield
  else if txt == bl "yield*" then .Tok_YieldStar
  else if txt == bl "class" then .Tok_Class
  else if txt == bl "enum" then .Tok_Enum
  else if txt == bl "extends" then .Tok_Extends
  else if txt == bl "super" then .Tok_Super
  else if txt == bl "const" then .Tok_Const
  else if txt == bl "export" then .Tok_Export
  else if txt == bl "import" then .Tok_Import
  else if txt == bl "async" then .Tok_Async
  else if txt == bl "await" then .Tok_Await
  else if txt == bl "implements" && strict then .Tok_Implements
  else if txt == bl "private" && strict then .Tok_Private
  else if txt == bl "public" && strict then .Tok_Public
  else if txt == bl "interface" && strict then .Tok_Interface
  else if txt == bl "package" && strict then .Tok_Package
  else if txt == bl "protected" && strict then .Tok_Protected
  else if txt == bl "static" && strict then .Tok_Static
  else if txt == bl "let" then (if strict then .Tok_StrictLet else .Tok_NonStrictLet)
  else if txt == bl "null" then .Tok_NullLiteral
  else if txt == bl "true" || txt == bl "false" then .Tok_BooleanLiteral
  else .Tok_Invalid

/-- Identifier/keyword branch of `Lexer::nextToken`.  A leading backslash
rewinds the scan start to the identifier start (`Pos = idStart`). -/
def identBranch (L : Lexer) (start : Nat) (c : Byte) : Token × Lexer :=
  let s := L.Src
  let p0 := if c == 92 then start else start + 1
  let pEnd := idGo s (s.length + 1) p0
  let txt := subl s start (pEnd - start)
  (makeToken L (kwKind txt L.StrictMode) start txt.length none, { L with Pos := pEnd })

/-- Run of decimal digits / underscores (the `isDecDigit` loops). -/
def decRunEnd (s : List Byte) : Nat → Nat → Nat
  | 0, p => p
  | fuel + 1, p =>
    if p < s.length && ((48 ≤ sget s p && sget s p ≤ 57) || sget s p == 95) then
      decRunEnd s fuel (p + 1)
    else p

/-- Run of hex digits / underscores for `0x` literals. -/
def hexUnderRun (s : List Byte) : Nat → Nat → Nat
  | 0, p => p
  | fuel + 1, p =>
    if p < s.length && (isHexDigitFragment (sget s p) || sget s p == 95) then
      hexUnderRun s fuel (p + 1)
    else p

/-- Run of binary digits / underscores for `0b` literals. -/
def binRun (s : List Byte) : Nat → Nat → Nat
  | 0, p => p
  | fuel + 1, p =>
    if p < s.length && (sget s p == 48 || sget s p == 49 || sget s p == 95) then
      binRun s fuel (p + 1)
    else p

/-- Run of octal digits / underscores for `0o` literals. -/
def octRun (s : List Byte) : Nat → Nat → Nat
  | 0, p => p
  | fuel + 1, p =>
    if p < s.length && ((48 ≤ sget s p && sget s p ≤ 55) || sget s p == 95) then
      octRun s fuel (p + 1)
    else p

/-- Run of octal digits (no underscores) for legacy `0NN` literals. -/
def legacyOctRun (s : List Byte) : Nat → Nat → Nat
  | 0, p => p
  | fuel + 1, p =>
    if p < s.length && (48 ≤ sget s p && sget s p ≤ 55) then legacyOctRun s fuel (p + 1)
    else p

/-- Integer value of a `Tok_Integer` token: `val = val * 10 + (ch - '0')`,
skipping underscore separators (no overflow checks in the source either;
the value is modelled in `Int`). -/
def intValOfRange (s : List Byte) (start p : Nat) : Int :=
  (subl s start (p - start)).foldl
    (fun v ch => if ch == 95 then v else v * 10 + (Int.ofNat ch - 48)) 0

/-- Decimal/exponent tail of the number branch of `Lexer::nextToken`.
Returns `none` when the branch falls through to the string/punctuator code
(possible only for a lone leading dot, with the cursor back at `start + 1`). -/
def numberTail (L : Lexer) (start : Nat) : Option (Token × Lexer) :=
  let s := L.Src
  let c := sget s start
  let hasDigits := 48 ≤ c && c ≤ 57
  let p1 := if hasDigits then decRunEnd s (s.length + 1) (start + 1) else start + 1
  -- fraction: '.' followed by a digit
  if p1 < s.length && sget s p1 == 46 &&
     p1 + 1 < s.length && 48 ≤ sget s (p1 + 1) && sget s (p1 + 1) ≤ 57 then
    let p2 := decRunEnd s (s.length + 1) (p1 + 1)
    let p4 :=
      if p2 < s.length && (sget s p2 == 101 || sget s p2 == 69) then
        let expPos := if p2 + 1 < s.length && (sget s (p2 + 1) == 43 || sget s (p2 + 1) == 45)
                      then p2 + 2 else p2 + 1
        if expPos < s.length && ((48 ≤ sget s expPos && sget s expPos ≤ 57) || sget s expPos == 95)
        then decRunEnd s (s.length + 1) expPos
        else p2
      else p2
    some (makeToken L .Tok_DecimalLiteral start (p4 - start) none, { L with Pos := p4 })
  else if p1 < s.length && sget s p1 == 46 && ¬hasDigits then
    -- lone '.' without digits before or after: backtrack to a dot token
    some (makeToken L .Tok_Dot start 1 none, { L with Pos := start + 1 })
  else
    -- no fraction; exponent may still make it decimal
    if p1 < s.length && (sget s p1 == 101 || sget s p1 == 69) then
      let expPos := if p1 + 1 < s.length && (sget s (p1 + 1) == 43 || sget s (p1 + 1) == 45)
                    then p1 + 2 else p1 + 1
      if expPos < s.length && ((48 ≤ sget s expPos && sget s expPos ≤ 57) || sget s expPos == 95)
      then
        let p4 := decRunEnd s (s.length + 1) expPos
        some (makeToken L .Tok_DecimalLiteral start (p4 - start) none, { L with Pos := p4 })
      else
        if hasDigits && p1 < s.length && sget s p1 == 110 then
          some (makeToken L .Tok_BigDecimalIntegerLiteral start (p1 + 1 - start) none,
            { L with Pos := p1 + 1 })
        else if hasDigits then
          some (makeToken L .Tok_Integer start (p1 - start) (some (intValOfRange s start p1)),
            { L with Pos := p1 })
        else none
    else if hasDigits && p1 < s.length && sget s p1 == 110 then
      some (makeToken L .Tok_BigDecimalIntegerLiteral start (p1 + 1 - start) none,
        { L with Pos := p1 + 1 })
    else if hasDigits then
      some (makeToken L .Tok_Integer start (p1 - start) (some (intValOfRange s start p1)),
        { L with Pos := p1 })
    else none

/-- Number branch of `Lexer::nextToken` (0x/0b/0o, legacy octal, decimals,
bigints); `none` when the branch falls through without emitting a token. -/
def numberBranch (L : Lexer) (start : Nat) : Option (Token × Lexer) :=
  let s := L.Src
  let c := sget s start
  if c == 48 && start + 1 < s.length then
    let nx := sget s (start + 1)
    if nx == 120 || nx == 88 then
      -- hex 0x...
      if ¬(start + 2 < s.length && isHexDigitFragment (sget s (start + 2))) then
        some (makeToken L .Tok_Integer start 1 (some 0), { L with Pos := start + 1 })
      else
        let p := hexUnderRun s (s.length + 1) (start + 2)
        if p < s.length && sget s p == 110 then
          some (makeToken L .Tok_BigHexIntegerLiteral start (p + 1 - start) none,
            { L with Pos := p + 1 })
        else some (makeToken L .Tok_HexIntegerLiteral start (p - start) none, { L with Pos := p })
    else if nx == 98 || nx == 66 then
      -- binary 0b...
      if ¬(start + 2 < s.length && (sget s (start + 2) == 48 || sget s (start + 2) == 49)) then
        some (makeToken L .Tok_Integer start 1 (some 0), { L with Pos := start + 1 })
      else
        let p := binRun s (s.length + 1) (start + 2)
        if p < s.length && sget s p == 110 then
          some (makeToken L .Tok_BigBinaryIntegerLiteral start (p + 1 - start) none,
            { L with Pos := p + 1 })
        else some (makeToken L .Tok_BinaryIntegerLiteral start (p - start) none,
          { L with Pos := p })
    else if nx == 111 || nx == 79 then
      -- octal with explicit 0o...
      if ¬(start + 2 < s.length && 48 ≤ sget s (start + 2) && sget s (start + 2) ≤ 55) then
        some (makeToken L .Tok_Integer start 1 (some 0), { L with Pos := start + 1 })
      else
        let p := octRun s (s.length + 1) (start + 2)
        if p < s.length && sget s p == 110 then
          some (makeToken L .Tok_BigOctalIntegerLiteral start (p + 1 - start) none,
            { L with Pos := p + 1 })
        else some (makeToken L .Tok_OctalIntegerLiteral2 start (p - start) none,
          { L with Pos := p })
    else if ¬L.StrictMode && 48 ≤ nx && nx ≤ 55 then
      -- legacy octal 0[0-7]+ (non-strict only)
      let p := legacyOctRun s (s.length + 1) (start + 1)
      if p < s.length && sget s p == 110 then
        some (makeToken L .Tok_BigOctalIntegerLiteral start (p + 1 - start) none,
          { L with Pos := p + 1 })
      else some (makeToken L .Tok_OctalIntegerLiteral start (p - start) none, { L with Pos := p })
    else if 48 ≤ nx && nx ≤ 57 then
      -- '0' followed by a decimal digit: emit the single '0'
      some (makeToken L .Tok_Integer start 1 (some 0), { L with Pos := start + 1 })
    else numberTail L start
  else numberTail L start

/-- String-literal scanning loop of `Lexer::nextToken` (`p` is just past the
character about to be examined, following the `ch = Src[p++]` pattern). -/
def strGo (L : Lexer) (start : Nat) (quote : Byte) : Nat → Nat → Token × Lexer
  | 0, p => (makeToken L .Tok_Invalid start (p - start) none, { L with Pos := p })
  | fuel + 1, p =>
    let s := L.Src
    if p ≥ s.length then
      (makeToken L .Tok_Invalid start (p - start) none, { L with Pos := p })
    else
      let ch := sget s p
      let p' := p + 1
      if ch == quote then
        (makeToken L .Tok_StringLiteral start (p' - start) none, { L with Pos := p' })
      else if ch == 92 then
        let lc := lineContinuationLength s p
        if lc ≠ 0 then strGo L start quote fuel (p + lc)
        else if p' < s.length then
          let esc := sget s p'
          if esc == 120 then
            let q := p' + 1
            if q + 1 < s.length && isHexDigitFragment (sget s q) &&
               isHexDigitFragment (sget s (q + 1)) then
              strGo L start quote fuel (q + 2)
            else
              let badLen := q + 1 - start
              (makeToken L .Tok_Invalid start badLen none, { L with Pos := start + badLen })
          else if esc == 117 then
            let q := p' + 1
            if q + 3 < s.length && isHexDigitFragment (sget s q) &&
               isHexDigitFragment (sget s (q + 1)) && isHexDigitFragment (sget s (q + 2)) &&
               isHexDigitFragment (sget s (q + 3)) then
              strGo L start quote fuel (q + 4)
            else if q < s.length && sget s q == 123 then
              let r := hexRunEnd s (s.length + 1) (q + 1)
              if r < s.length && sget s r == 125 && r > q + 1 then
                strGo L start quote fuel (r + 1)
              else
                let badLen := q + 1 - start
                (makeToken L .Tok_Invalid start badLen none, { L with Pos := start + badLen })
            else
              let badLen := q + 1 - start
              (makeToken L .Tok_Invalid start badLen none, { L with Pos := start + badLen })
          else if esc == 48 && p' + 1 < s.length &&
                  48 ≤ sget s (p' + 1) && sget s (p' + 1) ≤ 57 then
            let badLen := p' + 1 - start
            (makeToken L .Tok_Invalid start badLen none, { L with Pos := start + badLen })
          else if isSingleEscapeChar esc then strGo L start quote fuel (p' + 1)
          else if 49 ≤ esc && esc ≤ 57 then strGo L start quote fuel (p' + 1)
          else if esc == 13 || esc == 10 || isUtf8LineSeparator s p' then
            let badLen := p' + 1 - start
            (makeToken L .Tok_Invalid start badLen none, { L with Pos := start + badLen })
          else strGo L start quote fuel (p' + 1)
        else strGo L start quote fuel p'
      else if lineTerminatorLength s p ≠ 0 then
        (makeToken L .Tok_Invalid start (p' - start) none, { L with Pos := p' })
      else strGo L start quote fuel p'

/-- String-literal branch of `Lexer::nextToken`. -/
def stringBranch (L : Lexer) (start : Nat) (quote : Byte) : Token × Lexer :=
  strGo L start quote (L.Src.length + 1) (start + 1)

/-- Template-string scanning branch of `Lexer::nextToken` (active only when
`InTemplateString` is set). -/
def templateGo (L : Lexer) (atomStart : Nat) : Nat → Nat → Token × Lexer
  | 0, p => (makeToken L .Tok_Invalid atomStart 0 none, { L with Pos := p })
  | fuel + 1, p =>
    let s := L.Src
    if p ≥ s.length then
      if p > atomStart then
        (makeToken L .Tok_TemplateStringAtom atomStart (p - atomStart) none, { L with Pos := p })
      else (makeToken L .Tok_Invalid atomStart 0 none, { L with Pos := p })
    else if sget s p == 92 then
      if p + 1 ≥ s.length then templateGo L atomStart fuel (p + 1)
      else
        let lc := lineContinuationLength s p
        if lc ≠ 0 then templateGo L atomStart fuel (p + lc)
        else
          let esc := sget s (p + 1)
          if esc == 120 then
            let q := p + 2
            if q + 1 < s.length && isHexDigitFragment (sget s q) &&
               isHexDigitFragment (sget s (q + 1)) then
              templateGo L atomStart fuel (q + 2)
            else
              (makeToken L .Tok_Invalid atomStart (p + 2 - atomStart) none, { L with Pos := p + 2 })
          else if esc == 117 then
            let q := p + 2
            if q + 3 < s.length && isHexDigitFragment (sget s q) &&
               isHexDigitFragment (sget s (q + 1)) && isHexDigitFragment (sget s (q + 2)) &&
               isHexDigitFragment (sget s (q + 3)) then
              templateGo L atomStart fuel (q + 4)
            else if q < s.length && sget s q == 123 then
              let r := hexRunEnd s (s.length + 1) (q + 1)
              if r < s.length && sget s r == 125 && r > q + 1 then
                templateGo L atomStart fuel (r + 1)
              else
                (makeToken L .Tok_Invalid atomStart (p + 2 - atomStart) none,
                  { L with Pos := p + 2 })
            else
              (makeToken L .Tok_Invalid atomStart (p + 2 - atomStart) none, { L with Pos := p + 2 })
          else if esc == 48 then
            if p + 2 < s.length && 48 ≤ sget s (p + 2) && sget s (p + 2) ≤ 57 then
              (makeToken L .Tok_Invalid atomStart (p + 2 - atomStart) none, { L with Pos := p + 2 })
            else templateGo L atomStart fuel (p + 2)
          else if 49 ≤ esc && esc ≤ 57 then templateGo L atomStart fuel (p + 2)
          else if isSingleEscapeChar esc then templateGo L atomStart fuel (p + 2)
          else if esc == 13 || esc == 10 || isUtf8LineSeparator s (p + 1) then
            (makeToken L .Tok_Invalid atomStart (p + 2 - atomStart) none, { L with Pos := p + 2 })
          else templateGo L atomStart fuel (p + 2)
    else if sget s p == 96 then
      if p > atomStart then
        (makeToken L .Tok_TemplateStringAtom atomStart (p - atomStart) none, { L with Pos := p })
      else
        (makeToken L .Tok_BackTick p 1 none, { L with Pos := p + 1, InTemplateString := false })
    else if sget s p == 36 && p + 1 < s.length && sget s (p + 1) == 123 then
      if p > atomStart then
        (makeToken L .Tok_TemplateStringAtom atomStart (p - atomStart) none, { L with Pos := p })
      else (makeToken L .Tok_TemplateStringStartExpression p 2 none, { L with Pos := p + 2 })
    else templateGo L atomStart fuel (p + 1)

/-- Division fallback of the slash case (`/=` or `/`). -/
def divisionTail (L : Lexer) (start : Nat) : Token × Lexer :=
  let s := L.Src
  if start + 1 < s.length && sget s (start + 1) == 61 then
    (makeToken L .Tok_DivideAssign start 2 none, { L with Pos := start + 2 })
  else (makeToken L .Tok_Divide start 1 none, { L with Pos := start + 1 })

/-- The punctuator/operator switch of `Lexer::nextToken` (the `switch (c)`),
with cursor at `start + 1` (the consumed character). -/
def punctSwitch (L : Lexer) (start : Nat) (c : Byte) : Token × Lexer :=
  let s := L.Src
  let pos1 := start + 1
  let one : TokenKind → Token × Lexer := fun k =>
    (makeToken L k start 1 none, { L with Pos := start + 1 })
  let two : TokenKind → Token × Lexer := fun k =>
    (makeToken L k start 2 none, { L with Pos := start + 2 })
  let three : TokenKind → Token × Lexer := fun k =>
    (makeToken L k start 3 none, { L with Pos := start + 3 })
  let four : TokenKind → Token × Lexer := fun k =>
    (makeToken L k start 4 none, { L with Pos := start + 4 })
  if c == 96 then one .Tok_BackTick
  else if c == 35 then one .Tok_Hashtag
  else if c == 91 then one .Tok_LBracket
  else if c == 93 then one .Tok_RBracket
  else if c == 40 then one .Tok_LParen
  else if c == 41 then one .Tok_RParen
  else if c == 123 then one .Tok_LBrace
  else if c == 125 then one .Tok_RBrace
  else if c == 59 then one .Tok_Semi
  else if c == 44 then one .Tok_Comma
  else if c == 61 then
    if pos1 < s.length && sget s pos1 == 62 then two .Tok_Arrow
    else if pos1 + 1 < s.length && sget s pos1 == 61 && sget s (pos1 + 1) == 61 then
      three .Tok_IdentityEquals
    else if pos1 < s.length && sget s pos1 == 61 then two .Tok_Equals
    else one .Tok_Assign
  else if c == 43 then
    if pos1 < s.length && sget s pos1 == 61 then two .Tok_PlusAssign
    else if pos1 < s.length && sget s pos1 == 43 then two .Tok_PlusPlus
    else one .Tok_Plus
  else if c == 58 then one .Tok_Colon
  else if c == 46 then
    if pos1 + 1 < s.length && sget s pos1 == 46 && sget s (pos1 + 1) == 46 then three .Tok_Ellipsis
    else one .Tok_Dot
  else if c == 63 then
    if pos1 + 1 < s.length && sget s pos1 == 63 && sget s (pos1 + 1) == 61 then
      three .Tok_NullishCoalescingAssign
    else if pos1 < s.length && sget s pos1 == 63 then two .Tok_NullCoalesce
    else if pos1 < s.length && sget s pos1 == 46 then two .Tok_QuestionDot
    else one .Tok_Question
  else if c == 45 then
    if pos1 < s.length && sget s pos1 == 61 then two .Tok_MinusAssign
    else if pos1 < s.length && sget s pos1 == 45 then two .Tok_MinusMinus
    else one .Tok_Minus
  else if c == 126 then one .Tok_BitNot
  else if c == 33 then
    if pos1 + 1 < s.length && sget s pos1 == 61 && sget s (pos1 + 1) == 61 then
      three .Tok_IdentityNotEquals
    else if pos1 < s.length && sget s pos1 == 61 then two .Tok_NotEquals
    else one .Tok_Not
  else if c == 42 then
    if pos1 + 1 < s.length && sget s pos1 == 42 && sget s (pos1 + 1) == 61 then
      three .Tok_PowerAssign
    else if pos1 < s.length && sget s pos1 == 42 then two .Tok_Power
    else if pos1 < s.length && sget s pos1 == 61 then two .Tok_MultiplyAssign
    else one .Tok_Multiply
  else if c == 47 then
    if isRegexPossible { L with Pos := start + 1 } then
      match scanRegularExpression { L with Pos := start + 1 } start with
      | some tl => tl
      | none => divisionTail L start
    else divisionTail L start
  else if c == 37 then
    if pos1 < s.length && sget s pos1 == 61 then two .Tok_ModulusAssign
    else one .Tok_Modulus
  else if c == 62 then
    if pos1 + 2 < s.length && sget s pos1 == 62 && sget s (pos1 + 1) == 62 &&
       sget s (pos1 + 2) == 61 then four .Tok_RightShiftLogicalAssign
    else if pos1 + 1 < s.length && sget s pos1 == 62 && sget s (pos1 + 1) == 62 &&
            pos1 + 2 < s.length && sget s (pos1 + 2) == 62 then three .Tok_RightShiftLogical
    else if pos1 < s.length && sget s pos1 == 62 && pos1 + 1 < s.length &&
            sget s (pos1 + 1) == 61 then three .Tok_RightShiftArithmeticAssign
    else if pos1 < s.length && sget s pos1 == 62 then two .Tok_RightShiftArithmetic
    else if pos1 < s.length && sget s pos1 == 61 then two .Tok_GreaterThanEquals
    else one .Tok_MoreThan
  else if c == 38 then
    if pos1 < s.length && sget s pos1 == 38 then two .Tok_LogicalAnd
    else if pos1 < s.length && sget s pos1 == 61 then two .Tok_BitAndAssign
    else one .Tok_BitAnd
  else if c == 94 then
    if pos1 < s.length && sget s pos1 == 61 then two .Tok_BitXorAssign
    else one .Tok_BitXor
  else if c == 124 then
    if pos1 < s.length && sget s pos1 == 124 then two .Tok_LogicalOr
    else if pos1 < s.length && sget s pos1 == 61 then two .Tok_BitOrAssign
    else one .Tok_BitOr
  else if c == 60 then
    if pos1 + 1 < s.length && sget s pos1 == 60 && sget s (pos1 + 1) == 61 then
      three .Tok_LeftShiftArithmeticAssign
    else if pos1 < s.length && sget s pos1 == 60 then two .Tok_LeftShiftArithmetic
    else if pos1 < s.length && sget s pos1 == 61 then two .Tok_LessThanEquals
    else one .Tok_LessThan
  else one .Tok_Invalid

/-- Identifier-start test of `Lexer::nextToken` (letters, `_`, `$`, `\`,
any byte with the high bit set). -/
def isIdentStartByte (c : Byte) : Bool :=
  (97 ≤ c && c ≤ 122) || (65 ≤ c && c ≤ 90) || c == 95 || c == 36 || c == 92 || (c &&& 0x80 ≠ 0)

/-- `Lexer::nextToken`: skip trivia, then emit exactly one token. -/
def nextToken (L0 : Lexer) : Token × Lexer :=
  let pos := skipWhitespacePos L0.Src L0.Pos
  let L : Lexer := { L0 with Pos := pos }
  if L.Pos ≥ L.Src.length then (makeToken L .Tok_EOF L.Pos 0 none, L)
  else if L.InTemplateString then templateGo L L.Pos (L.Src.length + 1) L.Pos
  else
    let s := L.Src
    let start := L.Pos
    let c := sget s start
    if isIdentStartByte c then identBranch L start c
    else if (48 ≤ c && c ≤ 57) ||
            (c == 46 && start + 1 < s.length &&
             48 ≤ sget s (start + 1) && sget s (start + 1) ≤ 57) then
      match numberBranch L start with
      | some tl => tl
      | none =>
        if c == 34 || c == 39 then stringBranch L start c
        else punctSwitch L start c
    else if c == 34 || c == 39 then stringBranch L start c
    else punctSwitch L start c

/-- Fresh lexer over a source buffer (the `Lexer(src)` constructor: non-strict). -/
def mkLexer (src : List Byte) : Lexer :=
  { Src := src, Pos := 0, StrictMode := false, InTemplateString := false }

/-- All tokens up to (excluding) the first EOF, with a fuel bound. -/
def lexList : Nat → Lexer → List Token
  | 0, _ => []
  | fuel + 1, L =>
    let (t, L') := nextToken L
    if t.kind = TokenKind.Tok_EOF then []
    else t :: lexList fuel L'

example : (lexList 20 (mkLexer (bl "print(42)"))).map Token.kind =
    [.Tok_Print, .Tok_LParen, .Tok_Integer, .Tok_RParen] := by decide

example : (lexList 20 (mkLexer (bl "a/b"))).map Token.kind =
    [.Tok_Invalid, .Tok_Divide, .Tok_Invalid] := by decide

/-! ## AST (ast.h) and parser state (parser.h) -/

/-- Expression nodes from ast.h: `LiteralExpr`, `IdentifierExpr`, `CallExpr`. -/
inductive Expr where
  | lit (value : List Byte)
  | ident (name : List Byte)
  | call (callee : List Byte) (args : List Expr)


/-- Statement nodes from ast.h: `VarDeclStmt`, `Program`, `PrintStmt`. -/
inductive Stmt where
  | varDecl (name : List Byte) (value : Option Expr)
  | program (statements : List Stmt)
  | print (args : List Expr) (origin : TokenKind)


/-- Type nodes from ast.h: `NamedType`, `GenericType`, `ArrayType`,
`UnionType`, `IntersectionType`, `RawType`. -/
inductive Ty where
  | named (name : List Byte)
  | generic (base : Ty) (args : List Ty)
  | arr (elem : Ty)
  | union (options : List Ty)
  | inter (parts : List Ty)
  | raw (r : List Byte)


/-- `ParseResult` from parser.h.  Error messages are kept ASCII-plain
(transliterated from the C++ message strings). -/
structure ParseResult where
  ok : Bool
  error : String
  stmt : Option Stmt


/-- The parser's mutable state: the lexer, the single lookahead token `Cur`,
`PrevTokenEnd`, and the `LastTypeParsed` slot. -/
structure PState where
  lex : Lexer
  cur : Token
  prevTokenEnd : Nat
  lastTypeParsed : Option Ty


/-- `Parser::advance()`: record the end of the consumed token, pull the next. -/
def advance (s : PState) : PState :=
  let pe := s.cur.pos + s.cur.text.length
  let tl := nextToken s.lex
  { s with lex := tl.2, cur := tl.1, prevTokenEnd := pe }

/-- `Parser::error(msg)`. -/
def errRes (msg : String) : ParseResult := { ok := false, error := msg, stmt := none }

/-- The `ParseResult{true, std::string(), nullptr}` success value. -/
def okRes : ParseResult := { ok := true, error := "", stmt := none }

/-- `Parser::parseEos` (semicolon, EOF, close brace, or line-terminator-ahead). -/
def parseEos (s : PState) : Bool × PState :=
  if s.cur.kind = TokenKind.Tok_Semi then (true, advance s)
  else if s.cur.kind = TokenKind.Tok_EOF then (true, s)
  else if s.cur.kind = TokenKind.Tok_RBrace then (true, s)
  else if s.prevTokenEnd ≠ 0 then
    if containsLineTerminatorBetween s.lex.Src s.prevTokenEnd s.cur.pos then (true, s)
    else (false, s)
  else (false, s)

/-- `Parser::n(s)` — the contextual-keyword predicate. -/
def nPred (s : PState) (t : List Byte) : Bool :=
  if s.cur.text ≠ t then false
  else if s.prevTokenEnd == 0 then true
  else if s.prevTokenEnd ≥ s.cur.pos then true
  else ¬containsLineTerminatorBetween s.lex.Src s.prevTokenEnd s.cur.pos

/-- `Parser::parseIdentifier`. -/
def parseIdentifier (s : PState) : Bool × PState :=
  match s.cur.kind with
  | .Tok_Identifier | .Tok_NonStrictLet | .Tok_StrictLet | .Tok_Async | .Tok_As
  | .Tok_From | .Tok_Yield | .Tok_Of => (true, advance s)
  | _ => (false, s)

/-- `Parser::parseKeyword`. -/
def parseKeyword (s : PState) : Bool × PState :=
  match s.cur.kind with
  | .Tok_Break | .Tok_Do | .Tok_Instanceof | .Tok_Typeof | .Tok_Case | .Tok_Else
  | .Tok_New | .Tok_Var | .Tok_Catch | .Tok_Finally | .Tok_Return | .Tok_Void
  | .Tok_Continue | .Tok_For | .Tok_Switch | .Tok_While | .Tok_Debugger | .Tok_Function
  | .Tok_This | .Tok_With | .Tok_Default | .Tok_If | .Tok_Throw | .Tok_Delete
  | .Tok_In | .Tok_Try | .Tok_Class | .Tok_Enum | .Tok_Extends | .Tok_Super
  | .Tok_Const | .Tok_Export | .Tok_Import | .Tok_Implements | .Tok_Private
  | .Tok_Public | .Tok_Interface | .Tok_Package | .Tok_Protected | .Tok_Static
  | .Tok_Yield | .Tok_YieldStar | .Tok_Await | .Tok_As | .Tok_From | .Tok_Of
  | .Tok_Async | .Tok_Any | .Tok_Number | .Tok_Never | .Tok_Boolean | .Tok_String
  | .Tok_Unique | .Tok_Symbol | .Tok_Undefined | .Tok_Object => (true, advance s)
  | _ => (false, s)

/-- `Parser::parseReservedWord`. -/
def parseReservedWord (s : PState) : Bool × PState :=
  match s.cur.kind with
  | .Tok_NullLiteral | .Tok_BooleanLiteral | .Tok_Any | .Tok_Number | .Tok_Never
  | .Tok_String | .Tok_Unique | .Tok_Symbol | .Tok_Undefined | .Tok_Object =>
    (true, advance s)
  | _ => parseKeyword s

/-- `Parser::parseIdentifierName`.  Note the source advances once inside
`parseIdentifier` and then once more after it returns true. -/
def parseIdentifierName (s : PState) : Bool × PState :=
  let r := parseIdentifier s
  if r.1 then (true, advance r.2) else parseReservedWord r.2

/-- `Parser::parseLet_`. -/
def parseLet (s : PState) : Bool × PState :=
  match s.cur.kind with
  | .Tok_NonStrictLet | .Tok_StrictLet => (true, advance s)
  | _ => (false, s)

/-- `Parser::parseVarModifier`. -/
def parseVarModifier (s : PState) : Bool × PState :=
  match s.cur.kind with
  | .Tok_Var | .Tok_Const => (true, advance s)
  | .Tok_NonStrictLet | .Tok_StrictLet => parseLet s
  | _ => (false, s)

/-- `Parser::parsePrivateIdentifier`. -/
def parsePrivateIdentifier (s : PState) : Bool × PState :=
  if s.cur.kind = TokenKind.Tok_Hashtag then parseIdentifierName (advance s)
  else (false, s)

/-- `Parser::parseModuleExportName`. -/
def parseModuleExportName (s : PState) : Bool × PState :=
  if s.cur.kind = TokenKind.Tok_StringLiteral then (true, advance s)
  else parseIdentifierName s

/-- `Parser::parseImportedBinding`. -/
def parseImportedBinding (s : PState) : Bool × PState :=
  match s.cur.kind with
  | .Tok_Yield | .Tok_Await => (true, advance s)
  | _ => parseIdentifierName s

/-- `Parser::parseImportFrom`. -/
def parseImportFrom (s : PState) : Bool × PState :=
  if s.cur.kind ≠ TokenKind.Tok_From then (false, s)
  else
    let s := advance s
    if s.cur.kind ≠ TokenKind.Tok_StringLiteral then (false, s)
    else (true, (parseEos (advance s)).2)

/-- `Parser::parseAliasName`. -/
def parseAliasName (s : PState) : Bool × PState :=
  let r := parseIdentifierName s
  if ¬r.1 then (false, r.2)
  else
    let s := r.2
    if s.cur.kind = TokenKind.Tok_As then parseIdentifierName (advance s)
    else (true, s)

/-- `Parser::parseImportNamespace`. -/
def parseImportNamespace (s : PState) : Bool × PState :=
  let r :=
    if s.cur.kind = TokenKind.Tok_Multiply then (true, advance s)
    else parseIdentifierName s
  if ¬r.1 then (false, r.2)
  else
    let s := r.2
    if s.cur.kind = TokenKind.Tok_As then parseIdentifierName (advance s)
    else (true, s)

/-- `Parser::parseImportDefault` (restores only the lookahead on failure). -/
def parseImportDefault (s : PState) : Bool × PState :=
  let save := s.cur
  let r := parseAliasName s
  if ¬r.1 then (false, r.2)
  else
    let s := r.2
    if s.cur.kind ≠ TokenKind.Tok_Comma then (false, { s with cur := save })
    else (true, advance s)

/-- `Parser::parseImportAliasName`. -/
def parseImportAliasName (s : PState) : Bool × PState :=
  let r := parseModuleExportName s
  if ¬r.1 then (false, r.2)
  else
    let s := r.2
    if s.cur.kind = TokenKind.Tok_As then parseImportedBinding (advance s)
    else (true, s)

/-- `Parser::parseExportAliasName`. -/
def parseExportAliasName (s : PState) : Bool × PState :=
  let r := parseModuleExportName s
  if ¬r.1 then (false, r.2)
  else
    let s := r.2
    if s.cur.kind = TokenKind.Tok_As then parseModuleExportName (advance s)
    else (true, s)

/-- `Parser::parseEmptyStatement`. -/
def parseEmptyStatement (s : PState) : Option ParseResult × PState :=
  if s.cur.kind ≠ TokenKind.Tok_Semi then (none, s)
  else (some okRes, advance s)

/-- `Parser::handleOptionalHashBang`. -/
def handleOptionalHashBang (s : PState) : Option ParseResult × PState :=
  if s.cur.kind ≠ TokenKind.Tok_Hashtag then (none, s)
  else
    let s := advance s
    if s.cur.kind = TokenKind.Tok_EOF then (some okRes, s)
    else (none, s)

/-- `Parser::parseContinueStatement` (no line-terminator check of its own;
the ASI in `parseEos` supplies the guard). -/
def parseContinueStatement (s : PState) : Option ParseResult × PState :=
  if s.cur.kind ≠ TokenKind.Tok_Continue then (none, s)
  else
    let s := advance s
    let e1 := parseEos s
    let s := if ¬e1.1 then (parseIdentifierName e1.2).2 else e1.2
    (some okRes, (parseEos s).2)

/-- `Parser::parseBreakStatement` (explicit line-terminator guard). -/
def parseBreakStatement (s : PState) : Option ParseResult × PState :=
  if s.cur.kind ≠ TokenKind.Tok_Break then (none, s)
  else
    let breakTok := s.cur
    let s := advance s
    let e1 := parseEos s
    let s :=
      if ¬e1.1 then
        if ¬containsLineTerminatorBetween e1.2.lex.Src
            (breakTok.pos + breakTok.text.length) e1.2.cur.pos then
          (parseIdentifierName e1.2).2
        else e1.2
      else e1.2
    (some okRes, (parseEos s).2)

/-- `Parser::takeParsedType` (the one-shot take on the `LastTypeParsed` slot). -/
def takeParsedType (s : PState) : Option Ty × PState :=
  (s.lastTypeParsed, { s with lastTypeParsed := none })

/-- `stmt && dynamic_cast<PrintStmt*>(stmt.get())` from `parseSourceElements`. -/
def isPrintStmt : Option Stmt → Bool
  | some (.print _ _) => true
  | _ => false

/-! ### Token-skipping loops with no calls into other parser productions -/

/-- Paren-depth-balanced skip (`parseFunctionDeclaration` / `parseDeclaration`
parameter loops): returns the final depth and state. -/
def parenSkipF : Nat → PState → Nat → Option (Nat × PState)
  | 0, _, _ => none
  | fuel + 1, s, depth =>
    if s.cur.kind ≠ TokenKind.Tok_EOF ∧ depth > 0 then
      if s.cur.kind = TokenKind.Tok_LParen then parenSkipF fuel (advance s) (depth + 1)
      else if s.cur.kind = TokenKind.Tok_RParen then parenSkipF fuel (advance s) (depth - 1)
      else parenSkipF fuel (advance s) depth
    else some (depth, s)

/-- Brace-depth-balanced skip (function bodies). -/
def braceSkipF : Nat → PState → Nat → Option (Nat × PState)
  | 0, _, _ => none
  | fuel + 1, s, depth =>
    if s.cur.kind ≠ TokenKind.Tok_EOF ∧ depth > 0 then
      if s.cur.kind = TokenKind.Tok_LBrace then braceSkipF fuel (advance s) (depth + 1)
      else if s.cur.kind = TokenKind.Tok_RBrace then braceSkipF fuel (advance s) (depth - 1)
      else braceSkipF fuel (advance s) depth
    else some (depth, s)

/-- `while (Cur != RBrace && Cur != EOF) advance()` (object-literal recovery). -/
def consumeToRBraceF : Nat → PState → Option PState
  | 0, _ => none
  | fuel + 1, s =>
    if s.cur.kind ≠ TokenKind.Tok_RBrace ∧ s.cur.kind ≠ TokenKind.Tok_EOF then
      consumeToRBraceF fuel (advance s)
    else some s

/-- `while (Cur != Semi && Cur != EOF && Cur != RBrace) advance()`
(class-field initializers and the class-element fallback). -/
def consumeToSemiF : Nat → PState → Option PState
  | 0, _ => none
  | fuel + 1, s =>
    if s.cur.kind ≠ TokenKind.Tok_Semi ∧ s.cur.kind ≠ TokenKind.Tok_EOF ∧
       s.cur.kind ≠ TokenKind.Tok_RBrace then
      consumeToSemiF fuel (advance s)
    else some s

/-- Method-parameter skip of `parseClassElement` (depth starts at 0, the
decrement/advance happens before the zero test). -/
def classElemParenLoopF : Nat → PState → Nat → Option PState
  | 0, _, _ => none
  | fuel + 1, s, depth =>
    if s.cur.kind = TokenKind.Tok_EOF then some s
    else
      let depth := if s.cur.kind = TokenKind.Tok_LParen then depth + 1 else depth
      if s.cur.kind = TokenKind.Tok_RParen then
        let depth := depth - 1
        let s := advance s
        if depth = 0 then some s else classElemParenLoopF fuel s depth
      else classElemParenLoopF fuel (advance s) depth

/-- Method-body/static-block skip of `parseClassElement`. -/
def classElemBraceLoopF : Nat → PState → Nat → Option PState
  | 0, _, _ => none
  | fuel + 1, s, depth =>
    if s.cur.kind = TokenKind.Tok_EOF then some s
    else
      let depth := if s.cur.kind = TokenKind.Tok_LBrace then depth + 1 else depth
      if s.cur.kind = TokenKind.Tok_RBrace then
        let depth := depth - 1
        let s := advance s
        if depth = 0 then some s else classElemBraceLoopF fuel s depth
      else classElemBraceLoopF fuel (advance s) depth

/-- `parseClassDeclaration`'s forcible advance to the opening brace. -/
def advanceToLBraceF : Nat → PState → Option PState
  | 0, _ => none
  | fuel + 1, s =>
    if s.cur.kind ≠ TokenKind.Tok_LBrace ∧ s.cur.kind ≠ TokenKind.Tok_EOF then
      advanceToLBraceF fuel (advance s)
    else some s

/-- `parseClassDeclaration`'s forcible advance to the closing brace. -/
def advanceToRBraceF : Nat → PState → Option PState
  | 0, _ => none
  | fuel + 1, s =>
    if s.cur.kind ≠ TokenKind.Tok_RBrace ∧ s.cur.kind ≠ TokenKind.Tok_EOF then
      advanceToRBraceF fuel (advance s)
    else some s

/-- Comma runs (elisions) in `parseElementList`. -/
def commaRunF : Nat → PState → Option PState
  | 0, _ => none
  | fuel + 1, s =>
    if s.cur.kind = TokenKind.Tok_Comma then commaRunF fuel (advance s)
    else some s

/-- Rudimentary consumption loop of `parseDeclaration`'s variable branch:
`while (!parseEos()) { if (LBrace or RBrace) break; advance(); }`. -/
def varConsumeLoopF : Nat → PState → Option PState
  | 0, _ => none
  | fuel + 1, s =>
    let e := parseEos s
    if e.1 then some e.2
    else if e.2.cur.kind = TokenKind.Tok_LBrace ∨ e.2.cur.kind = TokenKind.Tok_RBrace then
      some e.2
    else varConsumeLoopF fuel (advance e.2)

/-- The bounded diagnostic loop of `Parser::parse` (at most 20 advances). -/
def eatRemain : Nat → PState → PState
  | 0, s => s
  | k + 1, s =>
    if s.cur.kind ≠ TokenKind.Tok_EOF then eatRemain k (advance s)
    else s

/-- Item loop of `parseImportModuleItems`. -/
def importItemsLoopF : Nat → PState → Option (Bool × PState)
  | 0, _ => none
  | fuel + 1, s =>
    if s.cur.kind ≠ TokenKind.Tok_RBrace ∧ s.cur.kind ≠ TokenKind.Tok_EOF then
      let r := parseImportAliasName s
      if ¬r.1 then some (false, r.2)
      else
        let s := r.2
        if s.cur.kind = TokenKind.Tok_Comma then
          let s := advance s
          if s.cur.kind = TokenKind.Tok_RBrace then some (true, s)
          else importItemsLoopF fuel s
        else some (true, s)
    else some (true, s)

/-- Item loop of `parseExportModuleItems`. -/
def exportItemsLoopF : Nat → PState → Option (Bool × PState)
  | 0, _ => none
  | fuel + 1, s =>
    if s.cur.kind ≠ TokenKind.Tok_RBrace ∧ s.cur.kind ≠ TokenKind.Tok_EOF then
      let r := parseExportAliasName s
      if ¬r.1 then some (false, r.2)
      else
        let s := r.2
        if s.cur.kind = TokenKind.Tok_Comma then
          let s := advance s
          if s.cur.kind = TokenKind.Tok_RBrace then some (true, s)
          else exportItemsLoopF fuel s
        else some (true, s)
    else some (true, s)

/-- Argument loop of `Parser::parsePrintStatement`: comma-separated string /
number / integer / identifier tokens until `)` or EOF; quotes stripped from
string literals. -/
def printArgsLoopF : Nat → PState → List Expr → Bool → TokenKind →
    Option (Option ParseResult × PState)
  | 0, _, _, _, _ => none
  | fuel + 1, s, args, expectArg, printKind =>
    if s.cur.kind = TokenKind.Tok_EOF then
      some (some { ok := true, error := "", stmt := some (.print args printKind) }, s)
    else if s.cur.kind = TokenKind.Tok_RParen then
      some (some { ok := true, error := "", stmt := some (.print args printKind) }, advance s)
    else if ¬expectArg then
      if s.cur.kind = TokenKind.Tok_Comma then printArgsLoopF fuel (advance s) args true printKind
      else some (some (errRes "expected comma between print arguments"), s)
    else if s.cur.kind = TokenKind.Tok_StringLiteral then
      let lit0 := s.cur.text
      let lit :=
        if lit0.length ≥ 2 &&
           ((lit0.headD 0 == 34 && lit0.getLastD 0 == 34) ||
            (lit0.headD 0 == 39 && lit0.getLastD 0 == 39)) then
          (lit0.drop 1).take (lit0.length - 2)
        else lit0
      printArgsLoopF fuel (advance s) (args ++ [Expr.lit lit]) false printKind
    else if s.cur.kind = TokenKind.Tok_Number ∨ s.cur.kind = TokenKind.Tok_Integer then
      printArgsLoopF fuel (advance s) (args ++ [Expr.lit s.cur.text]) false printKind
    else if s.cur.kind = TokenKind.Tok_Identifier then
      printArgsLoopF fuel (advance s) (args ++ [Expr.lit s.cur.text]) false printKind
    else some (some (errRes "unsupported print argument"), s)

/-- `Parser::parsePrintStatement`. -/
def parsePrintStatementF : Nat → PState → Option (Option ParseResult × PState)
  | 0, _ => none
  | fuel + 1, s =>
    if s.cur.kind ≠ TokenKind.Tok_Print ∧ s.cur.kind ≠ TokenKind.Tok_ConsoleLog ∧
       s.cur.kind ≠ TokenKind.Tok_ConsoleError ∧ s.cur.kind ≠ TokenKind.Tok_ConsoleWarn ∧
       s.cur.kind ≠ TokenKind.Tok_ConsoleInfo ∧ s.cur.kind ≠ TokenKind.Tok_ConsoleSuccess then
      some (none, s)
    else
      let printKind := s.cur.kind
      let s := advance s
      if s.cur.kind ≠ TokenKind.Tok_LParen then some (some (errRes "expected lparen"), s)
      else printArgsLoopF fuel (advance s) [] true printKind

/-- `Parser::parseImportModuleItems`. -/
def parseImportModuleItemsF : Nat → PState → Option (Bool × PState)
  | 0, _ => none
  | fuel + 1, s =>
    if s.cur.kind ≠ TokenKind.Tok_LBrace then some (false, s)
    else
      match importItemsLoopF fuel (advance s) with
      | none => none
      | some (b, s) =>
        if ¬b then some (false, s)
        else if s.cur.kind ≠ TokenKind.Tok_RBrace then some (false, s)
        else some (true, advance s)

/-- `Parser::parseExportModuleItems`. -/
def parseExportModuleItemsF : Nat → PState → Option (Bool × PState)
  | 0, _ => none
  | fuel + 1, s =>
    if s.cur.kind ≠ TokenKind.Tok_LBrace then some (false, s)
    else
      match exportItemsLoopF fuel (advance s) with
      | none => none
      | some (b, s) =>
        if ¬b then some (false, s)
        else if s.cur.kind ≠ TokenKind.Tok_RBrace then some (false, s)
        else some (true, advance s)

/-- Second alternative of `parseExportFromBlock` (module-items form). -/
def exportFromTailF : Nat → PState → Option (Bool × PState)
  | 0, _ => none
  | fuel + 1, s =>
    match parseExportModuleItemsF fuel s with
    | none => none
    | some (b, s) =>
      if b then
        let f := parseImportFrom s
        if f.1 then some (true, f.2)
        else
          let e := parseEos f.2
          if e.1 then some (true, e.2) else some (false, e.2)
      else some (false, s)

/-- `Parser::parseExportFromBlock`. -/
def parseExportFromBlockF : Nat → PState → Option (Bool × PState)
  | 0, _ => none
  | fuel + 1, s =>
    let saved := s.cur
    let r := parseImportNamespace s
    if r.1 then
      let f := parseImportFrom r.2
      if f.1 then some (true, f.2)
      else exportFromTailF fuel { f.2 with cur := saved }
    else exportFromTailF fuel r.2

/-- `Parser::parseImportFromBlock`. -/
def parseImportFromBlockF : Nat → PState → Option (Bool × PState)
  | 0, _ => none
  | fuel + 1, s =>
    if s.cur.kind = TokenKind.Tok_StringLiteral then
      let e := parseEos (advance s)
      if ¬e.1 then some (false, e.2) else some (true, e.2)
    else
      let saved := s.cur
      let d := parseImportDefault s
      let s1 := if d.1 then d.2 else { d.2 with cur := saved }
      if s1.cur.kind = TokenKind.Tok_Multiply then
        let r := parseImportNamespace s1
        if ¬r.1 then some (false, r.2)
        else some (parseImportFrom r.2)
      else if s1.cur.kind = TokenKind.Tok_LBrace then
        match parseImportModuleItemsF fuel s1 with
        | none => none
        | some (b, s2) =>
          if ¬b then some (false, s2)
          else some (parseImportFrom s2)
      else
        let r := parseIdentifierName s1
        if r.1 then some (parseImportFrom r.2)
        else some (false, r.2)

/-- `Parser::parseImportStatement`. -/
def parseImportStatementF : Nat → PState → Option (Option ParseResult × PState)
  | 0, _ => none
  | fuel + 1, s =>
    if s.cur.kind ≠ TokenKind.Tok_Import then some (none, s)
    else
      match parseImportFromBlockF fuel (advance s) with
      | none => none
      | some (b, s) =>
        if ¬b then some (some (errRes "invalid import statement"), s)
        else some (some okRes, s)

/-- `Parser::parseFunctionDeclaration` (the code after the first full return
is unreachable in the source and is not modelled). -/
def parseFunctionDeclarationF : Nat → PState → Option (Option ParseResult × PState)
  | 0, _ => none
  | fuel + 1, s =>
    let save := s.cur
    let s1 := if s.cur.kind = TokenKind.Tok_Async then advance s else s
    if s1.cur.kind ≠ TokenKind.Tok_Function then some (none, { s1 with cur := save })
    else
      let s2 := advance s1
      let s3 := if s2.cur.kind = TokenKind.Tok_Multiply then advance s2 else s2
      let r := parseIdentifierName s3
      if ¬r.1 then some (some (errRes "expected function name after function keyword"), r.2)
      else
        let s4 := r.2
        if s4.cur.kind ≠ TokenKind.Tok_LParen then
          some (some (errRes "expected lparen after function declaration"), s4)
        else
          match parenSkipF fuel (advance s4) 1 with
          | none => none
          | some (depth, s5) =>
            if depth ≠ 0 then
              some (some (errRes "expected rparen after function parameter list"), s5)
            else if s5.cur.kind ≠ TokenKind.Tok_LBrace then
              some (some (errRes "expected lbrace after function parameter list"), s5)
            else
              match braceSkipF fuel (advance s5) 1 with
              | none => none
              | some (bd, s6) =>
                if bd ≠ 0 then some (some (errRes "expected rbrace after function body"), s6)
                else some (some okRes, s6)

/-- The conservative object-literal consumption in `parseSingleExpression`'s
primary lambda (consume to the matching close brace). -/
def braceSkipExprF : Nat → PState → Nat → Option (Bool × PState)
  | 0, _, _ => none
  | fuel + 1, s, depth =>
    if s.cur.kind = TokenKind.Tok_EOF then some (false, s)
    else
      let depth := if s.cur.kind = TokenKind.Tok_LBrace then depth + 1 else depth
      if s.cur.kind = TokenKind.Tok_RBrace then
        let depth := depth - 1
        let s := advance s
        if depth = 0 then some (true, s) else braceSkipExprF fuel s depth
      else braceSkipExprF fuel (advance s) depth

/-- Raw-capture loop for brace-delimited type forms in `parseType`. -/
def rawBraceLoopF : Nat → PState → Nat → List Byte → Option (List Byte × PState)
  | 0, _, _, _ => none
  | fuel + 1, s, depth, raw =>
    if s.cur.kind = TokenKind.Tok_EOF then some (raw, s)
    else
      let depth := if s.cur.kind = TokenKind.Tok_LBrace then depth + 1 else depth
      if s.cur.kind = TokenKind.Tok_RBrace then
        let raw := raw ++ s.cur.text
        let s := advance s
        if depth - 1 = 0 then some (raw, s)
        else rawBraceLoopF fuel s (depth - 1) raw
      else rawBraceLoopF fuel (advance s) depth (raw ++ s.cur.text)

/-- Raw-capture loop for bracket-delimited type forms in `parseType`. -/
def rawBracketLoopF : Nat → PState → Nat → List Byte → Option (List Byte × PState)
  | 0, _, _, _ => none
  | fuel + 1, s, depth, raw =>
    if s.cur.kind = TokenKind.Tok_EOF then some (raw, s)
    else
      let depth := if s.cur.kind = TokenKind.Tok_LBracket then depth + 1 else depth
      if s.cur.kind = TokenKind.Tok_RBracket then
        let raw := raw ++ s.cur.text
        let s := advance s
        if depth - 1 = 0 then some (raw, s)
        else rawBracketLoopF fuel s (depth - 1) raw
      else rawBracketLoopF fuel (advance s) depth (raw ++ s.cur.text)

/-- Array-suffix loop of `parseType` (a `[` not followed by `]` stays consumed). -/
def typeArraySuffixLoopF : Nat → PState → Ty → Option (Option Ty × PState)
  | 0, _, _ => none
  | fuel + 1, s, base =>
    if s.cur.kind = TokenKind.Tok_LBracket then
      let s := advance s
      if s.cur.kind = TokenKind.Tok_RBracket then
        typeArraySuffixLoopF fuel (advance s) (Ty.arr base)
      else some (some base, s)
    else some (some base, s)

/-! ### The type-annotation mini-grammar (`Parser::parseType`) -/

mutual

/-- `Parser::parseType`: primary type, then left-associative `|` / `&`
combinations; the result is stored in the `LastTypeParsed` slot. -/
def parseTypeF : Nat → PState → Option (Bool × PState)
  | 0, _ => none
  | fuel + 1, s =>
    match parseTypePrimaryF fuel s with
    | none => none
    | some (tOpt, s) =>
      match tOpt with
      | none => some (false, s)
      | some left =>
        match typeOpsLoopF fuel s left with
        | none => none
        | some (res, s) =>
          match res with
          | none => some (false, s)
          | some t => some (true, { s with lastTypeParsed := some t })

/-- The `parsePrimary` lambda inside `Parser::parseType`. -/
def parseTypePrimaryF : Nat → PState → Option (Option Ty × PState)
  | 0, _ => none
  | fuel + 1, s =>
    if s.cur.kind = TokenKind.Tok_LParen then
      match parseTypeF fuel (advance s) with
      | none => none
      | some (b, s) =>
        if ¬b then some (none, s)
        else
          let tk := takeParsedType s
          match tk.1 with
          | none => some (none, tk.2)
          | some t =>
            if tk.2.cur.kind ≠ TokenKind.Tok_RParen then some (none, tk.2)
            else some (some t, advance tk.2)
    else if s.cur.kind = TokenKind.Tok_LBrace then
      match rawBraceLoopF fuel s 0 [] with
      | none => none
      | some (raw, s) => some (some (Ty.raw raw), s)
    else if s.cur.kind = TokenKind.Tok_LBracket then
      match rawBracketLoopF fuel s 0 [] with
      | none => none
      | some (raw, s) => some (some (Ty.raw raw), s)
    else
      match s.cur.kind with
      | .Tok_Identifier | .Tok_Any | .Tok_Number | .Tok_Never | .Tok_Boolean | .Tok_String
      | .Tok_Unique | .Tok_Symbol | .Tok_Undefined | .Tok_Object =>
        let name := s.cur.text
        let s := advance s
        if s.cur.kind = TokenKind.Tok_LessThan then
          match typeGenericArgsLoopF fuel (advance s) [] with
          | none => none
          | some (argsOpt, s) =>
            match argsOpt with
            | none => some (none, s)
            | some args =>
              let s := if s.cur.kind = TokenKind.Tok_MoreThan then advance s else s
              typeArraySuffixLoopF fuel s (Ty.generic (Ty.named name) args)
        else typeArraySuffixLoopF fuel s (Ty.named name)
      | _ => some (none, s)

/-- Union/intersection loop of `parseType` (flattening same-kind nests). -/
def typeOpsLoopF : Nat → PState → Ty → Option (Option Ty × PState)
  | 0, _, _ => none
  | fuel + 1, s, left =>
    if s.cur.kind = TokenKind.Tok_BitOr ∨ s.cur.kind = TokenKind.Tok_BitAnd then
      let isUnion := s.cur.kind = TokenKind.Tok_BitOr
      match parseTypePrimaryF fuel (advance s) with
      | none => none
      | some (rOpt, s) =>
        match rOpt with
        | none => some (none, s)
        | some right =>
          let newLeft :=
            if isUnion then
              match left with
              | .union opts => Ty.union (opts ++ [right])
              | _ => Ty.union [left, right]
            else
              match left with
              | .inter parts => Ty.inter (parts ++ [right])
              | _ => Ty.inter [left, right]
          typeOpsLoopF fuel s newLeft
    else some (some left, s)

/-- Generic-argument loop of `parseType` (`<` args `>`). -/
def typeGenericArgsLoopF : Nat → PState → List Ty → Option (Option (List Ty) × PState)
  | 0, _, _ => none
  | fuel + 1, s, args =>
    if s.cur.kind ≠ TokenKind.Tok_EOF ∧ s.cur.kind ≠ TokenKind.Tok_MoreThan then
      match parseTypeF fuel s with
      | none => none
      | some (b, s) =>
        if ¬b then some (none, s)
        else
          let tk := takeParsedType s
          match tk.1 with
          | none => some (none, tk.2)
          | some arg =>
            let s := tk.2
            if s.cur.kind = TokenKind.Tok_Comma then
              typeGenericArgsLoopF fuel (advance s) (args ++ [arg])
            else typeGenericArgsLoopF fuel s (args ++ [arg])
    else some (some args, s)

end

/-! ### The statement/expression grammar (mutually recursive, fueled) -/

mutual

/-- `Parser::parseSingleExpression`. -/
def parseSingleExpressionF : Nat → PState → Option (Bool × PState)
  | 0, _ => none
  | fuel + 1, s =>
    let save := s.cur
    match parseAnonymousFunctionF fuel s with
    | none => none
    | some (b, s1) =>
      if b then some (true, s1)
      else
        let s := { s1 with cur := save }
        if s.cur.kind = TokenKind.Tok_PlusPlus ∨ s.cur.kind = TokenKind.Tok_MinusMinus then
          parseSingleExpressionF fuel (advance s)
        else if s.cur.kind = TokenKind.Tok_Plus ∨ s.cur.kind = TokenKind.Tok_Minus ∨
                s.cur.kind = TokenKind.Tok_BitNot ∨ s.cur.kind = TokenKind.Tok_Not then
          parseSingleExpressionF fuel (advance s)
        else if s.cur.kind = TokenKind.Tok_Delete ∨ s.cur.kind = TokenKind.Tok_Void ∨
                s.cur.kind = TokenKind.Tok_Typeof ∨ s.cur.kind = TokenKind.Tok_Await then
          parseSingleExpressionF fuel (advance s)
        else if s.cur.kind = TokenKind.Tok_New then
          let s := advance s
          let r := parseIdentifierName s
          if r.1 then
            let s := r.2
            if s.cur.kind = TokenKind.Tok_LParen then parseArgumentsF fuel s
            else some (true, s)
          else
            match parseSingleExpressionF fuel r.2 with
            | none => none
            | some (b, s) =>
              if ¬b then some (false, s)
              else if s.cur.kind = TokenKind.Tok_LParen then
                match parseArgumentsF fuel s with
                | none => none
                | some (b, s) => if ¬b then some (false, s) else some (true, s)
              else some (true, s)
        else
          match parseSingleExprPrimaryF fuel s with
          | none => none
          | some (b, s) =>
            if ¬b then some (false, s)
            else postfixLoopF fuel s

/-- The `parsePrimary` lambda inside `parseSingleExpression`. -/
def parseSingleExprPrimaryF : Nat → PState → Option (Bool × PState)
  | 0, _ => none
  | fuel + 1, s =>
    match s.cur.kind with
    | .Tok_Integer | .Tok_DecimalLiteral | .Tok_HexIntegerLiteral | .Tok_OctalIntegerLiteral
    | .Tok_OctalIntegerLiteral2 | .Tok_BinaryIntegerLiteral | .Tok_StringLiteral
    | .Tok_NullLiteral | .Tok_BooleanLiteral | .Tok_This | .Tok_Super =>
      some (true, advance s)
    | .Tok_LBracket => parseArrayLiteralF fuel s
    | .Tok_LBrace => braceSkipExprF fuel s 0
    | .Tok_LParen =>
      let s := advance s
      if s.cur.kind = TokenKind.Tok_RParen then some (true, advance s)
      else
        match parseExpressionSequenceF fuel s with
        | none => none
        | some (b, s) =>
          if ¬b then some (false, s)
          else if s.cur.kind ≠ TokenKind.Tok_RParen then some (false, s)
          else some (true, advance s)
    | .Tok_Function | .Tok_Class => some (true, advance s)
    | _ => some (parseIdentifierName s)

/-- Postfix/member chain loop of `parseSingleExpression`. -/
def postfixLoopF : Nat → PState → Option (Bool × PState)
  | 0, _ => none
  | fuel + 1, s =>
    if s.cur.kind = TokenKind.Tok_Dot ∨ s.cur.kind = TokenKind.Tok_QuestionDot then
      let r := parseIdentifierName (advance s)
      if ¬r.1 then some (false, r.2)
      else postfixLoopF fuel r.2
    else if s.cur.kind = TokenKind.Tok_LBracket then
      match parseExpressionSequenceF fuel (advance s) with
      | none => none
      | some (b, s) =>
        if ¬b then some (false, s)
        else if s.cur.kind ≠ TokenKind.Tok_RBracket then some (false, s)
        else postfixLoopF fuel (advance s)
    else if s.cur.kind = TokenKind.Tok_LParen then
      match parseArgumentsF fuel s with
      | none => none
      | some (b, s) =>
        if ¬b then some (false, s)
        else postfixLoopF fuel s
    else if s.cur.kind = TokenKind.Tok_PlusPlus ∨ s.cur.kind = TokenKind.Tok_MinusMinus then
      postfixLoopF fuel (advance s)
    else some (true, s)

/-- `Parser::parseArguments`. -/
def parseArgumentsF : Nat → PState → Option (Bool × PState)
  | 0, _ => none
  | fuel + 1, s =>
    if s.cur.kind ≠ TokenKind.Tok_LParen then some (false, s)
    else
      let s := advance s
      if s.cur.kind ≠ TokenKind.Tok_RParen then
        match parseArgumentF fuel s with
        | none => none
        | some (b, s) =>
          if ¬b then some (false, s)
          else
            match argsLoopF fuel s with
            | none => none
            | some (b, s) =>
              if ¬b then some (false, s)
              else if s.cur.kind ≠ TokenKind.Tok_RParen then some (false, s)
              else some (true, advance s)
      else
        if s.cur.kind ≠ TokenKind.Tok_RParen then some (false, s)
        else some (true, advance s)

/-- Comma loop of `parseArguments` (trailing comma allowed). -/
def argsLoopF : Nat → PState → Option (Bool × PState)
  | 0, _ => none
  | fuel + 1, s =>
    if s.cur.kind = TokenKind.Tok_Comma then
      let s := advance s
      if s.cur.kind = TokenKind.Tok_RParen then some (true, s)
      else
        match parseArgumentF fuel s with
        | none => none
        | some (b, s) =>
          if ¬b then some (false, s)
          else argsLoopF fuel s
    else some (true, s)

/-- `Parser::parseArgument`. -/
def parseArgumentF : Nat → PState → Option (Bool × PState)
  | 0, _ => none
  | fuel + 1, s =>
    if s.cur.kind = TokenKind.Tok_Ellipsis then parseSingleExpressionF fuel (advance s)
    else parseSingleExpressionF fuel s

/-- `Parser::parseExpressionSequence`. -/
def parseExpressionSequenceF : Nat → PState → Option (Bool × PState)
  | 0, _ => none
  | fuel + 1, s =>
    match parseSingleExpressionF fuel s with
    | none => none
    | some (b, s) =>
      if ¬b then some (false, s)
      else exprSeqLoopF fuel s

/-- Comma loop of `parseExpressionSequence`. -/
def exprSeqLoopF : Nat → PState → Option (Bool × PState)
  | 0, _ => none
  | fuel + 1, s =>
    if s.cur.kind = TokenKind.Tok_Comma then
      match parseSingleExpressionF fuel (advance s) with
      | none => none
      | some (b, s) =>
        if ¬b then some (false, s)
        else exprSeqLoopF fuel s
    else some (true, s)

/-- `Parser::parseAnonymousFunction` (function declaration, anonymous
function, or arrow function; restores only the lookahead on failure). -/
def parseAnonymousFunctionF : Nat → PState → Option (Bool × PState)
  | 0, _ => none
  | fuel + 1, s =>
    let save := s.cur
    match parseFunctionDeclarationF fuel s with
    | none => none
    | some (some _, s1) => some (true, s1)
    | some (none, s1) =>
      let s := { s1 with cur := save }
      let sA := if s.cur.kind = TokenKind.Tok_Async then advance s else s
      if sA.cur.kind = TokenKind.Tok_Function then
        let sB := advance sA
        let sB := if sB.cur.kind = TokenKind.Tok_Multiply then advance sB else sB
        if sB.cur.kind ≠ TokenKind.Tok_LParen then some (false, { sB with cur := save })
        else
          match parseArgumentsF fuel sB with
          | none => none
          | some (b, sC) =>
            if ¬b then some (false, { sC with cur := save })
            else
              match parseFunctionBodyF fuel sC with
              | none => none
              | some (b, sD) =>
                if ¬b then some (false, { sD with cur := save })
                else some (true, sD)
      else
        let sB0 := { sA with cur := save }
        let sB := if sB0.cur.kind = TokenKind.Tok_Async then advance sB0 else sB0
        match parseArrowFunctionParametersF fuel sB with
        | none => none
        | some (b, sC) =>
          if b then
            if sC.cur.kind ≠ TokenKind.Tok_Arrow then some (false, { sC with cur := save })
            else
              let sD := advance sC
              if sD.cur.kind = TokenKind.Tok_LBrace then
                match parseFunctionBodyF fuel sD with
                | none => none
                | some (b, sE) =>
                  if ¬b then some (false, { sE with cur := save })
                  else some (true, sE)
              else
                match parseSingleExpressionF fuel sD with
                | none => none
                | some (b, sE) =>
                  if ¬b then some (false, { sE with cur := save })
                  else some (true, sE)
          else some (false, { sC with cur := save })

/-- `Parser::parseArrowFunctionParameters`. -/
def parseArrowFunctionParametersF : Nat → PState → Option (Bool × PState)
  | 0, _ => none
  | fuel + 1, s =>
    let save := s.cur
    if s.cur.kind = TokenKind.Tok_LParen then
      let s := advance s
      if s.cur.kind ≠ TokenKind.Tok_RParen then
        match parseFormalParameterListF fuel s with
        | none => none
        | some (b, s1) =>
          if ¬b then some (false, { s1 with cur := save })
          else if s1.cur.kind ≠ TokenKind.Tok_RParen then some (false, { s1 with cur := save })
          else some (true, advance s1)
      else some (true, advance s)
    else
      match parsePropertyNameF fuel s with
      | none => none
      | some (b, s1) =>
        if b then some (true, s1)
        else some (false, { s1 with cur := save })

/-- `Parser::parseFormalParameterList`. -/
def parseFormalParameterListF : Nat → PState → Option (Bool × PState)
  | 0, _ => none
  | fuel + 1, s =>
    let save := s.cur
    match parseLastFormalParameterArgF fuel s with
    | none => none
    | some (b, s1) =>
      if b then some (true, s1)
      else
        match parseFormalParameterArgF fuel s1 with
        | none => none
        | some (b, s2) =>
          if ¬b then some (false, { s2 with cur := save })
          else formalParamsLoopF fuel s2 save

/-- Comma loop of `parseFormalParameterList`. -/
def formalParamsLoopF : Nat → PState → Token → Option (Bool × PState)
  | 0, _, _ => none
  | fuel + 1, s, save =>
    if s.cur.kind = TokenKind.Tok_Comma then
      let s := advance s
      match parseLastFormalParameterArgF fuel s with
      | none => none
      | some (b, s1) =>
        if b then some (true, s1)
        else
          match parseFormalParameterArgF fuel s1 with
          | none => none
          | some (b, s2) =>
            if ¬b then some (false, { s2 with cur := save })
            else formalParamsLoopF fuel s2 save
    else some (true, s)

/-- `Parser::parseFormalParameterArg`. -/
def parseFormalParameterArgF : Nat → PState → Option (Bool × PState)
  | 0, _ => none
  | fuel + 1, s =>
    match parseAssignableF fuel s with
    | none => none
    | some (b, s) =>
      if ¬b then some (false, s)
      else if s.cur.kind = TokenKind.Tok_Assign then parseSingleExpressionF fuel (advance s)
      else some (true, s)

/-- `Parser::parseLastFormalParameterArg`. -/
def parseLastFormalParameterArgF : Nat → PState → Option (Bool × PState)
  | 0, _ => none
  | fuel + 1, s =>
    if s.cur.kind ≠ TokenKind.Tok_Ellipsis then some (false, s)
    else parseSingleExpressionF fuel (advance s)

/-- `Parser::parseFunctionBody` (a block; restores only the lookahead). -/
def parseFunctionBodyF : Nat → PState → Option (Bool × PState)
  | 0, _ => none
  | fuel + 1, s =>
    let save := s.cur
    match parseBlockF fuel s with
    | none => none
    | some (some _, s1) => some (true, s1)
    | some (none, s1) => some (false, { s1 with cur := save })

/-- `Parser::parseBlock`. -/
def parseBlockF : Nat → PState → Option (Option ParseResult × PState)
  | 0, _ => none
  | fuel + 1, s =>
    if s.cur.kind ≠ TokenKind.Tok_LBrace then some (none, s)
    else
      let s := advance s
      if s.cur.kind = TokenKind.Tok_RBrace then some (some okRes, advance s)
      else
        match parseStatementListF fuel s with
        | none => none
        | some (some sl, s1) =>
          if s1.cur.kind ≠ TokenKind.Tok_RBrace then some (some (errRes "expected rbrace"), s1)
          else some (some sl, advance s1)
        | some (none, s1) => some (some (errRes "invalid block contents"), s1)

/-- `Parser::parseStatementList` (one or more statements; returns the last). -/
def parseStatementListF : Nat → PState → Option (Option ParseResult × PState)
  | 0, _ => none
  | fuel + 1, s => stmtListLoopF fuel s none false

/-- Loop of `parseStatementList`. -/
def stmtListLoopF : Nat → PState → Option ParseResult → Bool →
    Option (Option ParseResult × PState)
  | 0, _, _, _ => none
  | fuel + 1, s, last, any =>
    match parseStatementF fuel s with
    | none => none
    | some (none, s1) => if any then some (last, s1) else some (none, s1)
    | some (some st, s1) =>
      if s1.cur.kind = TokenKind.Tok_RBrace ∨ s1.cur.kind = TokenKind.Tok_EOF then
        some (some st, s1)
      else stmtListLoopF fuel s1 (some st) true

/-- `Parser::parseStatement`: the fixed-priority dispatch over productions. -/
def parseStatementF : Nat → PState → Option (Option ParseResult × PState)
  | 0, _ => none
  | fuel + 1, s =>
    match parseBlockF fuel s with
    | none => none
    | some (some r, s) => some (some r, s)
    | some (none, s) =>
    match parseVariableStatementF fuel s with
    | none => none
    | some (some r, s) => some (some r, s)
    | some (none, s) =>
    match parseClassDeclarationF fuel s with
    | none => none
    | some (some r, s) => some (some r, s)
    | some (none, s) =>
    match parseEmptyStatement s with
    | (some r, s) => some (some r, s)
    | (none, s) =>
    match parseImportStatementF fuel s with
    | none => none
    | some (some r, s) => some (some r, s)
    | some (none, s) =>
    match parseExportStatementF fuel s with
    | none => none
    | some (some r, s) => some (some r, s)
    | some (none, s) =>
    match parsePrintStatementF fuel s with
    | none => none
    | some (some r, s) => some (some r, s)
    | some (none, s) =>
    match parseLabelledStatementF fuel s with
    | none => none
    | some (some r, s) => some (some r, s)
    | some (none, s) =>
    match parseExpressionStatementF fuel s with
    | none => none
    | some (some r, s) => some (some r, s)
    | some (none, s) =>
    match parseIfStatementF fuel s with
    | none => none
    | some (some r, s) => some (some r, s)
    | some (none, s) =>
    match parseIterationStatementF fuel s with
    | none => none
    | some (some r, s) => some (some r, s)
    | some (none, s) =>
    match parseContinueStatement s with
    | (some r, s) => some (some r, s)
    | (none, s) =>
    match parseBreakStatement s with
    | (some r, s) => some (some r, s)
    | (none, s) =>
    match parseReturnStatementF fuel s with
    | none => none
    | some (some r, s) => some (some r, s)
    | some (none, s) =>
    match parseYieldStatementF fuel s with
    | none => none
    | some (some r, s) => some (some r, s)
    | some (none, s) =>
    match parseWithStatementF fuel s with
    | none => none
    | some (some r, s) => some (some r, s)
    | some (none, s) =>
    match parseSwitchStatementF fuel s with
    | none => none
    | some (some r, s) => some (some r, s)
    | some (none, s) => some (none, s)

/-- `Parser::parseVariableStatement`. -/
def parseVariableStatementF : Nat → PState → Option (Option ParseResult × PState)
  | 0, _ => none
  | fuel + 1, s =>
    let save := s.cur
    match parseVariableDeclarationListF fuel s with
    | none => none
    | some (b, s1) =>
      if ¬b then some (none, { s1 with cur := save })
      else
        let s2 := (parseEos s1).2
        some (some okRes, { s2 with lastTypeParsed := none })

/-- `Parser::parseVariableDeclarationList`. -/
def parseVariableDeclarationListF : Nat → PState → Option (Bool × PState)
  | 0, _ => none
  | fuel + 1, s =>
    let m := parseVarModifier s
    if ¬m.1 then some (false, m.2)
    else
      match parseVariableDeclarationF fuel m.2 with
      | none => none
      | some (b, s1) =>
        if ¬b then some (false, s1)
        else varDeclListLoopF fuel s1

/-- Comma loop of `parseVariableDeclarationList`. -/
def varDeclListLoopF : Nat → PState → Option (Bool × PState)
  | 0, _ => none
  | fuel + 1, s =>
    if s.cur.kind = TokenKind.Tok_Comma then
      match parseVariableDeclarationF fuel (advance s) with
      | none => none
      | some (b, s1) =>
        if ¬b then some (false, s1)
        else varDeclListLoopF fuel s1
    else some (true, s)

/-- `Parser::parseVariableDeclaration` (assignable, optional type
annotation, optional initializer). -/
def parseVariableDeclarationF : Nat → PState → Option (Bool × PState)
  | 0, _ => none
  | fuel + 1, s =>
    match parseAssignableF fuel s with
    | none => none
    | some (b, s) =>
      if ¬b then some (false, s)
      else if s.cur.kind = TokenKind.Tok_Colon then
        match parseTypeF fuel (advance s) with
        | none => none
        | some (b, s) =>
          if ¬b then some (false, s)
          else if s.cur.kind = TokenKind.Tok_Assign then parseSingleExpressionF fuel (advance s)
          else some (true, s)
      else if s.cur.kind = TokenKind.Tok_Assign then parseSingleExpressionF fuel (advance s)
      else some (true, s)

/-- `Parser::parseAssignable`. -/
def parseAssignableF : Nat → PState → Option (Bool × PState)
  | 0, _ => none
  | fuel + 1, s =>
    let r := parseIdentifierName s
    if r.1 then some (true, r.2)
    else
      let s := r.2
      if s.cur.kind = TokenKind.Tok_LBrace then parseObjectLiteralF fuel s
      else if s.cur.kind = TokenKind.Tok_LBracket then parseArrayLiteralF fuel s
      else some (false, s)

/-- `Parser::parseObjectLiteral`. -/
def parseObjectLiteralF : Nat → PState → Option (Bool × PState)
  | 0, _ => none
  | fuel + 1, s =>
    if s.cur.kind ≠ TokenKind.Tok_LBrace then some (false, s)
    else
      let s := advance s
      if s.cur.kind = TokenKind.Tok_RBrace then some (true, advance s)
      else
        match parsePropertyAssignmentF fuel s with
        | none => none
        | some (b, s) =>
          if ¬b then
            match consumeToRBraceF fuel s with
            | none => none
            | some s =>
              if s.cur.kind = TokenKind.Tok_RBrace then some (true, advance s)
              else some (false, s)
          else
            match objLitLoopF fuel s with
            | none => none
            | some s =>
              if s.cur.kind ≠ TokenKind.Tok_RBrace then some (false, s)
              else some (true, advance s)

/-- Comma loop of `parseObjectLiteral` (with conservative recovery). -/
def objLitLoopF : Nat → PState → Option PState
  | 0, _ => none
  | fuel + 1, s =>
    if s.cur.kind = TokenKind.Tok_Comma then
      let s := advance s
      if s.cur.kind = TokenKind.Tok_RBrace then some s
      else
        match parsePropertyAssignmentF fuel s with
        | none => none
        | some (b, s) =>
          if ¬b then consumeToRBraceF fuel s
          else objLitLoopF fuel s
    else some s

/-- `Parser::parsePropertyAssignment`, alternative 1 (name `:` expression). -/
def parsePropertyAssignmentF : Nat → PState → Option (Bool × PState)
  | 0, _ => none
  | fuel + 1, s =>
    let save := s.cur
    match parsePropertyNameF fuel s with
    | none => none
    | some (b, s) =>
      if b then
        if s.cur.kind = TokenKind.Tok_Colon then
          match parseSingleExpressionF fuel (advance s) with
          | none => none
          | some (b2, s) =>
            if ¬b2 then some (false, { s with cur := save })
            else some (true, s)
        else propAssignAlt2F fuel save { s with cur := save }
      else propAssignAlt2F fuel save s

/-- `parsePropertyAssignment`, alternative 2 (computed property). -/
def propAssignAlt2F : Nat → Token → PState → Option (Bool × PState)
  | 0, _, _ => none
  | fuel + 1, save, s =>
    if s.cur.kind = TokenKind.Tok_LBracket then
      match parseSingleExpressionF fuel (advance s) with
      | none => none
      | some (b, s) =>
        if ¬b then some (false, { s with cur := save })
        else if s.cur.kind ≠ TokenKind.Tok_RBracket then some (false, { s with cur := save })
        else
          let s := advance s
          if s.cur.kind ≠ TokenKind.Tok_Colon then some (false, { s with cur := save })
          else
            match parseSingleExpressionF fuel (advance s) with
            | none => none
            | some (b, s) =>
              if ¬b then some (false, { s with cur := save })
              else some (true, s)
    else propAssignAlt3F fuel save { s with cur := save }

/-- `parsePropertyAssignment`, alternative 3 (function property). -/
def propAssignAlt3F : Nat → Token → PState → Option (Bool × PState)
  | 0, _, _ => none
  | fuel + 1, save, s =>
    let s := if s.cur.kind = TokenKind.Tok_Async then advance s else s
    let s := if s.cur.kind = TokenKind.Tok_Multiply then advance s else s
    match parsePropertyNameF fuel s with
    | none => none
    | some (b, s) =>
      if b ∧ s.cur.kind = TokenKind.Tok_LParen then
        let s := advance s
        match (if s.cur.kind ≠ TokenKind.Tok_RParen then parseFormalParameterListF fuel s
               else some (true, s)) with
        | none => none
        | some (b2, s) =>
          if ¬b2 then some (false, { s with cur := save })
          else if s.cur.kind ≠ TokenKind.Tok_RParen then some (false, { s with cur := save })
          else
            match parseFunctionBodyF fuel (advance s) with
            | none => none
            | some (b3, s) =>
              if ¬b3 then some (false, { s with cur := save })
              else some (true, s)
      else propAssignAlt4F fuel save { s with cur := save }

/-- `parsePropertyAssignment`, alternative 4 (getter). -/
def propAssignAlt4F : Nat → Token → PState → Option (Bool × PState)
  | 0, _, _ => none
  | fuel + 1, save, s =>
    match parseGetterF fuel s with
    | none => none
    | some (b, s) =>
      if b then
        if s.cur.kind ≠ TokenKind.Tok_LParen then some (false, { s with cur := save })
        else
          let s := advance s
          if s.cur.kind ≠ TokenKind.Tok_RParen then some (false, { s with cur := save })
          else
            match parseFunctionBodyF fuel (advance s) with
            | none => none
            | some (b2, s) =>
              if ¬b2 then some (false, { s with cur := save })
              else some (true, s)
      else propAssignAlt5F fuel save { s with cur := save }

/-- `parsePropertyAssignment`, alternative 5 (setter). -/
def propAssignAlt5F : Nat → Token → PState → Option (Bool × PState)
  | 0, _, _ => none
  | fuel + 1, save, s =>
    match parseSetterF fuel s with
    | none => none
    | some (b, s) =>
      if b then
        if s.cur.kind ≠ TokenKind.Tok_LParen then some (false, { s with cur := save })
        else
          match parseFormalParameterArgF fuel (advance s) with
          | none => none
          | some (b2, s) =>
            if ¬b2 then some (false, { s with cur := save })
            else if s.cur.kind ≠ TokenKind.Tok_RParen then some (false, { s with cur := save })
            else
              match parseFunctionBodyF fuel (advance s) with
              | none => none
              | some (b3, s) =>
                if ¬b3 then some (false, { s with cur := save })
                else some (true, s)
      else propAssignAlt6F fuel save { s with cur := save }

/-- `parsePropertyAssignment`, alternative 6 (shorthand / spread). -/
def propAssignAlt6F : Nat → Token → PState → Option (Bool × PState)
  | 0, _, _ => none
  | fuel + 1, save, s =>
    if s.cur.kind = TokenKind.Tok_Ellipsis then
      match parseSingleExpressionF fuel (advance s) with
      | none => none
      | some (b, s) =>
        if ¬b then some (false, { s with cur := save })
        else some (true, s)
    else parseSingleExpressionF fuel s

/-- `Parser::parsePropertyName`. -/
def parsePropertyNameF : Nat → PState → Option (Bool × PState)
  | 0, _ => none
  | fuel + 1, s =>
    if s.cur.kind = TokenKind.Tok_StringLiteral then some (true, advance s)
    else
      match s.cur.kind with
      | .Tok_DecimalLiteral | .Tok_HexIntegerLiteral | .Tok_OctalIntegerLiteral
      | .Tok_OctalIntegerLiteral2 | .Tok_BinaryIntegerLiteral | .Tok_Integer =>
        some (true, advance s)
      | .Tok_LBracket =>
        match parseSingleExpressionF fuel (advance s) with
        | none => none
        | some (b, s) =>
          if ¬b then some (false, s)
          else if s.cur.kind ≠ TokenKind.Tok_RBracket then some (false, s)
          else some (true, advance s)
      | _ => some (parseIdentifierName s)

/-- `Parser::parseGetter` (contextual `get` via the `n` predicate). -/
def parseGetterF : Nat → PState → Option (Bool × PState)
  | 0, _ => none
  | fuel + 1, s =>
    let save := s.cur
    if nPred s (bl "get") then
      let r := parseIdentifierName (advance s)
      if ¬r.1 then some (false, { r.2 with cur := save })
      else
        match parseClassElementNameF fuel r.2 with
        | none => none
        | some (b, s2) =>
          if ¬b then some (false, { s2 with cur := save })
          else some (true, s2)
    else
      let r := parseIdentifierName { s with cur := save }
      if ¬r.1 then some (false, { r.2 with cur := save })
      else
        match parseClassElementNameF fuel r.2 with
        | none => none
        | some (b, s2) =>
          if ¬b then some (false, { s2 with cur := save })
          else some (true, s2)

/-- `Parser::parseSetter` (contextual `set` via the `n` predicate). -/
def parseSetterF : Nat → PState → Option (Bool × PState)
  | 0, _ => none
  | fuel + 1, s =>
    let save := s.cur
    if nPred s (bl "set") then
      let r := parseIdentifierName (advance s)
      if ¬r.1 then some (false, { r.2 with cur := save })
      else
        match parseClassElementNameF fuel r.2 with
        | none => none
        | some (b, s2) =>
          if ¬b then some (false, { s2 with cur := save })
          else some (true, s2)
    else
      let r := parseIdentifierName { s with cur := save }
      if ¬r.1 then some (false, { r.2 with cur := save })
      else
        match parseClassElementNameF fuel r.2 with
        | none => none
        | some (b, s2) =>
          if ¬b then some (false, { s2 with cur := save })
          else some (true, s2)

/-- `Parser::parseClassElementName` (forcibly advances when nothing matches). -/
def parseClassElementNameF : Nat → PState → Option (Bool × PState)
  | 0, _ => none
  | fuel + 1, s =>
    if s.cur.kind = TokenKind.Tok_Identifier ∨ s.cur.kind = TokenKind.Tok_Static ∨
       s.cur.kind = TokenKind.Tok_Async ∨ s.cur.text = bl "get" ∨ s.cur.text = bl "set" ∨
       s.cur.text = bl "constructor" ∨ s.cur.kind = TokenKind.Tok_Private ∨
       s.cur.kind = TokenKind.Tok_Public ∨ s.cur.kind = TokenKind.Tok_Protected then
      some (true, advance s)
    else if s.cur.kind = TokenKind.Tok_StringLiteral ∨
            s.cur.kind = TokenKind.Tok_DecimalLiteral ∨
            s.cur.kind = TokenKind.Tok_Integer then
      some (true, advance s)
    else if s.cur.kind = TokenKind.Tok_LBracket then
      match parseSingleExpressionF fuel (advance s) with
      | none => none
      | some (b, s) =>
        if ¬b then some (false, s)
        else if s.cur.kind ≠ TokenKind.Tok_RBracket then some (false, s)
        else some (true, advance s)
    else if s.cur.kind = TokenKind.Tok_Hashtag then some (parsePrivateIdentifier s)
    else some (true, advance s)

/-- `Parser::parseClassElement` (always makes progress, by design). -/
def parseClassElementF : Nat → PState → Option (Bool × PState)
  | 0, _ => none
  | fuel + 1, s =>
    match parseClassElementNameF fuel s with
    | none => none
    | some (b, s1) =>
      if ¬b then some (true, advance s1)
      else
        if s1.cur.kind = TokenKind.Tok_Assign then
          match consumeToSemiF fuel (advance s1) with
          | none => none
          | some s2 =>
            if s2.cur.kind = TokenKind.Tok_Semi then some (true, advance s2)
            else some (true, s2)
        else if s1.cur.kind = TokenKind.Tok_LParen then
          match classElemParenLoopF fuel s1 0 with
          | none => none
          | some s2 =>
            if s2.cur.kind = TokenKind.Tok_LBrace then
              match classElemBraceLoopF fuel s2 0 with
              | none => none
              | some s3 => some (true, s3)
            else some (true, s2)
        else if s1.cur.kind = TokenKind.Tok_LBrace then
          match classElemBraceLoopF fuel s1 0 with
          | none => none
          | some s2 => some (true, s2)
        else if s1.cur.kind = TokenKind.Tok_Semi then some (true, advance s1)
        else
          match consumeToSemiF fuel s1 with
          | none => none
          | some s2 =>
            if s2.cur.kind = TokenKind.Tok_Semi then some (true, advance s2)
            else some (true, s2)

/-- `Parser::parseClassTail` (optional extends clause, then the brace body). -/
def parseClassTailF : Nat → PState → Option (Bool × PState)
  | 0, _ => none
  | fuel + 1, s =>
    if s.cur.kind = TokenKind.Tok_Extends then
      match parseSingleExpressionF fuel (advance s) with
      | none => none
      | some (b, s) =>
        if ¬b then some (false, s)
        else classTailBodyF fuel s
    else classTailBodyF fuel s

/-- Brace body of `parseClassTail`. -/
def classTailBodyF : Nat → PState → Option (Bool × PState)
  | 0, _ => none
  | fuel + 1, s =>
    if s.cur.kind ≠ TokenKind.Tok_LBrace then some (false, s)
    else
      match classTailLoopF fuel (advance s) with
      | none => none
      | some s =>
        if s.cur.kind ≠ TokenKind.Tok_RBrace then some (false, s)
        else some (true, s)

/-- Element loop of `parseClassTail` (forcibly advances on a stalled element). -/
def classTailLoopF : Nat → PState → Option PState
  | 0, _ => none
  | fuel + 1, s =>
    if s.cur.kind ≠ TokenKind.Tok_RBrace ∧ s.cur.kind ≠ TokenKind.Tok_EOF then
      let before := s.cur
      match parseClassElementF fuel s with
      | none => none
      | some (consumed, s1) =>
        let s2 :=
          if ¬consumed ∨ (s1.cur.pos = before.pos ∧ s1.cur.kind = before.kind) then advance s1
          else s1
        classTailLoopF fuel s2
    else some s

/-- `Parser::parseClassDeclaration`. -/
def parseClassDeclarationF : Nat → PState → Option (Option ParseResult × PState)
  | 0, _ => none
  | fuel + 1, s =>
    if s.cur.kind ≠ TokenKind.Tok_Class then some (none, s)
    else
      let s := (parseIdentifierName (advance s)).2
      match advanceToLBraceF fuel s with
      | none => none
      | some s =>
        if s.cur.kind = TokenKind.Tok_LBrace then
          match parseClassTailF fuel s with
          | none => none
          | some (b, s) =>
            if ¬b then some (some (errRes "invalid class tail"), s)
            else
              match advanceToRBraceF fuel s with
              | none => none
              | some s =>
                let s := if s.cur.kind = TokenKind.Tok_RBrace then advance s else s
                some (some okRes, (parseEos s).2)
        else some (some (errRes "expected lbrace after class name"), s)

/-- `Parser::parseDeclaration`. -/
def parseDeclarationF : Nat → PState → Option (Option ParseResult × PState)
  | 0, _ => none
  | fuel + 1, s =>
    match s.cur.kind with
    | .Tok_Var | .Tok_NonStrictLet | .Tok_StrictLet | .Tok_Const =>
      match varConsumeLoopF fuel (advance s) with
      | none => none
      | some s1 => some (some okRes, (parseEos s1).2)
    | .Tok_Class =>
      match parseClassDeclarationF fuel s with
      | none => none
      | some (some r, s1) => some (some r, s1)
      | some (none, s1) => some (none, s1)
    | .Tok_Function =>
      let s1 := if s.cur.kind = TokenKind.Tok_Async then advance s else s
      if s1.cur.kind ≠ TokenKind.Tok_Function then some (none, s1)
      else
        let s2 := advance s1
        let s3 := if s2.cur.kind = TokenKind.Tok_Identifier then (parseIdentifierName s2).2 else s2
        if s3.cur.kind ≠ TokenKind.Tok_LParen then
          some (some (errRes "expected lparen after function declaration"), s3)
        else
          match parenSkipF fuel (advance s3) 1 with
          | none => none
          | some (_, s4) =>
            if s4.cur.kind ≠ TokenKind.Tok_LBrace then
              some (some (errRes "expected lbrace after function parameter list"), s4)
            else
              match braceSkipF fuel (advance s4) 1 with
              | none => none
              | some (_, s5) => some (some okRes, s5)
    | _ => some (none, s)

/-- `Parser::parseExpressionStatement`. -/
def parseExpressionStatementF : Nat → PState → Option (Option ParseResult × PState)
  | 0, _ => none
  | fuel + 1, s =>
    match s.cur.kind with
    | .Tok_Class | .Tok_Function | .Tok_Var | .Tok_NonStrictLet | .Tok_StrictLet | .Tok_Const =>
      match parseDeclarationF fuel s with
      | none => none
      | some (some r, s1) => some (some r, s1)
      | some (none, s1) => parseExpressionStatementTailF fuel s1
    | _ => parseExpressionStatementTailF fuel s

/-- Tail of `parseExpressionStatement` (guard, then expression sequence). -/
def parseExpressionStatementTailF : Nat → PState → Option (Option ParseResult × PState)
  | 0, _ => none
  | fuel + 1, s =>
    if s.cur.kind = TokenKind.Tok_LBrace ∨ s.cur.kind = TokenKind.Tok_Function then
      some (none, s)
    else
      let save := s.cur
      match parseExpressionSequenceF fuel s with
      | none => none
      | some (b, s1) =>
        if ¬b then some (none, { s1 with cur := save })
        else some (some okRes, (parseEos s1).2)

/-- `Parser::parseIfStatement` (the else branch binds to the nearest if). -/
def parseIfStatementF : Nat → PState → Option (Option ParseResult × PState)
  | 0, _ => none
  | fuel + 1, s =>
    if s.cur.kind ≠ TokenKind.Tok_If then some (none, s)
    else
      let s := advance s
      if s.cur.kind ≠ TokenKind.Tok_LParen then
        some (some (errRes "expected lparen after if"), s)
      else
        match parseExpressionSequenceF fuel (advance s) with
        | none => none
        | some (b, s) =>
          if ¬b then some (some (errRes "invalid if condition"), s)
          else if s.cur.kind ≠ TokenKind.Tok_RParen then
            some (some (errRes "expected rparen after if condition"), s)
          else
            match parseStatementF fuel (advance s) with
            | none => none
            | some (some st, s) =>
              if s.cur.kind = TokenKind.Tok_Else then
                match parseStatementF fuel (advance s) with
                | none => none
                | some (some _, s2) => some (some st, s2)
                | some (none, s2) => some (some (errRes "expected statement after else"), s2)
              else some (some st, s)
            | some (none, s) => some (some (errRes "invalid if body"), s)

/-- `Parser::parseIterationStatement` (do-while, while, three-clause for). -/
def parseIterationStatementF : Nat → PState → Option (Option ParseResult × PState)
  | 0, _ => none
  | fuel + 1, s =>
    let save := s.cur
    if s.cur.kind = TokenKind.Tok_Do then
      match parseStatementF fuel (advance s) with
      | none => none
      | some (none, s) => some (some (errRes "expected statement after do"), s)
      | some (some _, s) =>
        if s.cur.kind ≠ TokenKind.Tok_While then
          some (some (errRes "expected while after do statement"), s)
        else
          let s := advance s
          if s.cur.kind ≠ TokenKind.Tok_LParen then
            some (some (errRes "expected lparen after while"), s)
          else
            match parseExpressionSequenceF fuel (advance s) with
            | none => none
            | some (b, s) =>
              if ¬b then some (some (errRes "invalid while condition"), s)
              else if s.cur.kind ≠ TokenKind.Tok_RParen then
                some (some (errRes "expected rparen after while condition"), s)
              else some (some okRes, (parseEos (advance s)).2)
    else if s.cur.kind = TokenKind.Tok_While then
      let s := advance s
      if s.cur.kind ≠ TokenKind.Tok_LParen then
        some (some (errRes "expected lparen after while"), s)
      else
        match parseExpressionSequenceF fuel (advance s) with
        | none => none
        | some (b, s) =>
          if ¬b then some (some (errRes "invalid while condition"), s)
          else if s.cur.kind ≠ TokenKind.Tok_RParen then
            some (some (errRes "expected rparen after while condition"), s)
          else
            match parseStatementF fuel (advance s) with
            | none => none
            | some (some st, s) => some (some st, s)
            | some (none, s) => some (some (errRes "invalid while body"), s)
    else if s.cur.kind = TokenKind.Tok_For then
      let s := advance s
      let s := if s.cur.kind = TokenKind.Tok_Await then advance s else s
      if s.cur.kind ≠ TokenKind.Tok_LParen then
        some (some (errRes "expected lparen after for"), s)
      else
        let s := advance s
        if s.cur.kind ≠ TokenKind.Tok_Semi then
          let save2 := s.cur
          match parseExpressionSequenceF fuel s with
          | none => none
          | some (b, s1) =>
            if b then forAfterInitF fuel s1
            else
              match parseVariableDeclarationListF fuel { s1 with cur := save2 } with
              | none => none
              | some (b2, s2) =>
                if ¬b2 then some (some (errRes "invalid for initializer"), { s2 with cur := save })
                else forAfterInitF fuel s2
        else forAfterInitF fuel s
    else some (none, { s with cur := save })

/-- First semicolon and optional condition of the for statement. -/
def forAfterInitF : Nat → PState → Option (Option ParseResult × PState)
  | 0, _ => none
  | fuel + 1, s =>
    let e := parseEos s
    if ¬e.1 then some (some (errRes "expected semi in for"), e.2)
    else
      let s := e.2
      if s.cur.kind ≠ TokenKind.Tok_Semi then
        match parseExpressionSequenceF fuel s with
        | none => none
        | some (b, s) =>
          if ¬b then some (some (errRes "invalid for condition"), s)
          else forAfterCondF fuel s
      else forAfterCondF fuel s

/-- Second semicolon and optional increment of the for statement. -/
def forAfterCondF : Nat → PState → Option (Option ParseResult × PState)
  | 0, _ => none
  | fuel + 1, s =>
    let e := parseEos s
    if ¬e.1 then some (some (errRes "expected second semi in for"), e.2)
    else
      let s := e.2
      if s.cur.kind ≠ TokenKind.Tok_RParen then
        match parseExpressionSequenceF fuel s with
        | none => none
        | some (b, s) =>
          if ¬b then some (some (errRes "invalid for increment"), s)
          else forCloseF fuel s
      else forCloseF fuel s

/-- Closing paren and body of the for statement. -/
def forCloseF : Nat → PState → Option (Option ParseResult × PState)
  | 0, _ => none
  | fuel + 1, s =>
    if s.cur.kind ≠ TokenKind.Tok_RParen then some (some (errRes "expected rparen after for"), s)
    else
      match parseStatementF fuel (advance s) with
      | none => none
      | some (some st, s) => some (some st, s)
      | some (none, s) => some (some (errRes "invalid for body"), s)

/-- `Parser::parseReturnStatement` (expression only when no line terminator
follows the keyword). -/
def parseReturnStatementF : Nat → PState → Option (Option ParseResult × PState)
  | 0, _ => none
  | fuel + 1, s =>
    if s.cur.kind ≠ TokenKind.Tok_Return then some (none, s)
    else
      let returnTok := s.cur
      let s := advance s
      let e1 := parseEos s
      if ¬e1.1 then
        if ¬containsLineTerminatorBetween e1.2.lex.Src
            (returnTok.pos + returnTok.text.length) e1.2.cur.pos then
          match parseExpressionSequenceF fuel e1.2 with
          | none => none
          | some (_, s2) => some (some okRes, (parseEos s2).2)
        else some (some okRes, (parseEos e1.2).2)
      else some (some okRes, (parseEos e1.2).2)

/-- `Parser::parseYieldStatement`. -/
def parseYieldStatementF : Nat → PState → Option (Option ParseResult × PState)
  | 0, _ => none
  | fuel + 1, s =>
    if s.cur.kind ≠ TokenKind.Tok_Yield ∧ s.cur.kind ≠ TokenKind.Tok_YieldStar then
      some (none, s)
    else
      let yieldTok := s.cur
      let s := advance s
      let e1 := parseEos s
      if ¬e1.1 then
        if ¬containsLineTerminatorBetween e1.2.lex.Src
            (yieldTok.pos + yieldTok.text.length) e1.2.cur.pos then
          match parseExpressionSequenceF fuel e1.2 with
          | none => none
          | some (_, s2) => some (some okRes, (parseEos s2).2)
        else some (some okRes, (parseEos e1.2).2)
      else some (some okRes, (parseEos e1.2).2)

/-- `Parser::parseWithStatement`. -/
def parseWithStatementF : Nat → PState → Option (Option ParseResult × PState)
  | 0, _ => none
  | fuel + 1, s =>
    if s.cur.kind ≠ TokenKind.Tok_With then some (none, s)
    else
      let s := advance s
      if s.cur.kind ≠ TokenKind.Tok_LParen then
        some (some (errRes "expected lparen after with"), s)
      else
        match parseExpressionSequenceF fuel (advance s) with
        | none => none
        | some (b, s) =>
          if ¬b then some (some (errRes "invalid with expression"), s)
          else if s.cur.kind ≠ TokenKind.Tok_RParen then
            some (some (errRes "expected rparen after with expression"), s)
          else
            match parseStatementF fuel (advance s) with
            | none => none
            | some (some st, s) => some (some st, s)
            | some (none, s) => some (some (errRes "invalid with body"), s)

/-- `Parser::parseSwitchStatement`. -/
def parseSwitchStatementF : Nat → PState → Option (Option ParseResult × PState)
  | 0, _ => none
  | fuel + 1, s =>
    if s.cur.kind ≠ TokenKind.Tok_Switch then some (none, s)
    else
      let s := advance s
      if s.cur.kind ≠ TokenKind.Tok_LParen then
        some (some (errRes "expected lparen after switch"), s)
      else
        match parseExpressionSequenceF fuel (advance s) with
        | none => none
        | some (b, s) =>
          if ¬b then some (some (errRes "invalid switch expression"), s)
          else if s.cur.kind ≠ TokenKind.Tok_RParen then
            some (some (errRes "expected rparen after switch expression"), s)
          else
            match parseCaseBlockF fuel (advance s) with
            | none => none
            | some (b, s) =>
              if ¬b then some (some (errRes "invalid case block"), s)
              else some (some okRes, s)

/-- `Parser::parseCaseBlock`. -/
def parseCaseBlockF : Nat → PState → Option (Bool × PState)
  | 0, _ => none
  | fuel + 1, s =>
    if s.cur.kind ≠ TokenKind.Tok_LBrace then some (false, s)
    else
      match parseCaseClausesF fuel (advance s) with
      | none => none
      | some (_, s) =>
        if s.cur.kind = TokenKind.Tok_Default then
          match parseDefaultClauseF fuel s with
          | none => none
          | some (_, s) =>
            match parseCaseClausesF fuel s with
            | none => none
            | some (_, s) =>
              if s.cur.kind ≠ TokenKind.Tok_RBrace then some (false, s)
              else some (true, advance s)
        else
          if s.cur.kind ≠ TokenKind.Tok_RBrace then some (false, s)
          else some (true, advance s)

/-- `Parser::parseCaseClauses`. -/
def parseCaseClausesF : Nat → PState → Option (Bool × PState)
  | 0, _ => none
  | fuel + 1, s => caseClausesLoopF fuel s false

/-- Loop of `parseCaseClauses`. -/
def caseClausesLoopF : Nat → PState → Bool → Option (Bool × PState)
  | 0, _, _ => none
  | fuel + 1, s, any =>
    match parseCaseClauseF fuel s with
    | none => none
    | some (b, s1) =>
      if ¬b then some (any, s1)
      else caseClausesLoopF fuel s1 true

/-- `Parser::parseCaseClause`. -/
def parseCaseClauseF : Nat → PState → Option (Bool × PState)
  | 0, _ => none
  | fuel + 1, s =>
    if s.cur.kind ≠ TokenKind.Tok_Case then some (false, s)
    else
      match parseExpressionSequenceF fuel (advance s) with
      | none => none
      | some (b, s) =>
        if ¬b then some (false, s)
        else if s.cur.kind ≠ TokenKind.Tok_Colon then some (false, s)
        else
          match parseStatementListF fuel (advance s) with
          | none => none
          | some (_, s) => some (true, s)

/-- `Parser::parseDefaultClause`. -/
def parseDefaultClauseF : Nat → PState → Option (Bool × PState)
  | 0, _ => none
  | fuel + 1, s =>
    if s.cur.kind ≠ TokenKind.Tok_Default then some (false, s)
    else
      let s := advance s
      if s.cur.kind ≠ TokenKind.Tok_Colon then some (false, s)
      else
        match parseStatementListF fuel (advance s) with
        | none => none
        | some (_, s) => some (true, s)

/-- `Parser::parseLabelledStatement` (restores only the lookahead token on
no-match; the lexer cursor keeps its advanced position). -/
def parseLabelledStatementF : Nat → PState → Option (Option ParseResult × PState)
  | 0, _ => none
  | fuel + 1, s =>
    let saved := s.cur
    let r := parseIdentifierName s
    if ¬r.1 then some (none, r.2)
    else
      let s := r.2
      if s.cur.kind ≠ TokenKind.Tok_Colon then some (none, { s with cur := saved })
      else
        match parseStatementF fuel (advance s) with
        | none => none
        | some (some st, s) => some (some st, s)
        | some (none, s) => some (some (errRes "invalid labelled statement body"), s)

/-- `Parser::parseArrayLiteral`. -/
def parseArrayLiteralF : Nat → PState → Option (Bool × PState)
  | 0, _ => none
  | fuel + 1, s =>
    if s.cur.kind ≠ TokenKind.Tok_LBracket then some (false, s)
    else
      match parseElementListF fuel (advance s) with
      | none => none
      | some (b, s) =>
        if ¬b then some (false, s)
        else if s.cur.kind ≠ TokenKind.Tok_RBracket then some (false, s)
        else some (true, advance s)

/-- `Parser::parseElementList`. -/
def parseElementListF : Nat → PState → Option (Bool × PState)
  | 0, _ => none
  | fuel + 1, s =>
    match commaRunF fuel s with
    | none => none
    | some s =>
      match parseArrayElementF fuel s with
      | none => none
      | some (b, s) =>
        if b then elementListLoopF fuel s
        else some (true, s)

/-- Comma/element loop of `parseElementList`. -/
def elementListLoopF : Nat → PState → Option (Bool × PState)
  | 0, _ => none
  | fuel + 1, s =>
    if s.cur.kind = TokenKind.Tok_Comma then
      match commaRunF fuel s with
      | none => none
      | some s =>
        match parseArrayElementF fuel s with
        | none => none
        | some (b, s) =>
          if ¬b then some (true, s)
          else elementListLoopF fuel s
    else some (true, s)

/-- `Parser::parseArrayElement`. -/
def parseArrayElementF : Nat → PState → Option (Bool × PState)
  | 0, _ => none
  | fuel + 1, s =>
    if s.cur.kind = TokenKind.Tok_Ellipsis then parseSingleExpressionF fuel (advance s)
    else parseSingleExpressionF fuel s

/-- `Parser::parseExportStatement`. -/
def parseExportStatementF : Nat → PState → Option (Option ParseResult × PState)
  | 0, _ => none
  | fuel + 1, s =>
    if s.cur.kind ≠ TokenKind.Tok_Export then some (none, s)
    else
      let s := advance s
      if s.cur.kind = TokenKind.Tok_Default then
        let s := advance s
        let e := parseEos s
        if e.1 then some (some okRes, e.2)
        else
          let s := advance e.2
          let e2 := parseEos s
          if ¬e2.1 then some (some (errRes "expected end of export default"), e2.2)
          else some (some okRes, e2.2)
      else
        match parseExportFromBlockF fuel s with
        | none => none
        | some (b, s) =>
          if b then some (some okRes, s)
          else
            match parseDeclarationF fuel s with
            | none => none
            | some (some r, s) => some (some r, (parseEos s).2)
            | some (none, s) => some (some (errRes "invalid export statement"), s)

/-- One dispatch step of the `parseSourceElements` loop.  The first
component is the loop's break flag, the second the statement to collect. -/
def srcElemStepF : Nat → PState → Option (Bool × Option Stmt × PState)
  | 0, _ => none
  | fuel + 1, s =>
    match s.cur.kind with
    | .Tok_Class =>
      match parseClassDeclarationF fuel s with
      | none => none
      | some (none, s) => some (true, none, s)
      | some (some r, s) => some (false, r.stmt, s)
    | .Tok_Function =>
      match parseFunctionDeclarationF fuel s with
      | none => none
      | some (none, s) => some (true, none, s)
      | some (some r, s) => some (false, r.stmt, s)
    | .Tok_Const | .Tok_Var =>
      match parseVariableDeclarationF fuel s with
      | none => none
      | some (ok, s) =>
        if ¬ok then some (true, none, s)
        else some (false, none, s)
    | .Tok_Import | .Tok_Export | .Tok_Print =>
      match parseStatementF fuel s with
      | none => none
      | some (none, s) => some (true, none, s)
      | some (some r, s) =>
        let s := if isPrintStmt r.stmt then (parseEos s).2 else s
        some (false, r.stmt, s)
    | .Tok_ConsoleLog | .Tok_ConsoleError | .Tok_ConsoleWarn | .Tok_ConsoleInfo
    | .Tok_ConsoleSuccess =>
      match parsePrintStatementF fuel s with
      | none => none
      | some (none, s) => some (true, none, s)
      | some (some r, s) => some (false, r.stmt, (parseEos s).2)
    | .Tok_Identifier | .Tok_LParen | .Tok_Number | .Tok_StringLiteral =>
      match parseExpressionStatementF fuel s with
      | none => none
      | some (some r, s) => some (false, r.stmt, s)
      | some (none, s) => some (false, none, advance s)
    | _ => some (false, none, advance s)

/-- The `parseSourceElements` loop (collects statements, forcibly advances
when a step made no progress). -/
def srcElemsLoopF : Nat → PState → List Stmt → Option (List Stmt × PState)
  | 0, _, _ => none
  | fuel + 1, s, stmts =>
    if s.cur.kind = TokenKind.Tok_EOF then some (stmts, s)
    else
      let before := s.cur
      match srcElemStepF fuel s with
      | none => none
      | some (brk, stmtOpt, s1) =>
        if brk then some (stmts, s1)
        else
          let stmts := match stmtOpt with | some st => stmts ++ [st] | none => stmts
          let s2 :=
            if s1.cur.pos = before.pos ∧ s1.cur.kind = before.kind then advance s1
            else s1
          srcElemsLoopF fuel s2 stmts

/-- `Parser::parseSourceElements`. -/
def parseSourceElementsF : Nat → PState → Option (Option ParseResult × PState)
  | 0, _ => none
  | fuel + 1, s =>
    match srcElemsLoopF fuel s [] with
    | none => none
    | some (stmts, s) =>
      if stmts.isEmpty then some (none, s)
      else some (some { ok := true, error := "", stmt := some (.program stmts) }, s)

/-- `Parser::parse`. -/
def parseF : Nat → PState → Option (ParseResult × PState)
  | 0, _ => none
  | fuel + 1, s =>
    match handleOptionalHashBang s with
    | (some r, s) => some (r, s)
    | (none, s) =>
      match parseSourceElementsF fuel s with
      | none => none
      | some (some se, s) =>
        if s.cur.kind ≠ TokenKind.Tok_EOF then
          some (errRes "expected EOF after source elements", eatRemain 20 s)
        else some (se, s)
      | some (none, s) =>
        -- the source's two terminal branches both yield the same success value
        some (okRes, s)

end

/-- The `Parser(src)` constructor: fresh lexer, one primed lookahead token. -/
def initPState (src : List Byte) : PState :=
  let tl := nextToken (mkLexer src)
  { lex := tl.2, cur := tl.1, prevTokenEnd := 0, lastTypeParsed := none }

/-- `Parser(src).parse()` with the given fuel. -/
def parseTop (fuel : Nat) (src : List Byte) : Option (ParseResult × PState) :=
  parseF fuel (initPState src)

/-! ## Specification-side helpers for the claims

Derived vocabulary used only to *state* properties: decimal
representations, well-formed print arguments and their source bytes, and
the one-token-primed parser state reached by scanning from a position. -/

/-- Decimal representation of `n`, most significant digit first. -/
def decRepr (n : Nat) : List Byte :=
  if n = 0 then [48] else ((Nat.digits 10 n).map (fun d => d + 48)).reverse

/-- Reading a digit string back as a decimal integer. -/
def decValue (t : List Byte) : Nat :=
  t.foldl (fun v ch => v * 10 + (ch - 48)) 0

/-- One print argument in source form: a plain decimal integer literal or a
quoted string literal. -/
inductive PrintArg where
  | int (n : Nat)
  | str (quote : Byte) (content : List Byte)

/-- Bytes allowed inside a quoted argument without escape processing:
ASCII, not the quote itself, not backslash, not CR/LF. -/
def plainStrByte (quote c : Byte) : Bool :=
  c ≠ quote && c ≠ 92 && c ≠ 13 && c ≠ 10 && c < 128

/-- A well-formed print argument. -/
def goodArg : PrintArg → Bool
  | .int _ => true
  | .str q content => (q == 34 || q == 39) && content.all (plainStrByte q)

/-- Source bytes of one argument. -/
def argBytes : PrintArg → List Byte
  | .int n => decRepr n
  | .str q content => q :: (content ++ [q])

/-- The literal expression the parser records for one argument (string
arguments lose their quotes). -/
def argExpr : PrintArg → Expr
  | .int n => .lit (decRepr n)
  | .str _ content => .lit content

/-- Comma-separated argument bytes. -/
def argsBytes : List PrintArg → List Byte
  | [] => []
  | [a] => argBytes a
  | a :: rest => argBytes a ++ 44 :: argsBytes rest

/-- The whole source `print(<args>)`. -/
def printSrc (args : List PrintArg) : List Byte :=
  bl "print(" ++ (argsBytes args ++ [41])

/-- The parser state whose lookahead is the token scanned at byte offset
`p` of `src` (fresh non-strict lexer), with explicit `prevTokenEnd`. -/
def tokState (src : List Byte) (p pe : Nat) : PState :=
  let tl := nextToken { Src := src, Pos := p, StrictMode := false, InTemplateString := false }
  { lex := tl.2, cur := tl.1, prevTokenEnd := pe, lastTypeParsed := none }

/-- Bytes that neither whitespace skipping nor any comment form reacts to. -/
def benignByte (c : Byte) : Bool :=
  ¬(c == 9 || c == 11 || c == 12 || c == 32 || c == 160 || c == 13 || c == 10 ||
    c == 226 || c == 239 || c == 35 || c == 47 || c == 60)


def exprLitOnly : Expr → Bool
  | .lit _ => true
  | .ident _ => false
  | .call _ _ => false

mutual

def stmtLitOnly : Stmt → Bool
  | .varDecl _ none => true
  | .varDecl _ (some e) => exprLitOnly e
  | .program ss => stmtsLitOnly ss
  | .print args _ => args.all exprLitOnly

def stmtsLitOnly : List Stmt → Bool
  | [] => true
  | st :: rest => stmtLitOnly st && stmtsLitOnly rest

end

def resultLitOnly (r : ParseResult) : Bool :=
  match r.stmt with
  | none => true
  | some st => stmtLitOnly st

/-- The literal-only invariant for the mutually recursive statement parsers,
stated as one conjunction at a given fuel. -/
def stmtCoreLit (fuel : Nat) : Prop :=
  (∀ s r s', parseStatementF fuel s = some (some r, s') → resultLitOnly r = true) ∧
  (∀ s last any r s',
      (∀ rl, last = some rl → resultLitOnly rl = true) →
      stmtListLoopF fuel s last any = some (some r, s') → resultLitOnly r = true) ∧
  (∀ s r s', parseStatementListF fuel s = some (some r, s') → resultLitOnly r = true) ∧
  (∀ s r s', parseBlockF fuel s = some (some r, s') → resultLitOnly r = true) ∧
  (∀ s r s', parseIfStatementF fuel s = some (some r, s') → resultLitOnly r = true) ∧
  (∀ s r s', parseIterationStatementF fuel s = some (some r, s') → resultLitOnly r = true) ∧
  (∀ s r s', forAfterInitF fuel s = some (some r, s') → resultLitOnly r = true) ∧
  (∀ s r s', forAfterCondF fuel s = some (some r, s') → resultLitOnly r = true) ∧
  (∀ s r s', forCloseF fuel s = some (some r, s') → resultLitOnly r = true) ∧
  (∀ s r s', parseWithStatementF fuel s = some (some r, s') → resultLitOnly r = true) ∧
  (∀ s r s', parseLabelledStatementF fuel s = some (some r, s') → resultLitOnly r = true)

/-! ## Theorems -/

/-! ### C3: termination of `Parser::parse` -/

/-- On the one-byte source `"\"`, the lexer's identifier branch sees the
backslash, finds no `u` after it, and falls through to `makeToken`
with `len = Pos - start = 0`: a zero-length `Tok_Invalid` token that does
not move `Pos`.  `parseSourceElements`' forced advance re-lexes from the
same position forever, so the statement loop never reaches `Tok_EOF`. -/
theorem srcElemsLoopF_backslash (f : Nat) :
    ∀ stmts, srcElemsLoopF f (initPState (bl "\\")) stmts = none := by
  induction f with
  | zero => intro stmts; rfl
  | succ g ih =>
    intro stmts
    cases g with
    | zero => rfl
    | succ g' =>
      exact (rfl : srcElemsLoopF (g' + 2) (initPState (bl "\\")) stmts
        = srcElemsLoopF (g' + 1) (initPState (bl "\\")) stmts).trans (ih stmts)

/-- `parseSourceElements` on the source `"\"` exhausts any amount of fuel. -/
theorem parseSourceElementsF_backslash (f : Nat) :
    parseSourceElementsF f (initPState (bl "\\")) = none := by
  cases f with
  | zero => rfl
  | succ g =>
    rw [parseSourceElementsF]
    rw [srcElemsLoopF_backslash g []]

/-- C3: refuted — the claim says `Parser::parse()` terminates on every input
within a linear number of token-advances.  On the one-byte source `"\"` the
lexer returns a zero-length `Tok_Invalid` token at position 0 on every call,
so `parseSourceElements`' forced advance never makes progress and `parse()`
diverges: for every fuel bound whatsoever the fueled embedding fails to
terminate (`parseTop fuel (bl "\\") = none` for all `fuel`). -/
theorem claim3_parse_diverges_on_backslash (fuel : Nat) :
    parseTop fuel (bl "\\") = none := by
  cases fuel with
  | zero => rfl
  | succ f =>
    cases f with
    | zero => rfl
    | succ g =>
      show parseF (g + 2) (initPState (bl "\\")) = none
      rw [parseF]
      rw [show handleOptionalHashBang (initPState (bl "\\"))
            = (none, initPState (bl "\\")) from rfl]
      simp only [parseSourceElementsF_backslash (g + 1)]

/-! ### C4: regex-vs-division disambiguation -/

/-- C4: refuted — the claim says `/a/gi` after `(` lexes as one
regular-expression-literal token.  In the code, `nextToken` advances `Pos`
past the `/` before calling `IsRegexPossible`, and `IsRegexPossible` scans
backwards from `Pos - 1` — which is the `/` itself.  `/` is not in the
favourable set, so the heuristic always answers "division": after `(`,
`/a/gi` lexes as Divide, Invalid "a", Divide, Invalid "gi", never as a
regular-expression literal.  (The `a/b` half of the claim does hold:
the final conjunct shows `/` there is Divide.) -/
theorem claim4_regex_never_lexed :
    (lexList 10 (mkLexer (bl "(/a/gi"))).map (fun t => (t.kind, t.text)) =
      [(TokenKind.Tok_LParen, bl "("), (TokenKind.Tok_Divide, bl "/"),
       (TokenKind.Tok_Invalid, bl "a"), (TokenKind.Tok_Divide, bl "/"),
       (TokenKind.Tok_Invalid, bl "gi")]
    ∧ (lexList 10 (mkLexer (bl "a/b"))).map (fun t => (t.kind, t.text)) =
      [(TokenKind.Tok_Invalid, bl "a"), (TokenKind.Tok_Divide, bl "/"),
       (TokenKind.Tok_Invalid, bl "b")] := by decide

/-! ### C5: template-string tokens -/

/-- C5: refuted — the claim says `` `a${1}b` `` lexes as backtick,
atom("a"), start-expression, the tokens of `1`, atom("b"), backtick.  The
code's template branch runs only when `InTemplateString` is true, but the
backtick case itself sets `InTemplateString = false` and no caller ever
sets it true (`ProcessTemplateCloseBrace`, the only setter, is never
called), so the template machinery is dead: the characters between the
backticks lex as ordinary tokens, with `a$` and `b` as Invalid tokens and
a bare LBrace/RBrace pair — no atom or start-expression token appears. -/
theorem claim5_template_tokens :
    (lexList 10 (mkLexer (bl "`a${1}b`"))).map (fun t => (t.kind, t.text)) =
      [(TokenKind.Tok_BackTick, bl "`"), (TokenKind.Tok_Invalid, bl "a$"),
       (TokenKind.Tok_LBrace, bl "\x7b"), (TokenKind.Tok_Integer, bl "1"),
       (TokenKind.Tok_RBrace, bl "\x7d"), (TokenKind.Tok_Invalid, bl "b"),
       (TokenKind.Tok_BackTick, bl "`")] := by decide

/-! ### C6: line-terminator (ASI) guards on break/continue/return/yield -/

/-- `parseEos` returns one of three shapes: semicolon consumed, success
without moving, or failure without moving. -/
theorem parseEos_cases (s : PState) :
    parseEos s = (true, advance s) ∨ parseEos s = (true, s)
      ∨ parseEos s = (false, s) := by
  by_cases h1 : s.cur.kind = TokenKind.Tok_Semi
  · left; simp [parseEos, h1]
  · by_cases h2 : s.cur.kind = TokenKind.Tok_EOF
    · right; left; simp [parseEos, h1, h2]
    · by_cases h3 : s.cur.kind = TokenKind.Tok_RBrace
      · right; left; simp [parseEos, h1, h2, h3]
      · by_cases h4 : s.prevTokenEnd = 0
        · right; right; simp [parseEos, h1, h2, h3, h4]
        · by_cases h5 : containsLineTerminatorBetween s.lex.Src
              s.prevTokenEnd s.cur.pos = true
          · right; left; simp [parseEos, h1, h2, h3, h4, h5]
          · right; right; simp [parseEos, h1, h2, h3, h4, h5]

/-- A failing `parseEos` leaves the parser state unchanged. -/
theorem parseEos_false_state (s : PState) :
    (parseEos s).1 = false → (parseEos s).2 = s := by
  intro h
  rcases parseEos_cases s with h1 | h1 | h1 <;> (rw [h1] at h ⊢; try simp_all)

/-- `parseEos` answers true whenever a line terminator separates the previous
token from the lookahead (the ASI branch). -/
theorem parseEos_of_lt (s : PState) (h0 : s.prevTokenEnd ≠ 0)
    (hlt : containsLineTerminatorBetween s.lex.Src s.prevTokenEnd s.cur.pos = true) :
    (parseEos s).1 = true := by
  unfold parseEos
  repeat' split <;> simp_all

/-- With a line terminator after `return`, the statement ends at the keyword:
only end-of-statement handling runs, no expression parser is invoked. -/
theorem parseReturn_lt_guard (s : PState) (fuel : Nat)
    (hk : s.cur.kind = TokenKind.Tok_Return)
    (hlt : containsLineTerminatorBetween (advance s).lex.Src
      (s.cur.pos + s.cur.text.length) (advance s).cur.pos = true) :
    parseReturnStatementF (fuel + 1) s
      = some (some okRes, (parseEos (parseEos (advance s)).2).2) := by
  rw [parseReturnStatementF]
  rw [if_neg (by simp [hk])]
  by_cases he : (parseEos (advance s)).1 = true
  · simp [he]
  · have he' : (parseEos (advance s)).1 = false := by
      revert he; cases (parseEos (advance s)).1 <;> simp
    have hs := parseEos_false_state (advance s) he'
    simp [he', hs, hlt]

/-- With a line terminator after `yield`, the statement ends at the keyword. -/
theorem parseYield_lt_guard (s : PState) (fuel : Nat)
    (hk : s.cur.kind = TokenKind.Tok_Yield ∨ s.cur.kind = TokenKind.Tok_YieldStar)
    (hlt : containsLineTerminatorBetween (advance s).lex.Src
      (s.cur.pos + s.cur.text.length) (advance s).cur.pos = true) :
    parseYieldStatementF (fuel + 1) s
      = some (some okRes, (parseEos (parseEos (advance s)).2).2) := by
  rw [parseYieldStatementF]
  rw [if_neg (by rcases hk with h | h <;> simp [h])]
  by_cases he : (parseEos (advance s)).1 = true
  · simp [he]
  · have he' : (parseEos (advance s)).1 = false := by
      revert he; cases (parseEos (advance s)).1 <;> simp
    have hs := parseEos_false_state (advance s) he'
    simp [he', hs, hlt]

/-- With a line terminator after `break`, the label identifier is not
consumed (the explicit guard in `parseBreakStatement`). -/
theorem parseBreak_lt_guard (s : PState)
    (hk : s.cur.kind = TokenKind.Tok_Break)
    (hlt : containsLineTerminatorBetween (advance s).lex.Src
      (s.cur.pos + s.cur.text.length) (advance s).cur.pos = true) :
    parseBreakStatement s
      = (some okRes, (parseEos (parseEos (advance s)).2).2) := by
  rw [parseBreakStatement]
  rw [if_neg (by simp [hk])]
  by_cases he : (parseEos (advance s)).1 = true
  · simp [he]
  · have he' : (parseEos (advance s)).1 = false := by
      revert he; cases (parseEos (advance s)).1 <;> simp
    have hs := parseEos_false_state (advance s) he'
    simp [he', hs, hlt]

/-- With a line terminator after `continue`, the label identifier is not
consumed.  `parseContinueStatement` has no guard of its own; the ASI branch
of `parseEos` supplies it, which needs the keyword token to end at a
positive offset (true of every real token; hypothesis `h0`). -/
theorem parseContinue_lt_guard (s : PState)
    (hk : s.cur.kind = TokenKind.Tok_Continue)
    (h0 : s.cur.pos + s.cur.text.length ≠ 0)
    (hlt : containsLineTerminatorBetween (advance s).lex.Src
      (s.cur.pos + s.cur.text.length) (advance s).cur.pos = true) :
    parseContinueStatement s
      = (some okRes, (parseEos (parseEos (advance s)).2).2) := by
  rw [parseContinueStatement]
  rw [if_neg (by simp [hk])]
  have he : (parseEos (advance s)).1 = true :=
    parseEos_of_lt (advance s) h0 hlt
  simp [he]

/-- C6: confirmed — for each of break, continue, return and yield, when a
line terminator separates the keyword from the following token the statement
ends at the keyword: the parser performs only end-of-statement handling and
never invokes the trailing identifier/expression parser (first four
conjuncts, universally over parser states).  Concretely, `return\n1;` leaves
the lookahead at the `1` token (position 7) after the return statement and
the whole parse still succeeds (the `1;` becomes a separate expression
statement), while `return 1;` attaches the expression, consuming up to
EOF (last three conjuncts). -/
theorem claim6_asi_guards :
    (∀ s : PState, ∀ fuel : Nat, s.cur.kind = TokenKind.Tok_Return →
       containsLineTerminatorBetween (advance s).lex.Src
         (s.cur.pos + s.cur.text.length) (advance s).cur.pos = true →
       parseReturnStatementF (fuel + 1) s
         = some (some okRes, (parseEos (parseEos (advance s)).2).2))
  ∧ (∀ s : PState, ∀ fuel : Nat,
       (s.cur.kind = TokenKind.Tok_Yield ∨ s.cur.kind = TokenKind.Tok_YieldStar) →
       containsLineTerminatorBetween (advance s).lex.Src
         (s.cur.pos + s.cur.text.length) (advance s).cur.pos = true →
       parseYieldStatementF (fuel + 1) s
         = some (some okRes, (parseEos (parseEos (advance s)).2).2))
  ∧ (∀ s : PState, s.cur.kind = TokenKind.Tok_Break →
       containsLineTerminatorBetween (advance s).lex.Src
         (s.cur.pos + s.cur.text.length) (advance s).cur.pos = true →
       parseBreakStatement s
         = (some okRes, (parseEos (parseEos (advance s)).2).2))
  ∧ (∀ s : PState, s.cur.kind = TokenKind.Tok_Continue →
       s.cur.pos + s.cur.text.length ≠ 0 →
       containsLineTerminatorBetween (advance s).lex.Src
         (s.cur.pos + s.cur.text.length) (advance s).cur.pos = true →
       parseContinueStatement s
         = (some okRes, (parseEos (parseEos (advance s)).2).2))
  ∧ (parseReturnStatementF 49 (initPState (bl "return\n1;"))).map
       (fun p => (p.2.cur.kind, p.2.cur.pos)) = some (TokenKind.Tok_Integer, 7)
  ∧ (parseReturnStatementF 49 (initPState (bl "return 1;"))).map
       (fun p => (p.2.cur.kind, p.2.cur.pos)) = some (TokenKind.Tok_EOF, 9)
  ∧ (parseTop 60 (bl "return\n1;")).map (fun p => p.1.ok) = some true :=
  ⟨parseReturn_lt_guard, parseYield_lt_guard, parseBreak_lt_guard,
   parseContinue_lt_guard, by rfl, by rfl, by rfl⟩

/-- Witness for C6: the return conjunct applied to the concrete source
`return\n1;`, with both hypotheses discharged by evaluation. -/
theorem claim6_asi_guards_witness :
    parseReturnStatementF 3 (initPState (bl "return\n1;"))
      = some (some okRes,
          (parseEos (parseEos (advance (initPState (bl "return\n1;")))).2).2) :=
  claim6_asi_guards.1 (initPState (bl "return\n1;")) 2 (by rfl) (by rfl)

/-! ### C9: fallback for `0x`/`0b`/`0o` with no valid digit -/

/-- A decimal digit byte never starts an identifier. -/
theorem isIdentStartByte_digit (c : Byte) (h1 : 48 ≤ c) (h2 : c ≤ 57) :
    isIdentStartByte c = false := by
  interval_cases c <;> decide

/-- When trivia is already skipped and a digit is under the cursor,
`nextToken` returns whatever the number branch produces. -/
theorem nextToken_number_dispatch (L : Lexer)
    (hws : skipWhitespacePos L.Src L.Pos = L.Pos)
    (hlen : L.Pos < L.Src.length)
    (htmpl : L.InTemplateString = false)
    (hd1 : 48 ≤ sget L.Src L.Pos) (hd2 : sget L.Src L.Pos ≤ 57)
    (t : Token) (l : Lexer)
    (hnb : numberBranch L L.Pos = some (t, l)) :
    nextToken L = (t, l) := by
  have heta : Lexer.mk L.Src L.Pos L.StrictMode L.InTemplateString = L := rfl
  unfold nextToken
  rw [hws]
  simp only [heta]
  rw [if_neg (show ¬(L.Pos ≥ L.Src.length) by omega)]
  rw [if_neg (show ¬(L.InTemplateString = true) by simp [htmpl])]
  rw [isIdentStartByte_digit _ hd1 hd2]
  simp only [Bool.false_eq_true, if_false]
  rw [if_pos (show ((48 ≤ sget L.Src L.Pos : Bool) && (sget L.Src L.Pos ≤ 57 : Bool)
        || ((sget L.Src L.Pos == 46 : Bool) && (L.Pos + 1 < L.Src.length : Bool)
            && (48 ≤ sget L.Src (L.Pos + 1) : Bool)
            && (sget L.Src (L.Pos + 1) ≤ 57 : Bool))) = true by
      simp [hd1, hd2])]
  rw [hnb]

/-- `0x`/`0X` falls back to the single `0` token exactly when the byte after
the prefix is not a hex digit fragment — where the source's
`isHexDigitFragment` also accepts `_`. -/
theorem numberBranch_hex_fallback (L : Lexer) (start : Nat)
    (h0 : sget L.Src start = 48)
    (hnext : start + 1 < L.Src.length)
    (hx : sget L.Src (start + 1) = 120 ∨ sget L.Src (start + 1) = 88)
    (hbad : ¬(start + 2 < L.Src.length ∧
      isHexDigitFragment (sget L.Src (start + 2)) = true)) :
    numberBranch L start
      = some (makeToken L .Tok_Integer start 1 (some 0),
              { L with Pos := start + 1 }) := by
  rcases hx with hx | hx <;>
    (unfold numberBranch; simp [h0, hx, hnext]; intro h1 h2; exact absurd ⟨h1, h2⟩ hbad)

/-- `0b`/`0B` falls back to the single `0` token exactly when the byte after
the prefix is not `0` or `1`. -/
theorem numberBranch_bin_fallback (L : Lexer) (start : Nat)
    (h0 : sget L.Src start = 48)
    (hnext : start + 1 < L.Src.length)
    (hx : sget L.Src (start + 1) = 98 ∨ sget L.Src (start + 1) = 66)
    (hbad : ¬(start + 2 < L.Src.length ∧
      (sget L.Src (start + 2) = 48 ∨ sget L.Src (start + 2) = 49))) :
    numberBranch L start
      = some (makeToken L .Tok_Integer start 1 (some 0),
              { L with Pos := start + 1 }) := by
  rcases hx with hx | hx <;>
    (unfold numberBranch; simp [h0, hx, hnext]; intro h1 h2;
     exact absurd ⟨h1, or_iff_not_imp_left.mpr h2⟩ hbad)

/-- `0o`/`0O` falls back to the single `0` token exactly when the byte after
the prefix is not an octal digit. -/
theorem numberBranch_oct_fallback (L : Lexer) (start : Nat)
    (h0 : sget L.Src start = 48)
    (hnext : start + 1 < L.Src.length)
    (hx : sget L.Src (start + 1) = 111 ∨ sget L.Src (start + 1) = 79)
    (hbad : ¬(start + 2 < L.Src.length ∧
      48 ≤ sget L.Src (start + 2) ∧ sget L.Src (start + 2) ≤ 55)) :
    numberBranch L start
      = some (makeToken L .Tok_Integer start 1 (some 0),
              { L with Pos := start + 1 }) := by
  rcases hx with hx | hx <;>
    (unfold numberBranch; simp [h0, hx, hnext]; intro h1 h2 h3;
     exact absurd ⟨h1, h2, h3⟩ hbad)

/-- C9 counterexample: on `0x_` the underscore counts as a "hex digit
fragment", so the lexer does NOT fall back to the single `0` token the
claim demands (`_` is not a digit valid for base 16): it emits a
`Tok_HexIntegerLiteral` with text `0x_` and consumes all three bytes. -/
theorem claim9_counterexample :
    (nextToken (mkLexer (bl "0x_"))).1.kind = TokenKind.Tok_HexIntegerLiteral
    ∧ (nextToken (mkLexer (bl "0x_"))).1.text = bl "0x_"
    ∧ (nextToken (mkLexer (bl "0x_"))).2.Pos = 3 := by decide

/-- C9 (amended): when whitespace is already skipped and the cursor sits on
`0x`/`0X`, `0b`/`0B` or `0o`/`0O`, `nextToken` emits the one-byte `0`
integer token (value 0) and leaves the cursor on the prefix letter — for
binary and octal exactly when the next byte is not a digit of that base (as
the original claim says), but for hex only when the next byte is not a
*hex digit fragment*, a set that also contains `_`: `0x_` is lexed as a hex
literal, not via the fallback. -/
theorem claim9_prefix_fallback_amended :
    (∀ L : Lexer,
       skipWhitespacePos L.Src L.Pos = L.Pos →
       L.InTemplateString = false →
       sget L.Src L.Pos = 48 →
       L.Pos + 1 < L.Src.length →
       (sget L.Src (L.Pos + 1) = 120 ∨ sget L.Src (L.Pos + 1) = 88) →
       ¬(L.Pos + 2 < L.Src.length ∧
         isHexDigitFragment (sget L.Src (L.Pos + 2)) = true) →
       nextToken L = (makeToken L .Tok_Integer L.Pos 1 (some 0),
                      { L with Pos := L.Pos + 1 }))
  ∧ (∀ L : Lexer,
       skipWhitespacePos L.Src L.Pos = L.Pos →
       L.InTemplateString = false →
       sget L.Src L.Pos = 48 →
       L.Pos + 1 < L.Src.length →
       (sget L.Src (L.Pos + 1) = 98 ∨ sget L.Src (L.Pos + 1) = 66) →
       ¬(L.Pos + 2 < L.Src.length ∧
         (sget L.Src (L.Pos + 2) = 48 ∨ sget L.Src (L.Pos + 2) = 49)) →
       nextToken L = (makeToken L .Tok_Integer L.Pos 1 (some 0),
                      { L with Pos := L.Pos + 1 }))
  ∧ (∀ L : Lexer,
       skipWhitespacePos L.Src L.Pos = L.Pos →
       L.InTemplateString = false →
       sget L.Src L.Pos = 48 →
       L.Pos + 1 < L.Src.length →
       (sget L.Src (L.Pos + 1) = 111 ∨ sget L.Src (L.Pos + 1) = 79) →
       ¬(L.Pos + 2 < L.Src.length ∧
         48 ≤ sget L.Src (L.Pos + 2) ∧ sget L.Src (L.Pos + 2) ≤ 55) →
       nextToken L = (makeToken L .Tok_Integer L.Pos 1 (some 0),
                      { L with Pos := L.Pos + 1 })) :=
  ⟨fun L hws htmpl h0 hnext hx hbad =>
     nextToken_number_dispatch L hws (by omega) htmpl (by simp [h0]) (by simp [h0]) _ _
       (numberBranch_hex_fallback L L.Pos h0 hnext hx hbad),
   fun L hws htmpl h0 hnext hx hbad =>
     nextToken_number_dispatch L hws (by omega) htmpl (by simp [h0]) (by simp [h0]) _ _
       (numberBranch_bin_fallback L L.Pos h0 hnext hx hbad),
   fun L hws htmpl h0 hnext hx hbad =>
     nextToken_number_dispatch L hws (by omega) htmpl (by simp [h0]) (by simp [h0]) _ _
       (numberBranch_oct_fallback L L.Pos h0 hnext hx hbad)⟩

/-- Witness for C9: the hex conjunct applied to the two-byte source `0x`,
whose next byte past the prefix does not exist. -/
theorem claim9_amended_witness :
    nextToken (mkLexer (bl "0x"))
      = (makeToken (mkLexer (bl "0x")) TokenKind.Tok_Integer 0 1 (some 0),
         { mkLexer (bl "0x") with Pos := 1 }) :=
  claim9_prefix_fallback_amended.1 (mkLexer (bl "0x")) (by decide) (by decide)
    (by decide) (by decide) (Or.inl (by decide)) (by decide)

/-! ### C8: what a failed tentative parse restores -/

/-- `parseIdentifier` either advances once or leaves the state alone. -/
theorem parseIdentifier_cases (s : PState) :
    parseIdentifier s = (true, advance s) ∨ parseIdentifier s = (false, s) := by
  unfold parseIdentifier; split <;> simp

set_option maxHeartbeats 1000000 in
/-- `parseKeyword` either advances once or leaves the state alone. -/
theorem parseKeyword_cases (s : PState) :
    parseKeyword s = (true, advance s) ∨ parseKeyword s = (false, s) := by
  unfold parseKeyword
  split <;> first | exact Or.inl rfl | exact Or.inr rfl

set_option maxHeartbeats 1000000 in
/-- `parseReservedWord` either advances once or leaves the state alone. -/
theorem parseReservedWord_cases (s : PState) :
    parseReservedWord s = (true, advance s) ∨ parseReservedWord s = (false, s) := by
  unfold parseReservedWord
  split <;> first | exact Or.inl rfl | exact parseKeyword_cases s

/-- `parseIdentifierName` advances twice (the source's double advance), once,
or not at all — and on failure the state is untouched. -/
theorem parseIdentifierName_cases (s : PState) :
    parseIdentifierName s = (true, advance (advance s))
      ∨ parseIdentifierName s = (true, advance s)
      ∨ parseIdentifierName s = (false, s) := by
  unfold parseIdentifierName
  rcases parseIdentifier_cases s with h | h <;> rw [h]
  · left; rfl
  · rcases parseReservedWord_cases s with h2 | h2 <;> simp [h2]

/-- A no-match return of `parseLabelledStatement` carries the pre-attempt
lookahead token (`Cur = save` in the source restores only `Cur`). -/
theorem parseLabelledStatementF_nomatch_cur (fuel : Nat) (s r : PState)
    (h : parseLabelledStatementF fuel s = some (none, r)) : r.cur = s.cur := by
  cases fuel with
  | zero => simp [parseLabelledStatementF] at h
  | succ g =>
    rw [parseLabelledStatementF] at h
    rcases parseIdentifierName_cases s with h1 | h1 | h1 <;> rw [h1] at h <;>
      simp at h
    · split at h
      · rcases hm : parseStatementF g (advance (advance (advance s))) with _ | ⟨op, s2⟩ <;>
          rw [hm] at h
        · simp at h
        · cases op <;> simp at h
      · simp at h; rw [← h]
    · split at h
      · rcases hm : parseStatementF g (advance (advance s)) with _ | ⟨op, s2⟩ <;>
          rw [hm] at h
        · simp at h
        · cases op <;> simp at h
      · simp at h; rw [← h]
    · rw [← h]

/-- A no-match return of the expression-statement tail carries the
pre-attempt lookahead token. -/
theorem parseExpressionStatementTailF_nomatch_cur (fuel : Nat) (s r : PState)
    (h : parseExpressionStatementTailF fuel s = some (none, r)) : r.cur = s.cur := by
  cases fuel with
  | zero => simp [parseExpressionStatementTailF] at h
  | succ g =>
    rw [parseExpressionStatementTailF] at h
    split at h
    · simp at h; rw [← h]
    · rcases hm : parseExpressionSequenceF g s with _ | ⟨b, s1⟩ <;> rw [hm] at h
      · simp at h
      · cases b <;> simp at h
        rw [← h]

/-- With the lookahead on `class`, `parseClassDeclaration` never returns
no-match (its only no-match exit is the not-`class` guard). -/
theorem parseClassDeclarationF_class_no_nomatch (fuel : Nat) (s : PState)
    (hk : s.cur.kind = TokenKind.Tok_Class) (r : PState) :
    parseClassDeclarationF fuel s ≠ some (none, r) := by
  intro h
  cases fuel with
  | zero => simp [parseClassDeclarationF] at h
  | succ g =>
    rw [parseClassDeclarationF] at h
    rw [if_neg (by simp [hk])] at h
    simp only [] at h
    rcases h1 : advanceToLBraceF g (parseIdentifierName (advance s)).2 with _ | s2 <;>
      rw [h1] at h
    · simp at h
    · try simp only [] at h
      split at h
      · rcases h2 : parseClassTailF g s2 with _ | ⟨b, s3⟩ <;> rw [h2] at h
        · simp at h
        · try simp only [] at h
          cases b
          · simp at h
          · try simp only [] at h
            rcases h3 : advanceToRBraceF g s3 with _ | s4 <;> rw [h3] at h <;> simp at h
      · simp at h

/-- With the lookahead on a declaration keyword, `parseDeclaration` never
returns no-match. -/
theorem parseDeclarationF_decl_no_nomatch (fuel : Nat) (s : PState)
    (hk : s.cur.kind = TokenKind.Tok_Class ∨ s.cur.kind = TokenKind.Tok_Function
      ∨ s.cur.kind = TokenKind.Tok_Var ∨ s.cur.kind = TokenKind.Tok_NonStrictLet
      ∨ s.cur.kind = TokenKind.Tok_StrictLet ∨ s.cur.kind = TokenKind.Tok_Const)
    (r : PState) : parseDeclarationF fuel s ≠ some (none, r) := by
  intro h
  cases fuel with
  | zero => simp [parseDeclarationF] at h
  | succ g =>
    rw [parseDeclarationF] at h
    rcases hk with hk | hk | hk | hk | hk | hk
    · rw [hk] at h
      simp only [] at h
      rcases hm : parseClassDeclarationF g s with _ | ⟨op, s1⟩ <;> rw [hm] at h
      · simp at h
      · cases op with
        | none =>
          exact parseClassDeclarationF_class_no_nomatch g s hk s1 hm
        | some rr => simp at h
    · rw [hk] at h
      simp only [] at h
      repeat' split at h <;> try simp_all
    all_goals (
      rw [hk] at h
      simp only [] at h
      rcases hm : varConsumeLoopF g (advance s) with _ | s1 <;> rw [hm] at h <;> simp at h)

/-- A no-match return of `parseExpressionStatement` carries the pre-attempt
lookahead token. -/
theorem parseExpressionStatementF_nomatch_cur (fuel : Nat) (s r : PState)
    (h : parseExpressionStatementF fuel s = some (none, r)) : r.cur = s.cur := by
  cases fuel with
  | zero => simp [parseExpressionStatementF] at h
  | succ g =>
    rw [parseExpressionStatementF] at h
    split at h <;>
      first
      | exact parseExpressionStatementTailF_nomatch_cur g s r h
      | (rename_i heq
         rcases hm : parseDeclarationF g s with _ | ⟨op, s1⟩ <;> rw [hm] at h
         · simp at h
         · cases op with
           | some rr => simp at h
           | none => exact absurd hm (parseDeclarationF_decl_no_nomatch g s (by simp [heq]) s1))

/-- C8 counterexample: on `of of ;`, `parseLabelledStatement` consumes both
`of` tokens and the `;` before deciding no-match.  It restores the lookahead
(`cur.pos = 0`) but NOT the token-stream position: the lexer cursor stays at
7 (it was 2 before the attempt), so re-advancing from the "restored" state
yields EOF instead of the second `of` at position 3 — the next alternative
does not observe the same input, refuting the claim as stated. -/
theorem claim8_counterexample :
    (parseLabelledStatementF 5 (initPState (bl "of of ;"))).map
        (fun p => (p.1.isSome, p.2.cur.pos, p.2.lex.Pos, (advance p.2).cur.kind))
      = some (false, 0, 7, TokenKind.Tok_EOF)
    ∧ (initPState (bl "of of ;")).lex.Pos = 2
    ∧ (advance (initPState (bl "of of ;"))).cur.pos = 3 := by decide

/-- C8 (amended): a sub-parser that fails after tentatively consuming tokens
restores only the one-token lookahead `Cur` to its pre-attempt value — the
underlying lexer position is NOT restored, so the token stream itself may
have advanced (see the counterexample).  Both productions the claim cites
satisfy the weaker lookahead-only guarantee, universally. -/
theorem claim8_backtrack_amended :
    (∀ fuel : Nat, ∀ s r : PState,
       parseLabelledStatementF fuel s = some (none, r) → r.cur = s.cur)
  ∧ (∀ fuel : Nat, ∀ s r : PState,
       parseExpressionStatementF fuel s = some (none, r) → r.cur = s.cur) :=
  ⟨parseLabelledStatementF_nomatch_cur, parseExpressionStatementF_nomatch_cur⟩

/-- Witness for C8: the labelled-statement conjunct applied to `of of ;`,
the hypothesis discharged by evaluation. -/
theorem claim8_backtrack_amended_witness :
    ({ advance (advance (initPState (bl "of of ;"))) with
        cur := (initPState (bl "of of ;")).cur } : PState).cur
      = (initPState (bl "of of ;")).cur :=
  claim8_backtrack_amended.1 5 (initPState (bl "of of ;"))
    { advance (advance (initPState (bl "of of ;"))) with
        cur := (initPState (bl "of of ;")).cur } (by rfl)

/-! ### Byte-level lexer lemmas for the print-statement claims -/


/-- Reading one byte off a `drop` decomposition of the source. -/
theorem sget_of_drop_cons {s t : List Byte} {p : Nat} {c : Byte}
    (h : s.drop p = c :: t) :
    sget s p = c ∧ p < s.length ∧ s.drop (p + 1) = t := by
  have hlen : p < s.length := by
    by_contra hle
    rw [List.drop_eq_nil_of_le (by omega)] at h
    exact List.noConfusion h
  refine ⟨?_, hlen, ?_⟩
  · have h0 : s.drop p ≠ [] := by rw [h]; exact List.cons_ne_nil c t
    have : sget s p = (s.drop p).getD 0 0 := by
      simp [sget, List.getD_eq_getElem?_getD, List.getElem?_drop]
    rw [this, h]
    rfl
  · have : s.drop (p + 1) = (s.drop p).drop 1 := by
      rw [List.drop_drop]
    rw [this, h]
    rfl

/-- A position inside the buffer splits `drop` into head and tail. -/
theorem drop_cons_self {s : List Byte} {p : Nat} (h : p < s.length) :
    s.drop p = sget s p :: s.drop (p + 1) := by
  rw [List.drop_eq_getElem_cons h]
  congr 1
  simp [sget, List.getD_eq_getElem?_getD, List.getElem?_eq_getElem h]

/-- A `drop` decomposition computes the `subl` slice. -/
theorem subl_of_drop {s A R : List Byte} {p : Nat}
    (h : s.drop p = A ++ R) : subl s p A.length = A := by
  simp [subl, h]

/-- Advancing the cursor past a known prefix. -/
theorem drop_add_of_drop {s A R : List Byte} {p : Nat}
    (h : s.drop p = A ++ R) : s.drop (p + A.length) = R := by
  have : s.drop (p + A.length) = (s.drop p).drop A.length := by
    rw [List.drop_drop]
  rw [this, h, List.drop_left]

/-- No U+2028/U+2029 when the lead byte is not 0xE2. -/
theorem isUtf8LineSeparator_false {s : List Byte} {p : Nat}
    (h : sget s p ≠ 226) : isUtf8LineSeparator s p = false := by
  unfold isUtf8LineSeparator
  by_cases h2 : p + 2 ≥ s.length
  · rw [if_pos h2]
  · rw [if_neg h2]
    simp [h]

/-- No line terminator at a byte that is not CR, LF or 0xE2. -/
theorem lineTerminatorLength_eq_zero {s : List Byte} {p : Nat}
    (h13 : sget s p ≠ 13) (h10 : sget s p ≠ 10) (h226 : sget s p ≠ 226) :
    lineTerminatorLength s p = 0 := by
  unfold lineTerminatorLength
  by_cases hp : p ≥ s.length
  · rw [if_pos hp]
  · rw [if_neg hp]
    simp [h13, h10, isUtf8LineSeparator_false h226]

/-- The hash-bang skipper ignores positions not starting `#!` (or BOM). -/
theorem skipHashBang_none {s : List Byte} {p : Nat}
    (h239 : sget s p ≠ 239) (h35 : sget s p ≠ 35) : skipHashBang s p = none := by
  unfold skipHashBang
  by_cases hp : p ≠ 0
  · rw [if_pos hp]
  · rw [if_neg hp]
    simp only [not_not] at hp
    subst hp
    have hck : (if s.length ≥ 3 && (sget s 0 == 239) && (sget s 1 == 187) &&
        (sget s 2 == 191) then 3 else 0) = 0 := by
      simp [h239]
    simp only [hck]
    by_cases h1 : 0 + 1 ≥ s.length
    · rw [if_pos h1]
    · rw [if_neg h1]
      rw [if_pos h35]

/-- No `//` comment where the byte is not `/`. -/
theorem skipSingleLineComment_none {s : List Byte} {p : Nat}
    (h : sget s p ≠ 47) : skipSingleLineComment s p = none := by
  unfold skipSingleLineComment
  rw [if_pos h]

/-- No `<!--` comment where the byte is not `<`. -/
theorem skipHtmlComment_none {s : List Byte} {p : Nat}
    (h : sget s p ≠ 60) : skipHtmlComment s p = none := by
  unfold skipHtmlComment
  by_cases h3 : p + 3 ≥ s.length
  · rw [if_pos h3]
  · rw [if_neg h3]
    rw [if_pos (by simp [h])]

/-- No CDATA section where the byte is not `<`. -/
theorem skipCDataComment_none {s : List Byte} {p : Nat}
    (h : sget s p ≠ 60) : skipCDataComment s p = none := by
  unfold skipCDataComment
  by_cases h8 : p + 8 ≥ s.length
  · rw [if_pos h8]
  · rw [if_neg h8]
    rw [if_pos ?_]
    intro heq
    have hlt : p < s.length := by omega
    have hsub : subl s p 9 = sget s p :: (s.drop (p + 1)).take 8 := by
      simp [subl, drop_cons_self hlt]
    rw [hsub] at heq
    have hbl : bl "<![CDATA[" = 60 :: bl "![CDATA[" := by decide
    rw [hbl] at heq
    exact h (List.head_eq_of_cons_eq heq)

/-- No `/*` comment where the byte is not `/`. -/
theorem skipMultiLineComment_none {s : List Byte} {p : Nat}
    (h : sget s p ≠ 47) : skipMultiLineComment s p = none := by
  unfold skipMultiLineComment
  rw [if_pos h]

/-- The twelve inequalities a benign byte satisfies. -/
theorem benignByte_facts {c : Byte} (h : benignByte c = true) :
    c ≠ 9 ∧ c ≠ 11 ∧ c ≠ 12 ∧ c ≠ 32 ∧ c ≠ 160 ∧ c ≠ 13 ∧ c ≠ 10 ∧ c ≠ 226 ∧
    c ≠ 239 ∧ c ≠ 35 ∧ c ≠ 47 ∧ c ≠ 60 :=
  ⟨fun hk => absurd (hk ▸ h) (by decide), fun hk => absurd (hk ▸ h) (by decide),
   fun hk => absurd (hk ▸ h) (by decide), fun hk => absurd (hk ▸ h) (by decide),
   fun hk => absurd (hk ▸ h) (by decide), fun hk => absurd (hk ▸ h) (by decide),
   fun hk => absurd (hk ▸ h) (by decide), fun hk => absurd (hk ▸ h) (by decide),
   fun hk => absurd (hk ▸ h) (by decide), fun hk => absurd (hk ▸ h) (by decide),
   fun hk => absurd (hk ▸ h) (by decide), fun hk => absurd (hk ▸ h) (by decide)⟩

/-- Whitespace skipping is the identity on a benign byte. -/
theorem skipWhitespacePos_benign {s : List Byte} {p : Nat}
    (h : benignByte (sget s p) = true) : skipWhitespacePos s p = p := by
  obtain ⟨h9, h11, h12, h32, h160, h13, h10, h226, h239, h35, h47, h60⟩ :=
    benignByte_facts h
  unfold skipWhitespacePos
  show skipWhitespaceGo s (s.length + 1) p = p
  rw [skipWhitespaceGo]
  by_cases hp : p ≥ s.length
  · rw [if_pos hp]
  · rw [if_neg hp]
    simp only [h9, h11, h12, h32, h160,
      lineTerminatorLength_eq_zero h13 h10 h226,
      skipHashBang_none h239 h35,
      skipSingleLineComment_none h47,
      skipHtmlComment_none h60,
      skipCDataComment_none h60,
      skipMultiLineComment_none h47]
    simp
    intro hcase
    rcases hcase with (((hk | hk) | hk) | hk) | hk <;> simp_all

/-- The identifier loop consumes exactly a run of ASCII id-continue
bytes, stopping at end-of-input or a plain terminator byte. -/
theorem idGo_run {s : List Byte} (A : List Byte) :
    ∀ (p fuel : Nat) (R : List Byte),
    s.drop p = A ++ R →
    (∀ c ∈ A, asciiIdCont c = true) →
    (R = [] ∨ (asciiIdCont (sget s (p + A.length)) = false ∧
               sget s (p + A.length) &&& 0x80 = 0 ∧ sget s (p + A.length) ≠ 92)) →
    A.length < fuel →
    idGo s fuel p = p + A.length := by
  induction A with
  | nil =>
    intro p fuel R hdrop hall hstop hfuel
    obtain ⟨f, rfl⟩ : ∃ f, fuel = f + 1 := ⟨fuel - 1, by omega⟩
    rw [idGo]
    rcases hstop with hR | ⟨hs1, hs2, hs3⟩
    · subst hR
      simp only [List.nil_append] at hdrop
      have hp : p ≥ s.length := by
        by_contra hc
        rw [List.drop_eq_nil_iff] at hdrop
        omega
      rw [if_pos hp]
      simp
    · by_cases hp : p ≥ s.length
      · rw [if_pos hp]; simp
      · rw [if_neg hp]
        simp only [List.length_nil, Nat.add_zero] at hs1 hs2 hs3
        simp [hs1, hs2, hs3]
  | cons a A' ih =>
    intro p fuel R hdrop hall hstop hfuel
    obtain ⟨f, rfl⟩ : ∃ f, fuel = f + 1 := ⟨fuel - 1, by omega⟩
    rw [List.cons_append] at hdrop
    obtain ⟨hc, hlt, hdrop'⟩ := sget_of_drop_cons hdrop
    rw [idGo]
    rw [if_neg (by omega)]
    have ha : asciiIdCont a = true := hall a (by simp)
    simp only [hc, ha, if_true]
    have := ih (p + 1) f R hdrop' (fun c hm => hall c (by simp [hm]))
      (by rcases hstop with hR | hcond
          · exact Or.inl hR
          · right
            have : p + 1 + A'.length = p + (a :: A').length := by simp; omega
            rw [this]
            exact hcond)
      (by simp at hfuel ⊢; omega)
    rw [this]
    simp
    omega

/-- The decimal-run loop consumes exactly a run of digits, stopping at
end-of-input or a non-digit, non-underscore byte. -/
theorem decRunEnd_run {s : List Byte} (D : List Byte) :
    ∀ (p fuel : Nat) (R : List Byte),
    s.drop p = D ++ R →
    (∀ c ∈ D, 48 ≤ c ∧ c ≤ 57) →
    (R = [] ∨ (¬(48 ≤ sget s (p + D.length) ∧ sget s (p + D.length) ≤ 57) ∧
               sget s (p + D.length) ≠ 95)) →
    D.length < fuel →
    decRunEnd s fuel p = p + D.length := by
  induction D with
  | nil =>
    intro p fuel R hdrop hall hstop hfuel
    obtain ⟨f, rfl⟩ : ∃ f, fuel = f + 1 := ⟨fuel - 1, by omega⟩
    rw [decRunEnd]
    rcases hstop with hR | ⟨hs1, hs2⟩
    · subst hR
      simp only [List.nil_append] at hdrop
      have hp : p ≥ s.length := by
        by_contra hc
        rw [List.drop_eq_nil_iff] at hdrop
        omega
      rw [if_neg (by simp; intro hlt2; exact absurd hlt2 (by omega))]
      simp
    · simp only [List.length_nil, Nat.add_zero] at hs1 hs2
      rw [if_neg (by
        simp
        intro _
        refine ⟨fun h48 => ?_, hs2⟩
        by_contra hle
        exact hs1 ⟨h48, Nat.le_of_not_lt hle⟩)]
      simp
  | cons a D' ih =>
    intro p fuel R hdrop hall hstop hfuel
    obtain ⟨f, rfl⟩ : ∃ f, fuel = f + 1 := ⟨fuel - 1, by omega⟩
    rw [List.cons_append] at hdrop
    obtain ⟨hc, hlt, hdrop'⟩ := sget_of_drop_cons hdrop
    rw [decRunEnd]
    have ha := hall a (by simp)
    rw [if_pos (by simp [hc, hlt, ha.1, ha.2])]
    have := ih (p + 1) f R hdrop' (fun c hm => hall c (by simp [hm]))
      (by rcases hstop with hR | hcond
          · exact Or.inl hR
          · right
            have heq : p + 1 + D'.length = p + (a :: D').length := by simp; omega
            rw [heq]
            exact hcond)
      (by simp at hfuel ⊢; omega)
    rw [this]
    simp
    omega

/-- The five inequalities a plain string byte satisfies. -/
theorem plainStrByte_facts {q c : Byte} (h : plainStrByte q c = true) :
    c ≠ q ∧ c ≠ 92 ∧ c ≠ 13 ∧ c ≠ 10 ∧ c < 128 := by
  simp [plainStrByte] at h
  tauto

/-- The string loop consumes plain content bytes up to the closing quote
and emits the string-literal token. -/
theorem strGo_run {L : Lexer} {start : Nat} {quote : Byte} (C : List Byte) :
    ∀ (p fuel : Nat) (R : List Byte),
    L.Src.drop p = C ++ (quote :: R) →
    (∀ c ∈ C, plainStrByte quote c = true) →
    C.length < fuel →
    strGo L start quote fuel p
      = (makeToken L .Tok_StringLiteral start (p + C.length + 1 - start) none,
         { L with Pos := p + C.length + 1 }) := by
  induction C with
  | nil =>
    intro p fuel R hdrop hall hfuel
    obtain ⟨f, rfl⟩ : ∃ f, fuel = f + 1 := ⟨fuel - 1, by omega⟩
    simp only [List.nil_append] at hdrop
    obtain ⟨hq, hlt, _⟩ := sget_of_drop_cons hdrop
    rw [strGo]
    rw [if_neg (by omega)]
    simp [hq]
  | cons c C' ih =>
    intro p fuel R hdrop hall hfuel
    obtain ⟨f, rfl⟩ : ∃ f, fuel = f + 1 := ⟨fuel - 1, by omega⟩
    rw [List.cons_append] at hdrop
    obtain ⟨hc, hlt, hdrop'⟩ := sget_of_drop_cons hdrop
    obtain ⟨hne, h92, h13, h10, h128⟩ := plainStrByte_facts (hall c (by simp))
    rw [strGo]
    rw [if_neg (by omega)]
    simp only [hc]
    rw [if_neg (show ¬((c == quote) = true) by simp [hne])]
    rw [if_neg (show ¬((c == 92) = true) by simp [h92])]
    have hlt0 : lineTerminatorLength L.Src p = 0 :=
      lineTerminatorLength_eq_zero (by rw [hc]; exact h13) (by rw [hc]; exact h10)
        (by rw [hc]; exact Nat.ne_of_lt (Nat.lt_of_lt_of_le h128 (by decide)))
    rw [if_neg (show ¬(lineTerminatorLength L.Src p ≠ 0) by simp [hlt0])]
    have hstep := ih (p + 1) f R hdrop' (fun x hm => hall x (by simp [hm]))
      (by simp at hfuel ⊢; omega)
    rw [hstep]
    have harith : p + 1 + C'.length = p + (c :: C').length := by simp; omega
    rw [harith]

/-- `nextToken` at `(`. -/
theorem nextToken_lparen {src : List Byte} {p : Nat} {R : List Byte}
    (hdrop : src.drop p = 40 :: R) :
    nextToken { Src := src, Pos := p, StrictMode := false, InTemplateString := false }
      = (⟨.Tok_LParen, [40], p, none⟩,
         { Src := src, Pos := p + 1, StrictMode := false, InTemplateString := false }) := by
  obtain ⟨hc, hlt, hdrop'⟩ := sget_of_drop_cons hdrop
  have hws : skipWhitespacePos src p = p := skipWhitespacePos_benign (by rw [hc]; decide)
  have hsub : subl src p 1 = [40] := subl_of_drop (A := [40]) (by simpa using hdrop)
  unfold nextToken
  simp only [hws]
  rw [if_neg (by simp; omega)]
  rw [if_neg (by simp)]
  simp only [hc]
  rw [if_neg (by decide)]
  rw [if_neg (by simp)]
  rw [if_neg (by decide)]
  unfold punctSwitch
  simp only []
  rw [if_neg (by decide), if_neg (by decide), if_neg (by decide), if_neg (by decide),
      if_pos (by decide)]
  simp [makeToken, hsub]

/-- `nextToken` at `)`. -/
theorem nextToken_rparen {src : List Byte} {p : Nat} {R : List Byte}
    (hdrop : src.drop p = 41 :: R) :
    nextToken { Src := src, Pos := p, StrictMode := false, InTemplateString := false }
      = (⟨.Tok_RParen, [41], p, none⟩,
         { Src := src, Pos := p + 1, StrictMode := false, InTemplateString := false }) := by
  obtain ⟨hc, hlt, hdrop'⟩ := sget_of_drop_cons hdrop
  have hws : skipWhitespacePos src p = p := skipWhitespacePos_benign (by rw [hc]; decide)
  have hsub : subl src p 1 = [41] := subl_of_drop (A := [41]) (by simpa using hdrop)
  unfold nextToken
  simp only [hws]
  rw [if_neg (by simp; omega)]
  rw [if_neg (by simp)]
  simp only [hc]
  rw [if_neg (by decide)]
  rw [if_neg (by simp)]
  rw [if_neg (by decide)]
  unfold punctSwitch
  simp only []
  rw [if_neg (by decide), if_neg (by decide), if_neg (by decide), if_neg (by decide),
      if_neg (by decide), if_pos (by decide)]
  simp [makeToken, hsub]

/-- `nextToken` at `,`. -/
theorem nextToken_comma {src : List Byte} {p : Nat} {R : List Byte}
    (hdrop : src.drop p = 44 :: R) :
    nextToken { Src := src, Pos := p, StrictMode := false, InTemplateString := false }
      = (⟨.Tok_Comma, [44], p, none⟩,
         { Src := src, Pos := p + 1, StrictMode := false, InTemplateString := false }) := by
  obtain ⟨hc, hlt, hdrop'⟩ := sget_of_drop_cons hdrop
  have hws : skipWhitespacePos src p = p := skipWhitespacePos_benign (by rw [hc]; decide)
  have hsub : subl src p 1 = [44] := subl_of_drop (A := [44]) (by simpa using hdrop)
  unfold nextToken
  simp only [hws]
  rw [if_neg (by simp; omega)]
  rw [if_neg (by simp)]
  simp only [hc]
  rw [if_neg (by decide)]
  rw [if_neg (by simp)]
  rw [if_neg (by decide)]
  unfold punctSwitch
  simp only []
  rw [if_neg (by decide), if_neg (by decide), if_neg (by decide), if_neg (by decide),
      if_neg (by decide), if_neg (by decide), if_neg (by decide), if_neg (by decide),
      if_neg (by decide), if_pos (by decide)]
  simp [makeToken, hsub]

/-- `nextToken` at end of input. -/
theorem nextToken_eof {src : List Byte} {p : Nat}
    (hdrop : src.drop p = []) :
    nextToken { Src := src, Pos := p, StrictMode := false, InTemplateString := false }
      = (⟨.Tok_EOF, [], p, none⟩,
         { Src := src, Pos := p, StrictMode := false, InTemplateString := false }) := by
  have hge : p ≥ src.length := by
    by_contra hc
    rw [List.drop_eq_nil_iff] at hdrop
    omega
  have hws : skipWhitespacePos src p = p := by
    unfold skipWhitespacePos
    rw [skipWhitespaceGo]
    rw [if_pos hge]
  unfold nextToken
  simp only [hws]
  rw [if_pos (by simpa using hge)]
  simp [makeToken, subl]

/-- `nextToken` at `print(`: the identifier branch scans the five letters
and the keyword table yields `Tok_Print`. -/
theorem nextToken_print {src : List Byte} {p : Nat} {R : List Byte}
    (hdrop : src.drop p = bl "print" ++ (40 :: R)) :
    nextToken { Src := src, Pos := p, StrictMode := false, InTemplateString := false }
      = (⟨.Tok_Print, bl "print", p, none⟩,
         { Src := src, Pos := p + 5, StrictMode := false, InTemplateString := false }) := by
  have hdropc : src.drop p = 112 :: (bl "rint" ++ (40 :: R)) := by
    rw [hdrop]; rfl
  obtain ⟨hc, hlt, hdrop1⟩ := sget_of_drop_cons hdropc
  have hlen : src.length = p + 6 + R.length := by
    have hl := congrArg List.length hdrop
    simp only [List.length_drop, List.length_append, List.length_cons,
      show (bl "print").length = 5 from by decide] at hl
    omega
  have hdrop5 : src.drop (p + 5) = 40 :: R := by
    have := drop_add_of_drop (A := bl "print") (R := 40 :: R) hdrop
    simpa using this
  obtain ⟨hc5, hlt5, _⟩ := sget_of_drop_cons hdrop5
  have hws : skipWhitespacePos src p = p :=
    skipWhitespacePos_benign (by rw [hc]; decide)
  have hid : idGo src (src.length + 1) (p + 1) = p + 5 := by
    have hrun := idGo_run (s := src) (bl "rint") (p + 1) (src.length + 1) (40 :: R)
      hdrop1 (by decide)
      (Or.inr (by
        have h45 : p + 1 + (bl "rint").length = p + 5 := by
          have : (bl "rint").length = 4 := by decide
          omega
        rw [h45, hc5]
        exact ⟨by decide, by decide, by decide⟩))
      (by have : (bl "rint").length = 4 := by decide
          omega)
    have h45 : p + 1 + (bl "rint").length = p + 5 := by
      have : (bl "rint").length = 4 := by decide
      omega
    rw [h45] at hrun
    exact hrun
  have hsub5 : subl src p 5 = bl "print" :=
    subl_of_drop (A := bl "print") hdrop
  unfold nextToken
  simp only [hws]
  rw [if_neg (by simp; omega)]
  rw [if_neg (by simp)]
  simp only [hc]
  rw [if_pos (by decide)]
  unfold identBranch
  simp only []
  rw [show (if ((112 : Byte) == 92) = true then p else p + 1) = p + 1 by simp]
  rw [hid]
  have harith : p + 5 - p = 5 := by omega
  rw [harith, hsub5]
  rw [show kwKind (bl "print") false = TokenKind.Tok_Print by decide]
  simp [makeToken, hsub5, show (bl "print").length = 5 from by decide]

/-- Decimal digits are benign. -/
theorem benignByte_digit {c : Byte} (h1 : 48 ≤ c) (h2 : c ≤ 57) :
    benignByte c = true := by
  interval_cases c <;> decide

/-- `nextToken` at a quoted literal of plain content bytes. -/
theorem nextToken_string {src : List Byte} {p : Nat} {q : Byte} {C R : List Byte}
    (hq : q = 34 ∨ q = 39)
    (hplain : ∀ c ∈ C, plainStrByte q c = true)
    (hdrop : src.drop p = q :: (C ++ (q :: R))) :
    nextToken { Src := src, Pos := p, StrictMode := false, InTemplateString := false }
      = (⟨.Tok_StringLiteral, q :: (C ++ [q]), p, none⟩,
         { Src := src, Pos := p + C.length + 2, StrictMode := false,
           InTemplateString := false }) := by
  obtain ⟨hc, hlt, hdrop1⟩ := sget_of_drop_cons hdrop
  have hlen : src.length = p + C.length + 2 + R.length := by
    have hl := congrArg List.length hdrop
    simp only [List.length_drop, List.length_cons, List.length_append] at hl
    omega
  have hws : skipWhitespacePos src p = p :=
    skipWhitespacePos_benign (by rw [hc]; rcases hq with h | h <;> (subst h; decide))
  have hsub : subl src p (C.length + 2) = q :: (C ++ [q]) := by
    have heq : src.drop p = (q :: (C ++ [q])) ++ R := by
      rw [hdrop]; simp
    have := subl_of_drop heq
    simpa using this
  have hrun : strGo { Src := src, Pos := p, StrictMode := false, InTemplateString := false }
      p q (src.length + 1) (p + 1)
      = (makeToken { Src := src, Pos := p, StrictMode := false, InTemplateString := false }
          .Tok_StringLiteral p (p + 1 + C.length + 1 - p) none,
         { Src := src, Pos := p + 1 + C.length + 1, StrictMode := false,
           InTemplateString := false }) := by
    exact strGo_run C (p + 1) (src.length + 1) R hdrop1 hplain (by omega)
  unfold nextToken
  simp only [hws]
  rw [if_neg (by simp; omega)]
  rw [if_neg (by simp)]
  simp only [hc]
  rw [if_neg (by rcases hq with h | h <;> (subst h; decide))]
  rw [if_neg (by rcases hq with h | h <;> (subst h; simp))]
  rw [if_pos (by rcases hq with h | h <;> (subst h; decide))]
  unfold stringBranch
  simp only []
  rw [hrun]
  have harith1 : p + 1 + C.length + 1 - p = C.length + 2 := by omega
  have harith2 : p + 1 + C.length + 1 = p + C.length + 2 := by omega
  rw [harith1, harith2]
  simp [makeToken, hsub]

/-- The decimal tail on a pure digit run followed by `)` or `,` emits a
`Tok_Integer` token carrying exactly the digit text. -/
theorem numberTail_digits {src : List Byte} {p : Nat} {D R : List Byte} {b : Byte}
    (hD : D ≠ []) (hdig : ∀ c ∈ D, 48 ≤ c ∧ c ≤ 57)
    (hb : b = 41 ∨ b = 44)
    (hdrop : src.drop p = D ++ (b :: R)) :
    numberTail { Src := src, Pos := p, StrictMode := false, InTemplateString := false } p
      = some (⟨.Tok_Integer, D, p, some (intValOfRange src p (p + D.length))⟩,
              { Src := src, Pos := p + D.length, StrictMode := false,
                InTemplateString := false }) := by
  obtain ⟨d, D', rfl⟩ := List.exists_cons_of_ne_nil hD
  rw [List.cons_append] at hdrop
  obtain ⟨hc, hlt, hdrop1⟩ := sget_of_drop_cons hdrop
  obtain ⟨hd1, hd2⟩ := hdig d (by simp)
  have hdropb : src.drop (p + (d :: D').length) = b :: R := by
    have := drop_add_of_drop (A := d :: D') (R := b :: R)
      (by rw [List.cons_append]; exact hdrop)
    exact this
  obtain ⟨hcb, hltb, _⟩ := sget_of_drop_cons hdropb
  have hlen : src.length = p + (d :: D').length + 1 + R.length := by
    have hl := congrArg List.length hdrop
    simp only [List.length_drop, List.length_cons, List.length_append] at hl
    simp
    omega
  have hrun : decRunEnd src (src.length + 1) (p + 1) = p + (d :: D').length := by
    have h1 : p + 1 + D'.length = p + (d :: D').length := by
      simp only [List.length_cons]
      omega
    have := decRunEnd_run (s := src) D' (p + 1) (src.length + 1) (b :: R) hdrop1
      (fun c hm => hdig c (by simp [hm]))
      (Or.inr (by
        rw [h1, hcb]
        rcases hb with h | h <;> (subst h; exact ⟨by decide, by decide⟩)))
      (by simp at hlen ⊢; omega)
    rw [this, h1]
  have hsub : subl src p (d :: D').length = d :: D' := subl_of_drop hdrop
  simp only [List.length_cons] at hrun hcb hsub
  rcases hb with rfl | rfl <;>
    (unfold numberTail
     simp only [hc]
     simp [hd1, hd2, hrun, hcb, makeToken, hsub])

/-- The number branch on a digit run (single `0`, or not starting with
`0`) defers to the decimal tail. -/
theorem numberBranch_digits {src : List Byte} {p : Nat} {D R : List Byte} {b : Byte}
    (hD : D ≠ []) (hdig : ∀ c ∈ D, 48 ≤ c ∧ c ≤ 57)
    (hhead : D.headD 0 = 48 → D.length = 1)
    (hb : b = 41 ∨ b = 44)
    (hdrop : src.drop p = D ++ (b :: R)) :
    numberBranch { Src := src, Pos := p, StrictMode := false, InTemplateString := false } p
      = some (⟨.Tok_Integer, D, p, some (intValOfRange src p (p + D.length))⟩,
              { Src := src, Pos := p + D.length, StrictMode := false,
                InTemplateString := false }) := by
  have htail := numberTail_digits hD hdig hb hdrop
  obtain ⟨d, D', rfl⟩ := List.exists_cons_of_ne_nil hD
  rw [List.cons_append] at hdrop
  obtain ⟨hc, hlt, hdrop1⟩ := sget_of_drop_cons hdrop
  by_cases hd48 : d = 48
  · subst hd48
    have hlen1 : D' = [] := by
      have := hhead (by simp)
      simpa using this
    subst hlen1
    simp only [List.nil_append] at hdrop1
    obtain ⟨hcb, hltb, _⟩ := sget_of_drop_cons hdrop1
    unfold numberBranch
    simp only [hc]
    rw [if_pos (by simp [hltb])]
    rw [show sget src (p + 1) = b from hcb]
    rcases hb with rfl | rfl <;>
      (rw [if_neg (by decide), if_neg (by decide), if_neg (by decide),
           if_neg (by simp), if_neg (by simp)]
       exact htail)
  · unfold numberBranch
    simp only [hc]
    rw [if_neg (by simp [hd48])]
    exact htail

/-- `nextToken` at a plain decimal integer literal followed by `)` or `,`. -/
theorem nextToken_int {src : List Byte} {p : Nat} {D R : List Byte} {b : Byte}
    (hD : D ≠ []) (hdig : ∀ c ∈ D, 48 ≤ c ∧ c ≤ 57)
    (hhead : D.headD 0 = 48 → D.length = 1)
    (hb : b = 41 ∨ b = 44)
    (hdrop : src.drop p = D ++ (b :: R)) :
    nextToken { Src := src, Pos := p, StrictMode := false, InTemplateString := false }
      = (⟨.Tok_Integer, D, p, some (intValOfRange src p (p + D.length))⟩,
         { Src := src, Pos := p + D.length, StrictMode := false,
           InTemplateString := false }) := by
  have hnb := numberBranch_digits hD hdig hhead hb hdrop
  obtain ⟨d, D', rfl⟩ := List.exists_cons_of_ne_nil hD
  rw [List.cons_append] at hdrop
  obtain ⟨hc, hlt, hdrop1⟩ := sget_of_drop_cons hdrop
  obtain ⟨hd1, hd2⟩ := hdig d (by simp)
  have hws : skipWhitespacePos src p = p :=
    skipWhitespacePos_benign (by rw [hc]; exact benignByte_digit hd1 hd2)
  unfold nextToken
  simp only [hws]
  rw [if_neg (by simp; omega)]
  rw [if_neg (by simp)]
  simp only [hc]
  rw [show isIdentStartByte d = false from isIdentStartByte_digit d hd1 hd2]
  simp only [Bool.false_eq_true, if_false]
  rw [if_pos (by simp [hd1, hd2])]
  rw [hnb]

/-- A decimal representation is never empty. -/
theorem decRepr_ne_nil (n : Nat) : decRepr n ≠ [] := by
  unfold decRepr
  split
  · simp
  · simp
    rename_i hn
    exact Nat.digits_ne_nil_iff_ne_zero.mpr hn

/-- A decimal representation consists of digit bytes. -/
theorem decRepr_digits (n : Nat) : ∀ c ∈ decRepr n, 48 ≤ c ∧ c ≤ 57 := by
  unfold decRepr
  split
  · intro c hm
    simp at hm
    subst hm
    decide
  · intro c hm
    simp at hm
    obtain ⟨d, hd, rfl⟩ := hm
    have hlt : d < 10 := Nat.digits_lt_base (by norm_num) hd
    show 48 ≤ d + 48 ∧ d + 48 ≤ 57
    refine ⟨?_, ?_⟩ <;> omega

/-- A decimal representation starts with `0` only for `n = 0` itself. -/
theorem decRepr_head (n : Nat) : (decRepr n).headD 0 = 48 → (decRepr n).length = 1 := by
  unfold decRepr
  split
  · simp
  · intro hh
    exfalso
    rename_i hn
    have hne : Nat.digits 10 n ≠ [] := Nat.digits_ne_nil_iff_ne_zero.mpr hn
    have h1 : ((Nat.digits 10 n).map (fun d => d + 48)).reverse.headD 0
        = (Nat.digits 10 n).getLast hne + 48 := by
      rw [List.headD_eq_head?_getD, List.head?_reverse, List.getLast?_map,
          List.getLast?_eq_getLast _ hne]
      rfl
    rw [h1] at hh
    have hlast := Nat.getLast_digit_ne_zero 10 hn
    have h0 : (Nat.digits 10 n).getLast hne = 0 := by
      have := Nat.add_right_cancel (m := 48) (k := 0) (by simpa using hh)
      simpa using this
    exact hlast h0

/-- Round trip: reading the decimal representation back yields `n`. -/
theorem decValue_decRepr (n : Nat) : decValue (decRepr n) = n := by
  have hfold : ∀ l : List Nat,
      l.foldr (fun d acc => acc * 10 + d) 0 = Nat.ofDigits 10 l := by
    intro l
    induction l with
    | nil => simp [Nat.ofDigits]
    | cons d l ih =>
      rw [List.foldr_cons, ih, Nat.ofDigits_cons]
      ring
  unfold decValue decRepr
  by_cases h : n = 0
  · simp [h]
  · simp only [h, if_false, ite_false]
    rw [List.foldl_reverse]
    rw [List.foldr_map]
    have hclean : (fun (d acc : Nat) => acc * 10 + (d + 48 - 48))
        = fun (d acc : Nat) => acc * 10 + d := by
      funext d acc
      omega
    rw [hclean, hfold (Nat.digits 10 n)]
    exact Nat.ofDigits_digits 10 n



theorem tokState_eq {src : List Byte} {p q : Nat} {t : Token} (pe : Nat)
    (h : nextToken { Src := src, Pos := p, StrictMode := false, InTemplateString := false }
       = (t, { Src := src, Pos := q, StrictMode := false, InTemplateString := false })) :
    tokState src p pe
      = { lex := { Src := src, Pos := q, StrictMode := false, InTemplateString := false },
          cur := t, prevTokenEnd := pe, lastTypeParsed := none } := by
  unfold tokState
  rw [h]

theorem advance_tokState {src : List Byte} {p q : Nat} {t : Token} (pe : Nat)
    (h : nextToken { Src := src, Pos := p, StrictMode := false, InTemplateString := false }
       = (t, { Src := src, Pos := q, StrictMode := false, InTemplateString := false })) :
    advance (tokState src p pe) = tokState src q (t.pos + t.text.length) := by
  unfold advance tokState
  rw [h]

theorem initPState_eq_tokState (src : List Byte) : initPState src = tokState src 0 0 := rfl

theorem parseVarModifier_nomatch {s : PState}
    (h1 : s.cur.kind ≠ TokenKind.Tok_Var) (h2 : s.cur.kind ≠ TokenKind.Tok_Const)
    (h3 : s.cur.kind ≠ TokenKind.Tok_NonStrictLet)
    (h4 : s.cur.kind ≠ TokenKind.Tok_StrictLet) :
    parseVarModifier s = (false, s) := by
  unfold parseVarModifier
  split <;> simp_all [parseLet]

theorem parseVariableStatementF_nomatch {s : PState} (fuel : Nat)
    (h1 : s.cur.kind ≠ TokenKind.Tok_Var) (h2 : s.cur.kind ≠ TokenKind.Tok_Const)
    (h3 : s.cur.kind ≠ TokenKind.Tok_NonStrictLet)
    (h4 : s.cur.kind ≠ TokenKind.Tok_StrictLet) :
    parseVariableStatementF (fuel + 2) s = some (none, s) := by
  rw [parseVariableStatementF]
  rw [parseVariableDeclarationListF]
  rw [parseVarModifier_nomatch h1 h2 h3 h4]
  simp

theorem parseBlockF_nomatch {s : PState} (fuel : Nat)
    (h : s.cur.kind ≠ TokenKind.Tok_LBrace) :
    parseBlockF (fuel + 1) s = some (none, s) := by
  rw [parseBlockF]
  rw [if_pos h]

theorem parseClassDeclarationF_nomatch {s : PState} (fuel : Nat)
    (h : s.cur.kind ≠ TokenKind.Tok_Class) :
    parseClassDeclarationF (fuel + 1) s = some (none, s) := by
  rw [parseClassDeclarationF]
  rw [if_pos h]

theorem parseEmptyStatement_nomatch {s : PState}
    (h : s.cur.kind ≠ TokenKind.Tok_Semi) :
    parseEmptyStatement s = (none, s) := by
  unfold parseEmptyStatement
  rw [if_pos h]

theorem parseImportStatementF_nomatch {s : PState} (fuel : Nat)
    (h : s.cur.kind ≠ TokenKind.Tok_Import) :
    parseImportStatementF (fuel + 1) s = some (none, s) := by
  rw [parseImportStatementF]
  rw [if_pos h]

theorem parseExportStatementF_nomatch {s : PState} (fuel : Nat)
    (h : s.cur.kind ≠ TokenKind.Tok_Export) :
    parseExportStatementF (fuel + 1) s = some (none, s) := by
  rw [parseExportStatementF]
  rw [if_pos h]

theorem parsePrintStatementF_print {s : PState} (fuel : Nat)
    (hk : s.cur.kind = TokenKind.Tok_Print)
    (hl : (advance s).cur.kind = TokenKind.Tok_LParen) :
    parsePrintStatementF (fuel + 1) s
      = printArgsLoopF fuel (advance (advance s)) [] true TokenKind.Tok_Print := by
  rw [parsePrintStatementF]
  rw [if_neg (by simp [hk])]
  simp only [hk]
  rw [if_neg (by simp [hl])]

theorem parseStatementF_print {s : PState} (fuel : Nat) {r : ParseResult} {s' : PState}
    (hk : s.cur.kind = TokenKind.Tok_Print)
    (hp : parsePrintStatementF (fuel + 2) s = some (some r, s')) :
    parseStatementF (fuel + 3) s = some (some r, s') := by
  rw [parseStatementF]
  rw [parseBlockF_nomatch (fuel + 1) (by simp [hk])]
  simp only []
  rw [parseVariableStatementF_nomatch fuel (by simp [hk]) (by simp [hk])
      (by simp [hk]) (by simp [hk])]
  simp only []
  rw [parseClassDeclarationF_nomatch (fuel + 1) (by simp [hk])]
  simp only []
  rw [parseEmptyStatement_nomatch (by simp [hk])]
  simp only []
  rw [parseImportStatementF_nomatch (fuel + 1) (by simp [hk])]
  simp only []
  rw [parseExportStatementF_nomatch (fuel + 1) (by simp [hk])]
  simp only []
  rw [hp]

theorem printArgsLoop_step {src : List Byte} {p : Nat} {R : List Byte} {b : Byte}
    (a : PrintArg) (pe : Nat) (hgood : goodArg a = true)
    (hb : b = 41 ∨ b = 44)
    (hdrop : src.drop p = argBytes a ++ (b :: R)) :
    ∀ (fuel : Nat) (acc : List Expr) (pk : TokenKind),
    printArgsLoopF (fuel + 1) (tokState src p pe) acc true pk
      = printArgsLoopF fuel
          (tokState src (p + (argBytes a).length) (p + (argBytes a).length))
          (acc ++ [argExpr a]) false pk := by
  intro fuel acc pk
  cases a with
  | int n =>
    have htok := nextToken_int (decRepr_ne_nil n) (decRepr_digits n) (decRepr_head n)
      hb (by simpa [argBytes] using hdrop)
    rw [tokState_eq pe htok]
    rw [printArgsLoopF]
    simp only []
    rw [if_neg (by simp)]
    rw [if_neg (by simp)]
    rw [if_neg (by simp)]
    rw [if_neg (by simp)]
    rw [if_pos (by simp)]
    have hadv := advance_tokState pe htok
    rw [tokState_eq pe htok] at hadv
    rw [hadv]
    simp [argBytes, argExpr]
  | str q C =>
    have hq : q = 34 ∨ q = 39 := by
      simp [goodArg] at hgood
      rcases hgood.1 with h | h <;> [exact Or.inl h; exact Or.inr h]
    have hplain : ∀ c ∈ C, plainStrByte q c = true := by
      simp [goodArg] at hgood
      intro c hc
      exact hgood.2 c hc
    have htok := nextToken_string hq hplain
      (by simpa [argBytes, List.append_assoc] using hdrop)
    rw [tokState_eq pe htok]
    rw [printArgsLoopF]
    simp only []
    rw [if_neg (by simp)]
    rw [if_neg (by simp)]
    rw [if_neg (by simp)]
    rw [if_pos (by simp)]
    have hstrip : (if ((q :: (C ++ [q])).length ≥ 2 : Bool) &&
        (((q :: (C ++ [q])).headD 0 == 34) && ((q :: (C ++ [q])).getLastD 0 == 34) ||
         ((q :: (C ++ [q])).headD 0 == 39) && ((q :: (C ++ [q])).getLastD 0 == 39)) then
        ((q :: (C ++ [q])).drop 1).take ((q :: (C ++ [q])).length - 2)
      else (q :: (C ++ [q]))) = C := by
      have hlast : (q :: (C ++ [q])).getLastD 0 = q := by
        rw [show q :: (C ++ [q]) = (q :: C) ++ [q] from by simp]
        exact List.getLastD_concat 0 q (q :: C)
      rw [if_pos ?_]
      · simp
      · rw [hlast]
        rcases hq with rfl | rfl <;> simp
    rw [hstrip]
    have hadv := advance_tokState pe htok
    rw [tokState_eq pe htok] at hadv
    rw [hadv]
    simp [argBytes, argExpr]
    ring_nf

theorem printArgsLoop_run (args : List PrintArg) :
    ∀ (fuel : Nat) (src : List Byte) (p pe : Nat) (acc : List Expr) (pk : TokenKind),
    args.all goodArg = true →
    src.drop p = argsBytes args ++ [41] →
    printArgsLoopF (2 * args.length + 1 + fuel) (tokState src p pe) acc true pk
      = some (some { ok := true, error := "",
                     stmt := some (.print (acc ++ args.map argExpr) pk) },
              tokState src (p + (argsBytes args).length + 1)
                (p + (argsBytes args).length + 1)) := by
  induction args with
  | nil =>
    intro fuel src p pe acc pk hgood hdrop
    have htok := nextToken_rparen (R := []) (by simpa [argsBytes] using hdrop)
    have heq : 2 * ([] : List PrintArg).length + 1 + fuel = fuel + 1 := by simp; omega
    rw [heq]
    rw [tokState_eq pe htok]
    rw [printArgsLoopF]
    simp only []
    rw [if_neg (by simp)]
    rw [if_pos (by simp)]
    have hadv := advance_tokState pe htok
    rw [tokState_eq pe htok] at hadv
    rw [hadv]
    simp [argsBytes]
  | cons a args' ih =>
    intro fuel src p pe acc pk hgood hdrop
    have hgooda : goodArg a = true := by simp [List.all_cons] at hgood; exact hgood.1
    cases args' with
    | nil =>
      have hdropa : src.drop p = argBytes a ++ (41 :: []) := by
        simpa [argsBytes] using hdrop
      have heq : 2 * ([a] : List PrintArg).length + 1 + fuel = (fuel + 2) + 1 := by
        simp; omega
      rw [heq]
      rw [printArgsLoop_step a pe hgooda (Or.inl rfl) hdropa (fuel + 2) acc pk]
      have hdropr : src.drop (p + (argBytes a).length) = 41 :: [] :=
        drop_add_of_drop hdropa
      have htok := nextToken_rparen (R := []) hdropr
      rw [tokState_eq _ htok]
      rw [printArgsLoopF]
      simp only []
      rw [if_neg (by simp)]
      rw [if_pos (by simp)]
      have hadv := advance_tokState (p + (argBytes a).length) htok
      rw [tokState_eq _ htok] at hadv
      rw [hadv]
      simp [argsBytes, argExpr]
    | cons b rest =>
      have hdropa : src.drop p
          = argBytes a ++ (44 :: (argsBytes (b :: rest) ++ [41])) := by
        rw [hdrop]
        simp [argsBytes]
      have heq : 2 * (a :: b :: rest).length + 1 + fuel
          = ((2 * (b :: rest).length + 1 + fuel) + 1) + 1 := by simp; omega
      rw [heq]
      rw [printArgsLoop_step a pe hgooda (Or.inr rfl) hdropa _ acc pk]
      have hdropc : src.drop (p + (argBytes a).length)
          = 44 :: (argsBytes (b :: rest) ++ [41]) :=
        drop_add_of_drop hdropa
      have htok := nextToken_comma hdropc
      rw [tokState_eq _ htok]
      rw [printArgsLoopF]
      simp only []
      rw [if_neg (by simp)]
      rw [if_neg (by simp)]
      rw [if_pos (by simp)]
      rw [if_pos (by simp)]
      have hadv := advance_tokState (p + (argBytes a).length) htok
      rw [tokState_eq _ htok] at hadv
      rw [hadv]
      have hdropn : src.drop (p + (argBytes a).length + 1)
          = argsBytes (b :: rest) ++ [41] := by
        have := sget_of_drop_cons hdropc
        exact this.2.2
      have hih := ih fuel src (p + (argBytes a).length + 1) (p + (argBytes a).length + 1)
        (acc ++ [argExpr a]) pk
        (by simp [List.all_cons] at hgood ⊢; exact hgood.2) hdropn
      rw [show (Token.mk TokenKind.Tok_Comma [44] (p + (argBytes a).length) none).pos
          + (Token.mk TokenKind.Tok_Comma [44] (p + (argBytes a).length) none).text.length
          = p + (argBytes a).length + 1 from by simp]
      rw [hih]
      simp [argsBytes, argExpr]
      try constructor
      all_goals (congr 1 <;> (simp [argsBytes]; try omega))

theorem handleOptionalHashBang_nomatch {s : PState}
    (h : s.cur.kind ≠ TokenKind.Tok_Hashtag) :
    handleOptionalHashBang s = (none, s) := by
  unfold handleOptionalHashBang
  rw [if_pos h]

theorem parseEos_eof {s : PState} (h : s.cur.kind = TokenKind.Tok_EOF) :
    parseEos s = (true, s) := by
  unfold parseEos
  rw [if_neg (by simp [h])]
  rw [if_pos h]

theorem printSrc_drop0 (args : List PrintArg) :
    (printSrc args).drop 0 = bl "print" ++ (40 :: (argsBytes args ++ [41])) := by
  rw [List.drop_zero]
  unfold printSrc
  rw [show bl "print(" = bl "print" ++ [40] from by decide]
  simp

theorem printSrc_drop6 (args : List PrintArg) :
    (printSrc args).drop 6 = argsBytes args ++ [41] := by
  have h : (printSrc args).drop (0 + (bl "print(").length) = argsBytes args ++ [41] :=
    drop_add_of_drop (by rw [List.drop_zero]; rfl)
  simpa using h

theorem printSrc_length (args : List PrintArg) :
    (printSrc args).length = 6 + (argsBytes args).length + 1 := by
  unfold printSrc
  simp [show (bl "print(").length = 6 from by decide]
  omega

theorem parseTop_printSrc (args : List PrintArg) (fuel : Nat)
    (hgood : args.all goodArg = true) :
    parseTop (2 * args.length + fuel + 8) (printSrc args)
      = some ({ ok := true, error := "",
                stmt := some (.program [.print (args.map argExpr) TokenKind.Tok_Print]) },
              tokState (printSrc args) (6 + (argsBytes args).length + 1)
                (6 + (argsBytes args).length + 1)) := by
  have htok0 : nextToken (Lexer.mk (printSrc args) 0 false false)
      = (⟨.Tok_Print, bl "print", 0, none⟩,
         Lexer.mk (printSrc args) (0 + 5) false false) :=
    nextToken_print (printSrc_drop0 args)
  have h1 := @tokState_eq (printSrc args) _ _ _ 0 htok0
  have hadv0 : advance (tokState (printSrc args) 0 0) = tokState (printSrc args) (0 + 5) 5 := by
    have h := advance_tokState 0 htok0
    simpa [show (bl "print").length = 5 from by decide] using h
  have hdrop5 : (printSrc args).drop (0 + 5) = 40 :: (argsBytes args ++ [41]) := by
    have h := drop_add_of_drop (A := bl "print") (printSrc_drop0 args)
    simpa [show (bl "print").length = 5 from by decide] using h
  have htok1 : nextToken (Lexer.mk (printSrc args) (0 + 5) false false)
      = (⟨.Tok_LParen, [40], 0 + 5, none⟩,
         Lexer.mk (printSrc args) (0 + 5 + 1) false false) :=
    nextToken_lparen hdrop5
  have h2 := @tokState_eq (printSrc args) _ _ _ 5 htok1
  have hadv1 : advance (tokState (printSrc args) (0 + 5) 5)
      = tokState (printSrc args) 6 6 := by
    have h := advance_tokState 5 htok1
    simpa using h
  have hloop := printArgsLoop_run args (fuel + 1) (printSrc args) 6 6 [] TokenKind.Tok_Print
    hgood (printSrc_drop6 args)
  have hprint : parsePrintStatementF (2 * args.length + fuel + 3) (tokState (printSrc args) 0 0)
      = some (some { ok := true, error := "",
                     stmt := some (.print (args.map argExpr) TokenKind.Tok_Print) },
              tokState (printSrc args) (6 + (argsBytes args).length + 1)
                (6 + (argsBytes args).length + 1)) := by
    have e1 : 2 * args.length + fuel + 3 = (2 * args.length + fuel + 2) + 1 := by omega
    rw [e1]
    rw [parsePrintStatementF_print (2 * args.length + fuel + 2)
      (by rw [h1]) (by rw [hadv0, h2])]
    rw [hadv0, hadv1]
    have e2 : 2 * args.length + fuel + 2 = 2 * args.length + 1 + (fuel + 1) := by omega
    rw [e2, hloop]
    simp
  have hstmt : parseStatementF (2 * args.length + fuel + 4) (tokState (printSrc args) 0 0)
      = some (some { ok := true, error := "",
                     stmt := some (.print (args.map argExpr) TokenKind.Tok_Print) },
              tokState (printSrc args) (6 + (argsBytes args).length + 1)
                (6 + (argsBytes args).length + 1)) := by
    have e1 : 2 * args.length + fuel + 4 = (2 * args.length + fuel + 1) + 3 := by omega
    have e2 : 2 * args.length + fuel + 3 = (2 * args.length + fuel + 1) + 2 := by omega
    rw [e1]
    exact parseStatementF_print (2 * args.length + fuel + 1) (by rw [h1]) (by rw [← e2, hprint])
  -- end-of-input facts
  have hdropE : (printSrc args).drop (6 + (argsBytes args).length + 1) = [] := by
    rw [← printSrc_length args]
    exact List.drop_length _
  have htokE : nextToken (Lexer.mk (printSrc args) (6 + (argsBytes args).length + 1) false false)
      = (⟨.Tok_EOF, [], 6 + (argsBytes args).length + 1, none⟩,
         Lexer.mk (printSrc args) (6 + (argsBytes args).length + 1) false false) :=
    nextToken_eof hdropE
  have hE := @tokState_eq (printSrc args) _ _ _ (6 + (argsBytes args).length + 1) htokE
  have hstep : srcElemStepF (2 * args.length + fuel + 5) (tokState (printSrc args) 0 0)
      = some (false, some (.print (args.map argExpr) TokenKind.Tok_Print),
              tokState (printSrc args) (6 + (argsBytes args).length + 1)
                (6 + (argsBytes args).length + 1)) := by
    have e1 : 2 * args.length + fuel + 5 = (2 * args.length + fuel + 4) + 1 := by omega
    rw [e1]
    rw [srcElemStepF]
    rw [show (tokState (printSrc args) 0 0).cur.kind = TokenKind.Tok_Print from by rw [h1]]
    simp only []
    rw [hstmt]
    simp only []
    rw [show isPrintStmt (some (Stmt.print (args.map argExpr) TokenKind.Tok_Print)) = true
      from rfl]
    simp only [if_true, ite_true]
    rw [parseEos_eof (by rw [hE])]
  have hloopSE : srcElemsLoopF (2 * args.length + fuel + 6) (tokState (printSrc args) 0 0) []
      = some ([.print (args.map argExpr) TokenKind.Tok_Print],
              tokState (printSrc args) (6 + (argsBytes args).length + 1)
                (6 + (argsBytes args).length + 1)) := by
    have e1 : 2 * args.length + fuel + 6 = (2 * args.length + fuel + 5) + 1 := by omega
    rw [e1]
    rw [srcElemsLoopF]
    rw [hstep]
    rw [h1, hE]
    try simp only []
    rw [if_neg (by simp)]
    try simp only []
    rw [if_neg (by simp)]
    simp
    have e2 : 2 * args.length + fuel + 5 = (2 * args.length + fuel + 4) + 1 := by omega
    rw [e2]
    rw [srcElemsLoopF]
    rw [if_pos (by simp)]
  unfold parseTop
  rw [initPState_eq_tokState]
  have e1 : 2 * args.length + fuel + 8 = (2 * args.length + fuel + 7) + 1 := by omega
  rw [e1]
  rw [parseF]
  rw [handleOptionalHashBang_nomatch (by rw [h1]; simp)]
  simp only []
  have e2 : 2 * args.length + fuel + 7 = (2 * args.length + fuel + 6) + 1 := by omega
  rw [e2]
  rw [parseSourceElementsF]
  rw [hloopSE]
  rw [hE]
  simp


/-- C1: the original claim is falsified at the concrete input `print(x)`.
The claim says an identifier argument is accepted, but the lexer never
emits `Tok_Identifier` (a non-keyword identifier lexes as `Tok_Invalid`),
so `parsePrintStatement` rejects it with "unsupported print argument";
the top-level parse then swallows the rejection and returns a result with
no `PrintStmt` at all.  A fractional numeric literal (`1.5`) is rejected
the same way since `Tok_Number` is never produced either. -/
theorem claim1_counterexample :
    (parseTop 60 (bl "print(x)")).map (fun p => (p.1.ok, p.1.error, p.1.stmt.isSome))
      = some (true, "", false)
  ∧ (lexList 8 (mkLexer (bl "print(x)"))).map (fun t => t.kind)
      = [TokenKind.Tok_Print, TokenKind.Tok_LParen, TokenKind.Tok_Invalid,
         TokenKind.Tok_RParen] := by
  exact ⟨rfl, by decide⟩

/-- C1 (amended): for every argument list in which each argument is an
integer literal or a plain quoted string, the parser accepts
`print(<args>)` and yields a `PrintStmt` recording the originating token
kind with one `Expr.lit` per source argument in order, quotes stripped
from string arguments; identifier and fractional-number arguments are
instead rejected with "unsupported print argument", because the lexer
never produces the `Tok_Identifier`/`Tok_Number` kinds those parser
branches test for. -/
theorem claim1_print_args_amended :
    (∀ args : List PrintArg, ∀ fuel : Nat, args.all goodArg = true →
       (parseTop (2 * args.length + fuel + 8) (printSrc args)).map
           (fun p => (p.1.ok, p.1.error, p.1.stmt))
         = some (true, "",
             some (.program [.print (args.map argExpr) TokenKind.Tok_Print])))
  ∧ (parsePrintStatementF 50 (initPState (bl "print(x)"))).map
       (fun p => p.1.map (fun r => (r.ok, r.error, r.stmt.isSome)))
     = some (some (false, "unsupported print argument", false))
  ∧ (parsePrintStatementF 50 (initPState (bl "print(1.5)"))).map
       (fun p => p.1.map (fun r => (r.ok, r.error, r.stmt.isSome)))
     = some (some (false, "unsupported print argument", false)) := by
  refine ⟨?_, by rfl, by rfl⟩
  intro args fuel hgood
  rw [parseTop_printSrc args fuel hgood]
  rfl

/-- Witness for C1 (amended) at `print(7,"hi")`. -/
theorem claim1_print_args_amended_witness :
    (parseTop (2 * ([PrintArg.int 7, PrintArg.str 34 (bl "hi")] : List PrintArg).length + 0 + 8)
        (printSrc [PrintArg.int 7, PrintArg.str 34 (bl "hi")])).map
        (fun p => (p.1.ok, p.1.error, p.1.stmt))
      = some (true, "",
          some (.program [.print ([PrintArg.int 7, PrintArg.str 34 (bl "hi")].map argExpr)
            TokenKind.Tok_Print])) :=
  claim1_print_args_amended.1 [PrintArg.int 7, PrintArg.str 34 (bl "hi")] 0 (by decide)

/-- C2: confirmed — for every decimal integer `n`, parsing
`print(<decimal digits of n>)` succeeds and yields a `PrintStmt` with
exactly one `LiteralExpr` argument whose text, read back as a decimal
integer (`decValue`), is `n` again. -/
theorem claim2_print_int_roundtrip (n fuel : Nat) :
    (parseTop (fuel + 10) (printSrc [PrintArg.int n])).map
        (fun p => (p.1.ok, p.1.error, p.1.stmt))
      = some (true, "",
          some (.program [.print [Expr.lit (decRepr n)] TokenKind.Tok_Print]))
    ∧ decValue (decRepr n) = n := by
  constructor
  · have h := parseTop_printSrc [PrintArg.int n] fuel (by simp [goodArg])
    have e : 2 * ([PrintArg.int n] : List PrintArg).length + fuel + 8 = fuel + 10 := by
      simp
      omega
    rw [e] at h
    rw [h]
    rfl
  · exact decValue_decRepr n

/-- C7 (amended): when the argument loop of `parsePrintStatement` reaches
end of input without a closing `)`, it does NOT fail: it returns a
successful `PrintStmt` built from the arguments seen so far (first
conjunct, the EOF branch of the loop), and the whole parse of `print(`
returns a success result carrying that `PrintStmt` (second conjunct). -/
theorem claim7_print_eof_amended :
    (∀ fuel : Nat, ∀ s : PState, ∀ args : List Expr, ∀ ea : Bool, ∀ pk : TokenKind,
       s.cur.kind = TokenKind.Tok_EOF →
       printArgsLoopF (fuel + 1) s args ea pk
         = some (some { ok := true, error := "", stmt := some (.print args pk) }, s))
  ∧ (parseTop 60 (bl "print(")).map (fun p => (p.1.ok, p.1.error, p.1.stmt))
      = some (true, "", some (.program [.print [] TokenKind.Tok_Print])) := by
  constructor
  · intro fuel s args ea pk h
    rw [printArgsLoopF]
    rw [if_pos h]
  · rfl

/-- C7: the original claim is falsified at the concrete input
`print("hi"` (no closing paren): `Parser::parse()` returns a SUCCESS
result with an AST, not a failed result with a diagnostic — the EOF case
of the argument loop treats end of input like `)`. -/
theorem claim7_counterexample :
    (parseTop 60 (bl "print(\"hi\"")).map (fun p => (p.1.ok, p.1.error, p.1.stmt))
      = some (true, "", some (.program [.print [Expr.lit (bl "hi")] TokenKind.Tok_Print])) := by
  rfl

/-- Witness for C7 (amended): the EOF branch fired at the initial state of
the empty source. -/
theorem claim7_amended_witness :
    printArgsLoopF 1 (initPState (bl "")) [] true TokenKind.Tok_Print
      = some (some { ok := true, error := "", stmt := some (.print [] TokenKind.Tok_Print) },
              initPState (bl "")) :=
  claim7_print_eof_amended.1 0 (initPState (bl "")) [] true TokenKind.Tok_Print (by decide)



theorem handleOptionalHashBang_litOnly :
    ∀ s r s', handleOptionalHashBang s = (some r, s') → resultLitOnly r = true := by
  intro s r s' h
  rw [handleOptionalHashBang] at h
  try simp only [] at h
  repeat' split at h
  all_goals
    (injection h with h1 h2
     first
     | exact Option.noConfusion h1
     | (injection h1 with h1; subst h1; rfl))

theorem parseContinueStatement_litOnly :
    ∀ s r s', parseContinueStatement s = (some r, s') → resultLitOnly r = true := by
  intro s r s' h
  rw [parseContinueStatement] at h
  try simp only [] at h
  repeat' split at h
  all_goals
    (injection h with h1 h2
     first
     | exact Option.noConfusion h1
     | (injection h1 with h1; subst h1; rfl))

theorem parseBreakStatement_litOnly :
    ∀ s r s', parseBreakStatement s = (some r, s') → resultLitOnly r = true := by
  intro s r s' h
  rw [parseBreakStatement] at h
  try simp only [] at h
  repeat' split at h
  all_goals
    (injection h with h1 h2
     first
     | exact Option.noConfusion h1
     | (injection h1 with h1; subst h1; rfl))

theorem parseEmptyStatement_litOnly :
    ∀ s r s', parseEmptyStatement s = (some r, s') → resultLitOnly r = true := by
  intro s r s' h
  rw [parseEmptyStatement] at h
  try simp only [] at h
  repeat' split at h
  all_goals
    (injection h with h1 h2
     first
     | exact Option.noConfusion h1
     | (injection h1 with h1; subst h1; rfl))

theorem printArgsLoopF_litOnly (fuel : Nat) :
    ∀ s args ea pk r s', args.all exprLitOnly = true →
      printArgsLoopF fuel s args ea pk = some (some r, s') → resultLitOnly r = true := by
  induction fuel with
  | zero => intro s args ea pk r s' _ h; exact Option.noConfusion h
  | succ fuel ih =>
    intro s args ea pk r s' hargs h
    rw [printArgsLoopF] at h
    try simp only [] at h
    repeat' split at h
    all_goals
      first
      | exact ih _ _ _ _ _ _ hargs h
      | exact ih _ _ _ _ _ _ (by simp [List.all_append, hargs, exprLitOnly]) h
      | (injection h with h1
         injection h1 with h1 h2
         first
         | exact Option.noConfusion h1
         | (injection h1 with h1
            subst h1
            first
            | rfl
            | simp [resultLitOnly, stmtLitOnly, hargs]))

theorem parsePrintStatementF_litOnly (fuel : Nat) :
    ∀ s r s', parsePrintStatementF fuel s = some (some r, s') → resultLitOnly r = true := by
  cases fuel with
  | zero => intro s r s' h; exact Option.noConfusion h
  | succ fuel =>
    intro s r s' h
    rw [parsePrintStatementF] at h
    try simp only [] at h
    repeat' split at h
    all_goals
      first
      | exact Option.noConfusion h
      | (refine printArgsLoopF_litOnly fuel _ _ _ _ _ _ ?_ h
         rfl)
      | (injection h with h1
         injection h1 with h1 h2
         first
         | exact Option.noConfusion h1
         | (injection h1 with h1; subst h1; rfl))

theorem parseImportStatementF_litOnly (fuel : Nat) :
    ∀ s r s', parseImportStatementF fuel s = some (some r, s') → resultLitOnly r = true := by
  cases fuel with
  | zero => intro s r s' h; exact Option.noConfusion h
  | succ fuel =>
    intro s r s' h
    rw [parseImportStatementF] at h
    try simp only [] at h
    repeat' split at h
    all_goals
      first
      | exact Option.noConfusion h
      | (injection h with h1
         injection h1 with h1 h2
         first
         | exact Option.noConfusion h1
         | (injection h1 with h1; subst h1; rfl))

theorem parseFunctionDeclarationF_litOnly (fuel : Nat) :
    ∀ s r s', parseFunctionDeclarationF fuel s = some (some r, s') → resultLitOnly r = true := by
  cases fuel with
  | zero => intro s r s' h; exact Option.noConfusion h
  | succ fuel =>
    intro s r s' h
    rw [parseFunctionDeclarationF] at h
    try simp only [] at h
    repeat' split at h
    all_goals
      first
      | exact Option.noConfusion h
      | (injection h with h1
         injection h1 with h1 h2
         first
         | exact Option.noConfusion h1
         | (injection h1 with h1; subst h1; rfl))

theorem parseVariableStatementF_litOnly (fuel : Nat) :
    ∀ s r s', parseVariableStatementF fuel s = some (some r, s') → resultLitOnly r = true := by
  cases fuel with
  | zero => intro s r s' h; exact Option.noConfusion h
  | succ fuel =>
    intro s r s' h
    rw [parseVariableStatementF] at h
    try simp only [] at h
    repeat' split at h
    all_goals
      first
      | exact Option.noConfusion h
      | (injection h with h1
         injection h1 with h1 h2
         first
         | exact Option.noConfusion h1
         | (injection h1 with h1; subst h1; rfl))

theorem parseClassDeclarationF_litOnly (fuel : Nat) :
    ∀ s r s', parseClassDeclarationF fuel s = some (some r, s') → resultLitOnly r = true := by
  cases fuel with
  | zero => intro s r s' h; exact Option.noConfusion h
  | succ fuel =>
    intro s r s' h
    rw [parseClassDeclarationF] at h
    try simp only [] at h
    repeat' split at h
    all_goals
      first
      | exact Option.noConfusion h
      | (injection h with h1
         injection h1 with h1 h2
         first
         | exact Option.noConfusion h1
         | (injection h1 with h1; subst h1; rfl))

set_option maxHeartbeats 2000000 in
theorem parseDeclarationF_litOnly (fuel : Nat) :
    ∀ s r s', parseDeclarationF fuel s = some (some r, s') → resultLitOnly r = true := by
  cases fuel with
  | zero => intro s r s' h; exact Option.noConfusion h
  | succ fuel =>
    intro s r s' h
    rw [parseDeclarationF] at h
    try simp only [] at h
    repeat' split at h
    all_goals
      first
      | exact Option.noConfusion h
      | (injection h with h1
         injection h1 with h1 h2
         first
         | exact Option.noConfusion h1
         | (injection h1 with h1
            subst h1
            first
            | rfl
            | exact parseClassDeclarationF_litOnly fuel _ _ _ (by assumption)))

theorem parseExpressionStatementTailF_litOnly (fuel : Nat) :
    ∀ s r s', parseExpressionStatementTailF fuel s = some (some r, s') →
      resultLitOnly r = true := by
  cases fuel with
  | zero => intro s r s' h; exact Option.noConfusion h
  | succ fuel =>
    intro s r s' h
    rw [parseExpressionStatementTailF] at h
    try simp only [] at h
    repeat' split at h
    all_goals
      first
      | exact Option.noConfusion h
      | (injection h with h1
         injection h1 with h1 h2
         first
         | exact Option.noConfusion h1
         | (injection h1 with h1; subst h1; rfl))

set_option maxHeartbeats 2000000 in
theorem parseExpressionStatementF_litOnly (fuel : Nat) :
    ∀ s r s', parseExpressionStatementF fuel s = some (some r, s') → resultLitOnly r = true := by
  cases fuel with
  | zero => intro s r s' h; exact Option.noConfusion h
  | succ fuel =>
    intro s r s' h
    rw [parseExpressionStatementF] at h
    try simp only [] at h
    repeat' split at h
    all_goals
      first
      | exact Option.noConfusion h
      | exact parseExpressionStatementTailF_litOnly fuel _ _ _ h
      | (injection h with h1
         injection h1 with h1 h2
         first
         | exact Option.noConfusion h1
         | (injection h1 with h1
            subst h1
            first
            | rfl
            | exact parseDeclarationF_litOnly fuel _ _ _ (by assumption)))

theorem parseReturnStatementF_litOnly (fuel : Nat) :
    ∀ s r s', parseReturnStatementF fuel s = some (some r, s') → resultLitOnly r = true := by
  cases fuel with
  | zero => intro s r s' h; exact Option.noConfusion h
  | succ fuel =>
    intro s r s' h
    rw [parseReturnStatementF] at h
    try simp only [] at h
    repeat' split at h
    all_goals
      first
      | exact Option.noConfusion h
      | (injection h with h1
         injection h1 with h1 h2
         first
         | exact Option.noConfusion h1
         | (injection h1 with h1; subst h1; rfl))

theorem parseYieldStatementF_litOnly (fuel : Nat) :
    ∀ s r s', parseYieldStatementF fuel s = some (some r, s') → resultLitOnly r = true := by
  cases fuel with
  | zero => intro s r s' h; exact Option.noConfusion h
  | succ fuel =>
    intro s r s' h
    rw [parseYieldStatementF] at h
    try simp only [] at h
    repeat' split at h
    all_goals
      first
      | exact Option.noConfusion h
      | (injection h with h1
         injection h1 with h1 h2
         first
         | exact Option.noConfusion h1
         | (injection h1 with h1; subst h1; rfl))

theorem parseSwitchStatementF_litOnly (fuel : Nat) :
    ∀ s r s', parseSwitchStatementF fuel s = some (some r, s') → resultLitOnly r = true := by
  cases fuel with
  | zero => intro s r s' h; exact Option.noConfusion h
  | succ fuel =>
    intro s r s' h
    rw [parseSwitchStatementF] at h
    try simp only [] at h
    repeat' split at h
    all_goals
      first
      | exact Option.noConfusion h
      | (injection h with h1
         injection h1 with h1 h2
         first
         | exact Option.noConfusion h1
         | (injection h1 with h1; subst h1; rfl))

set_option maxHeartbeats 4000000 in
theorem parseExportStatementF_litOnly (fuel : Nat) :
    ∀ s r s', parseExportStatementF fuel s = some (some r, s') → resultLitOnly r = true := by
  cases fuel with
  | zero => intro s r s' h; exact Option.noConfusion h
  | succ fuel =>
    intro s r s' h
    rw [parseExportStatementF] at h
    try simp only [] at h
    repeat' split at h
    all_goals
      first
      | exact Option.noConfusion h
      | (injection h with h1
         injection h1 with h1 h2
         first
         | exact Option.noConfusion h1
         | (injection h1 with h1
            subst h1
            first
            | rfl
            | exact parseDeclarationF_litOnly fuel _ _ _ (by assumption)))

set_option maxHeartbeats 4000000 in
theorem stmtCoreLit_all (fuel : Nat) : stmtCoreLit fuel := by
  induction fuel with
  | zero =>
    exact ⟨fun s r s' h => Option.noConfusion h,
           fun s last any r s' _ h => Option.noConfusion h,
           fun s r s' h => Option.noConfusion h,
           fun s r s' h => Option.noConfusion h,
           fun s r s' h => Option.noConfusion h,
           fun s r s' h => Option.noConfusion h,
           fun s r s' h => Option.noConfusion h,
           fun s r s' h => Option.noConfusion h,
           fun s r s' h => Option.noConfusion h,
           fun s r s' h => Option.noConfusion h,
           fun s r s' h => Option.noConfusion h⟩
  | succ fuel ih =>
    obtain ⟨ihStmt, ihLoop, ihList, ihBlock, ihIf, ihIter, ihAI, ihAC, ihCl, ihWith, ihLab⟩ := ih
    refine ⟨?_, ?_, ?_, ?_, ?_, ?_, ?_, ?_, ?_, ?_, ?_⟩
    · intro s r s' h
      rw [parseStatementF] at h
      try simp only [] at h
      repeat' split at h
      all_goals
        first
        | exact Option.noConfusion h
        | (injection h with h1
           injection h1 with h1 h2
           first
           | exact Option.noConfusion h1
           | (injection h1 with h1
              subst h1
              first
              | rfl
              | exact ihStmt _ _ _ (by assumption)
              | exact ihList _ _ _ (by assumption)
              | exact ihBlock _ _ _ (by assumption)
              | exact ihIf _ _ _ (by assumption)
              | exact ihIter _ _ _ (by assumption)
              | exact ihWith _ _ _ (by assumption)
              | exact ihLab _ _ _ (by assumption)
              | exact parseVariableStatementF_litOnly fuel _ _ _ (by assumption)
              | exact parseClassDeclarationF_litOnly fuel _ _ _ (by assumption)
              | exact parseEmptyStatement_litOnly _ _ _ (by assumption)
              | exact parseImportStatementF_litOnly fuel _ _ _ (by assumption)
              | exact parseExportStatementF_litOnly fuel _ _ _ (by assumption)
              | exact parsePrintStatementF_litOnly fuel _ _ _ (by assumption)
              | exact parseExpressionStatementF_litOnly fuel _ _ _ (by assumption)
              | exact parseContinueStatement_litOnly _ _ _ (by assumption)
              | exact parseBreakStatement_litOnly _ _ _ (by assumption)
              | exact parseReturnStatementF_litOnly fuel _ _ _ (by assumption)
              | exact parseYieldStatementF_litOnly fuel _ _ _ (by assumption)
              | exact parseSwitchStatementF_litOnly fuel _ _ _ (by assumption)))
    · intro s last any r s' hlast h
      rw [stmtListLoopF] at h
      try simp only [] at h
      repeat' split at h
      all_goals
        first
        | exact Option.noConfusion h
        | exact ihLoop _ _ _ _ _ (fun rl hrl => by
            injection hrl with e
            exact e ▸ ihStmt _ _ _ (by assumption)) h
        | (injection h with h1
           injection h1 with h1 h2
           first
           | exact Option.noConfusion h1
           | exact hlast _ h1
           | (injection h1 with h1
              subst h1
              exact ihStmt _ _ _ (by assumption)))
    · intro s r s' h
      rw [parseStatementListF] at h
      exact ihLoop _ _ _ _ _ (fun rl hrl => Option.noConfusion hrl) h
    · intro s r s' h
      rw [parseBlockF] at h
      try simp only [] at h
      repeat' split at h
      all_goals
        first
        | exact Option.noConfusion h
        | (injection h with h1
           injection h1 with h1 h2
           first
           | exact Option.noConfusion h1
           | (injection h1 with h1
              subst h1
              first
              | rfl
              | exact ihList _ _ _ (by assumption)))
    · intro s r s' h
      rw [parseIfStatementF] at h
      try simp only [] at h
      repeat' split at h
      all_goals
        first
        | exact Option.noConfusion h
        | (injection h with h1
           injection h1 with h1 h2
           first
           | exact Option.noConfusion h1
           | (injection h1 with h1
              subst h1
              first
              | rfl
              | exact ihStmt _ _ _ (by assumption)))
    · intro s r s' h
      rw [parseIterationStatementF] at h
      try simp only [] at h
      repeat' split at h
      all_goals
        first
        | exact Option.noConfusion h
        | exact ihAI _ _ _ h
        | (injection h with h1
           injection h1 with h1 h2
           first
           | exact Option.noConfusion h1
           | (injection h1 with h1
              subst h1
              first
              | rfl
              | exact ihStmt _ _ _ (by assumption)))
    · intro s r s' h
      rw [forAfterInitF] at h
      try simp only [] at h
      repeat' split at h
      all_goals
        first
        | exact Option.noConfusion h
        | exact ihAC _ _ _ h
        | (injection h with h1
           injection h1 with h1 h2
           first
           | exact Option.noConfusion h1
           | (injection h1 with h1
              subst h1
              rfl))
    · intro s r s' h
      rw [forAfterCondF] at h
      try simp only [] at h
      repeat' split at h
      all_goals
        first
        | exact Option.noConfusion h
        | exact ihCl _ _ _ h
        | (injection h with h1
           injection h1 with h1 h2
           first
           | exact Option.noConfusion h1
           | (injection h1 with h1
              subst h1
              rfl))
    · intro s r s' h
      rw [forCloseF] at h
      try simp only [] at h
      repeat' split at h
      all_goals
        first
        | exact Option.noConfusion h
        | (injection h with h1
           injection h1 with h1 h2
           first
           | exact Option.noConfusion h1
           | (injection h1 with h1
              subst h1
              first
              | rfl
              | exact ihStmt _ _ _ (by assumption)))
    · intro s r s' h
      rw [parseWithStatementF] at h
      try simp only [] at h
      repeat' split at h
      all_goals
        first
        | exact Option.noConfusion h
        | (injection h with h1
           injection h1 with h1 h2
           first
           | exact Option.noConfusion h1
           | (injection h1 with h1
              subst h1
              first
              | rfl
              | exact ihStmt _ _ _ (by assumption)))
    · intro s r s' h
      rw [parseLabelledStatementF] at h
      try simp only [] at h
      repeat' split at h
      all_goals
        first
        | exact Option.noConfusion h
        | (injection h with h1
           injection h1 with h1 h2
           first
           | exact Option.noConfusion h1
           | (injection h1 with h1
              subst h1
              first
              | rfl
              | exact ihStmt _ _ _ (by assumption)))

theorem resultLitOnly_stmt {r : ParseResult} {st : Stmt}
    (h : resultLitOnly r = true) (he : r.stmt = some st) : stmtLitOnly st = true := by
  unfold resultLitOnly at h
  rw [he] at h
  exact h

theorem stmtsLitOnly_append (a b : List Stmt) :
    stmtsLitOnly (a ++ b) = (stmtsLitOnly a && stmtsLitOnly b) := by
  induction a with
  | nil => simp [stmtsLitOnly]
  | cons st rest ih => simp [stmtsLitOnly, ih, Bool.and_assoc]

set_option maxHeartbeats 4000000 in
theorem srcElemStepF_lit (fuel : Nat) :
    ∀ s brk stOpt s', srcElemStepF fuel s = some (brk, stOpt, s') →
      ∀ st, stOpt = some st → stmtLitOnly st = true := by
  cases fuel with
  | zero => intro s brk stOpt s' h; exact Option.noConfusion h
  | succ fuel =>
    intro s brk stOpt s' h st hst
    rw [srcElemStepF] at h
    try simp only [] at h
    repeat' split at h
    all_goals
      first
      | exact Option.noConfusion h
      | (injection h with h1
         injection h1 with hb h1
         injection h1 with hs h2
         subst hs
         first
         | exact Option.noConfusion hst
         | exact resultLitOnly_stmt
             (parseClassDeclarationF_litOnly fuel _ _ _ (by assumption)) hst
         | exact resultLitOnly_stmt
             (parseFunctionDeclarationF_litOnly fuel _ _ _ (by assumption)) hst
         | exact resultLitOnly_stmt ((stmtCoreLit_all fuel).1 _ _ _ (by assumption)) hst
         | exact resultLitOnly_stmt
             (parsePrintStatementF_litOnly fuel _ _ _ (by assumption)) hst
         | exact resultLitOnly_stmt
             (parseExpressionStatementF_litOnly fuel _ _ _ (by assumption)) hst)

theorem srcElemsLoopF_lit (fuel : Nat) :
    ∀ s acc out s', stmtsLitOnly acc = true →
      srcElemsLoopF fuel s acc = some (out, s') → stmtsLitOnly out = true := by
  induction fuel with
  | zero => intro s acc out s' _ h; exact Option.noConfusion h
  | succ fuel ih =>
    intro s acc out s' hacc h
    rw [srcElemsLoopF] at h
    try simp only [] at h
    repeat' split at h
    all_goals
      first
      | exact Option.noConfusion h
      | exact ih _ _ _ _ hacc h
      | exact ih _ _ _ _ (by
          rw [stmtsLitOnly_append]
          have hst : stmtLitOnly _ = true :=
            srcElemStepF_lit fuel _ _ _ _ (by assumption) _ rfl
          simp [stmtsLitOnly, hacc, hst]) h
      | (injection h with h1
         injection h1 with h1 h2
         subst h1
         exact hacc)

theorem parseSourceElementsF_lit (fuel : Nat) :
    ∀ s r s', parseSourceElementsF fuel s = some (some r, s') → resultLitOnly r = true := by
  cases fuel with
  | zero => intro s r s' h; exact Option.noConfusion h
  | succ fuel =>
    intro s r s' h
    rw [parseSourceElementsF] at h
    try simp only [] at h
    repeat' split at h
    all_goals
      first
      | exact Option.noConfusion h
      | (injection h with h1
         injection h1 with h1 h2
         first
         | exact Option.noConfusion h1
         | (injection h1 with h1
            subst h1
            simp only [resultLitOnly, stmtLitOnly]
            exact srcElemsLoopF_lit fuel _ [] _ _ rfl (by assumption)))

theorem parseF_lit (fuel : Nat) :
    ∀ s r s', parseF fuel s = some (r, s') → resultLitOnly r = true := by
  cases fuel with
  | zero => intro s r s' h; exact Option.noConfusion h
  | succ fuel =>
    intro s r s' h
    rw [parseF] at h
    try simp only [] at h
    repeat' split at h
    all_goals
      first
      | exact Option.noConfusion h
      | (injection h with h1
         injection h1 with h1 h2
         subst h1
         first
         | rfl
         | exact handleOptionalHashBang_litOnly _ _ _ (by assumption)
         | exact parseSourceElementsF_lit fuel _ _ _ (by assumption))

/-- C10: confirmed — in every AST returned by `Parser::parse()`, every
expression node reachable from the root is a `LiteralExpr`: the parser only
ever builds argument expressions with `Expr.lit` (in `parsePrintStatement`'s
argument loop), so whatever result `parse` returns satisfies the
literal-only predicate `resultLitOnly`. -/
theorem claim10_literal_only_ast (fuel : Nat) (src : List Byte) (r : ParseResult) (s' : PState)
    (h : parseTop fuel src = some (r, s')) : resultLitOnly r = true := by
  unfold parseTop at h
  exact parseF_lit fuel _ _ _ h

/-- Witness for C10 at the concrete parse of `print(1)`. -/
theorem claim10_literal_only_ast_witness :
    resultLitOnly (ParseResult.mk true ""
      (some (Stmt.program [Stmt.print [Expr.lit (bl "1")] TokenKind.Tok_Print]))) = true :=
  claim10_literal_only_ast 60 (bl "print(1)") _ _ (by rfl)

